import Mathlib

/-!
# nav2_velocity_smoother: the constraint solver and the smoother loop

A shallow embedding of `src/nav2_velocity_smoother/src/velocity_smoother.cpp`.

* There are two arithmetic layers. The definitions without a suffix compute
  over exact rationals `ℚ`: statements about them are about the idealised
  real-number behaviour of the code. The definitions with the suffix `64`
  (section "Binary64 arithmetic") round the result of every arithmetic
  operation to binary64 with `fl64`, as the compiled program does; the timer
  period of `on_activate` and of a reconfiguration is computed that way too.
* `rclcpp::Time` and `rclcpp::Duration` are integers (nanoseconds).
* The member `smoothing_frequency_`, read by `findEtaConstraint` and
  `applyConstraints`, is their first explicit argument.
-/

namespace nav2_velocity_smoother

/-! ## Message types (geometry_msgs, std_msgs, builtin_interfaces) -/

/-- The message type geometry_msgs::msg::Vector3. -/
structure Vector3 where
  x : ℚ
  y : ℚ
  z : ℚ
deriving DecidableEq

/-- The message type geometry_msgs::msg::Twist; its default value is all zero. -/
structure Twist where
  linear : Vector3
  angular : Vector3
deriving DecidableEq

/-- The message type builtin_interfaces::msg::Time. -/
structure Stamp where
  sec : Int
  nanosec : Nat
deriving DecidableEq

/-- The message type std_msgs::msg::Header. -/
structure Header where
  stamp : Stamp
  frame_id : String
deriving DecidableEq

/-- The message type geometry_msgs::msg::TwistStamped. -/
structure TwistStamped where
  header : Header
  twist : Twist
deriving DecidableEq

/-- Default-constructed `geometry_msgs::msg::Twist()`. -/
def Twist.zero : Twist := ⟨⟨0, 0, 0⟩, ⟨0, 0, 0⟩⟩

/-- Default-constructed `geometry_msgs::msg::TwistStamped()`. -/
def TwistStamped.zero : TwistStamped := ⟨⟨⟨0, 0⟩, ""⟩, Twist.zero⟩

/-- Conversion of an `rclcpp::Time` (nanoseconds) to a message stamp. -/
def Stamp.ofTime (t : Int) : Stamp := ⟨t / 1000000000, (t % 1000000000).toNat⟩

/-- Conversion of a message stamp to an `rclcpp::Time` (nanoseconds). -/
def Stamp.toTime (st : Stamp) : Int := st.sec * 1000000000 + st.nanosec

/-! ## The constraint solver -/

/-- The function `std::clamp(v, lo, hi)`: `(v < lo) ? lo : (hi < v) ? hi : v`. -/
def clamp (v lo hi : ℚ) : ℚ :=
  if v < lo then lo else if hi < v then hi else v

/-- The method `VelocitySmoother::findEtaConstraint` (lines 250-279). The
unqualified `abs` of the source is the absolute value of a `double`. -/
def findEtaConstraint (smoothing_frequency_ v_curr v_cmd accel decel : ℚ) : ℚ :=
  let dv := v_cmd - v_curr
  let v_component_max :=
    if |v_cmd| ≥ |v_curr| ∧ v_curr * v_cmd ≥ 0 then accel / smoothing_frequency_
    else -decel / smoothing_frequency_
  let v_component_min :=
    if |v_cmd| ≥ |v_curr| ∧ v_curr * v_cmd ≥ 0 then -accel / smoothing_frequency_
    else decel / smoothing_frequency_
  if dv > v_component_max then v_component_max / dv
  else if dv < v_component_min then v_component_min / dv
  else -1

/-- The method `VelocitySmoother::applyConstraints` (lines 281-302). -/
def applyConstraints (smoothing_frequency_ v_curr v_cmd accel decel eta : ℚ) : ℚ :=
  let dv := v_cmd - v_curr
  let v_component_max :=
    if |v_cmd| ≥ |v_curr| ∧ v_curr * v_cmd ≥ 0 then accel / smoothing_frequency_
    else -decel / smoothing_frequency_
  let v_component_min :=
    if |v_cmd| ≥ |v_curr| ∧ v_curr * v_cmd ≥ 0 then -accel / smoothing_frequency_
    else decel / smoothing_frequency_
  v_curr + clamp (eta * dv) v_component_min v_component_max

/-! ### Vocabulary of the specification (section 4.3) -/

/-- Direction classification of the specification: the axis is accelerating
iff `|v_cmd| ≥ |v_curr|` and `v_curr * v_cmd ≥ 0`. -/
def accelerating (v_curr v_cmd : ℚ) : Prop :=
  |v_cmd| ≥ |v_curr| ∧ v_curr * v_cmd ≥ 0

instance (v_curr v_cmd : ℚ) : Decidable (accelerating v_curr v_cmd) := by
  unfold accelerating; infer_instance

/-- Upper bound of the one-tick delta in the specification: `accel/f` when
accelerating, `-decel/f` when decelerating. -/
def upperBound (f v_curr v_cmd accel decel : ℚ) : ℚ :=
  if accelerating v_curr v_cmd then accel / f else -decel / f

/-- Lower bound of the one-tick delta in the specification: `-accel/f` when
accelerating, `decel/f` when decelerating. -/
def lowerBound (f v_curr v_cmd accel decel : ℚ) : ℚ :=
  if accelerating v_curr v_cmd then -accel / f else decel / f

/-- The axis is in violation: the requested change `dv = v_cmd - v_curr` is
above the upper or below the lower one-tick delta bound. -/
def violates (f v_curr v_cmd accel decel : ℚ) : Prop :=
  v_cmd - v_curr > upperBound f v_curr v_cmd accel decel ∨
    v_cmd - v_curr < lowerBound f v_curr v_cmd accel decel

instance (f v_curr v_cmd accel decel : ℚ) : Decidable (violates f v_curr v_cmd accel decel) := by
  unfold violates; infer_instance

/-- The violation probe as the specification words it (section 4.3, step 1):
`upper/dv` if `dv` exceeds the upper bound, otherwise `lower/dv` if `dv` is
below the lower bound, otherwise the sentinel `-1`. -/
def findEtaConstraint_spec (f v_curr v_cmd accel decel : ℚ) : ℚ :=
  let dv := v_cmd - v_curr
  let bounds : ℚ × ℚ :=
    if accelerating v_curr v_cmd then (-accel / f, accel / f) else (decel / f, -decel / f)
  if dv > bounds.2 then bounds.2 / dv
  else if dv < bounds.1 then bounds.1 / dv
  else -1

/-! ## The node state -/

/-- A `double` as it arrives in a message: a finite value, NaN or an infinity. -/
inductive Double where
  | finite (q : ℚ)
  | nan
  | posInf
  | negInf
deriving DecidableEq

/-- The function `std::isfinite`. -/
def Double.isFinite : Double → Bool
  | .finite _ => true
  | _ => false

/-- The value of a finite double (0 for the others, which are never stored). -/
def Double.value : Double → ℚ
  | .finite q => q
  | _ => 0

/-- A received geometry_msgs::msg::Twist, whose fields may be non-finite. -/
structure RawTwist where
  linear_x : Double
  linear_y : Double
  linear_z : Double
  angular_x : Double
  angular_y : Double
  angular_z : Double
deriving DecidableEq

/-- A received geometry_msgs::msg::TwistStamped. -/
structure RawTwistStamped where
  header : Header
  twist : RawTwist
deriving DecidableEq

/-- Modelled from the spec: `nav2_util::validateTwist` is not part of the
sources at hand; a command is valid when every component is finite (no NaN, no
infinity). -/
def validateTwist (t : RawTwist) : Bool :=
  t.linear_x.isFinite && t.linear_y.isFinite && t.linear_z.isFinite &&
    t.angular_x.isFinite && t.angular_y.isFinite && t.angular_z.isFinite

/-- The finite twist carried by a validated message. -/
def RawTwist.toTwist (t : RawTwist) : Twist :=
  ⟨⟨t.linear_x.value, t.linear_y.value, t.linear_z.value⟩,
    ⟨t.angular_x.value, t.angular_y.value, t.angular_z.value⟩⟩

/-- The members of class `VelocitySmoother` that the callbacks read and write.
`timer_` holds the period in milliseconds of the wall timer, `odom_smoother_`
the duration and topic the odometry smoother was built with. -/
structure VelocitySmoother where
  smoothing_frequency_ : ℚ
  velocity_timeout_ : Int
  open_loop_ : Bool
  scale_velocities_ : Bool
  max_velocities_ : List ℚ
  min_velocities_ : List ℚ
  max_accels_ : List ℚ
  max_decels_ : List ℚ
  deadband_velocities_ : List ℚ
  odom_topic_ : String
  odom_duration_ : ℚ
  timer_ : Option Int
  odom_smoother_ : Option (ℚ × String)
  command_ : Option TwistStamped
  last_command_time_ : Int
  last_cmd_ : TwistStamped
  stopped_ : Bool
deriving DecidableEq

/-- What one run of `smootherTimer` reads from outside the node: the clock at
the staleness check (line 315), the clock at the re-stamp (line 321), and the
estimate returned by `odom_smoother_->getTwistStamped()` (line 331). -/
structure TickEnv where
  now : Int
  now_restamp : Int
  odom : TwistStamped
deriving DecidableEq

/-- Element access `v[i]` of a `std::vector<double>`; the limit vectors have
three elements whenever the timer runs (0 stands in for an access outside the
vector, which the theorems exclude by hypothesis). -/
def idx (v : List ℚ) (i : Nat) : ℚ := v.getD i 0

/-- The method `VelocitySmoother::inputCommandStampedCallback` (lines 225-240);
`now` is the value of `now()` at line 236. -/
def inputCommandStampedCallback (s : VelocitySmoother) (now : Int) (msg : RawTwistStamped) :
    VelocitySmoother :=
  if !validateTwist msg.twist then s
  else
    { s with
      command_ := some ⟨msg.header, msg.twist.toTwist⟩
      last_command_time_ :=
        if msg.header.stamp.sec = 0 ∧ msg.header.stamp.nanosec = 0 then now
        else msg.header.stamp.toTime }

/-- The method `VelocitySmoother::inputCommandCallback` (lines 242-248). -/
def inputCommandCallback (s : VelocitySmoother) (now : Int) (msg : RawTwist) :
    VelocitySmoother :=
  inputCommandStampedCallback s now ⟨TwistStamped.zero.header, msg⟩

/-- Line 315 of `smootherTimer`: `now() - last_command_time_ > velocity_timeout_`. -/
def isStale (s : VelocitySmoother) (env : TickEnv) : Prop :=
  env.now - s.last_command_time_ > s.velocity_timeout_

instance (s : VelocitySmoother) (env : TickEnv) : Decidable (isStale s env) := by
  unfold isStale; infer_instance

/-- Lines 315-322 of `smootherTimer`: the command the tick works on, the zero
twist stamped now when the latest command is stale. -/
def effectiveCommand (s : VelocitySmoother) (env : TickEnv) (command : TwistStamped) :
    TwistStamped :=
  if isStale s env then
    { TwistStamped.zero with
      header := { TwistStamped.zero.header with stamp := Stamp.ofTime env.now_restamp } }
  else command

/-- Lines 326-332 of `smootherTimer`: the current velocity by feedback type. -/
def currentVelocity (s : VelocitySmoother) (env : TickEnv) : TwistStamped :=
  if s.open_loop_ then s.last_cmd_ else env.odom

/-- Lines 334-343 of `smootherTimer`: the absolute velocity restriction of the
command, written back into `command_`. -/
def clampCommand (s : VelocitySmoother) (command : TwistStamped) : TwistStamped :=
  { command with
    twist :=
      { linear :=
          ⟨clamp command.twist.linear.x (idx s.min_velocities_ 0) (idx s.max_velocities_ 0),
            clamp command.twist.linear.y (idx s.min_velocities_ 1) (idx s.max_velocities_ 1),
            command.twist.linear.z⟩
        angular :=
          ⟨command.twist.angular.x, command.twist.angular.y,
            clamp command.twist.angular.z (idx s.min_velocities_ 2) (idx s.max_velocities_ 2)⟩ } }

/-- Lines 356-358 of `smootherTimer`: one axis's eta replaces the global one
when it is positive and farther from 1. -/
def etaUpdate (eta curr_eta : ℚ) : ℚ :=
  if curr_eta > 0 ∧ |1 - curr_eta| > |1 - eta| then curr_eta else eta

/-- Lines 350-371 of `smootherTimer`: the global eta. -/
def selectEta (s : VelocitySmoother) (current command : Twist) : ℚ :=
  if s.scale_velocities_ then
    let eta := etaUpdate 1
      (findEtaConstraint s.smoothing_frequency_ current.linear.x command.linear.x
        (idx s.max_accels_ 0) (idx s.max_decels_ 0))
    let eta := etaUpdate eta
      (findEtaConstraint s.smoothing_frequency_ current.linear.y command.linear.y
        (idx s.max_accels_ 1) (idx s.max_decels_ 1))
    let eta := etaUpdate eta
      (findEtaConstraint s.smoothing_frequency_ current.angular.z command.angular.z
        (idx s.max_accels_ 2) (idx s.max_decels_ 2))
    eta
  else 1

/-- Lines 373-378 of `smootherTimer`: the twist of `cmd_vel`, a fresh message
of which only linear x, linear y and angular z are assigned. -/
def solveTwist (s : VelocitySmoother) (current command : Twist) (eta : ℚ) : Twist :=
  { linear :=
      ⟨applyConstraints s.smoothing_frequency_ current.linear.x command.linear.x
          (idx s.max_accels_ 0) (idx s.max_decels_ 0) eta,
        applyConstraints s.smoothing_frequency_ current.linear.y command.linear.y
          (idx s.max_accels_ 1) (idx s.max_decels_ 1) eta,
        0⟩
    angular :=
      ⟨0, 0,
        applyConstraints s.smoothing_frequency_ current.angular.z command.angular.z
          (idx s.max_accels_ 2) (idx s.max_decels_ 2) eta⟩ }

/-- Lines 381-387 of `smootherTimer`: the deadband applied to `cmd_vel`. -/
def applyDeadband (s : VelocitySmoother) (t : Twist) : Twist :=
  { linear :=
      ⟨if |t.linear.x| < idx s.deadband_velocities_ 0 then 0 else t.linear.x,
        if |t.linear.y| < idx s.deadband_velocities_ 1 then 0 else t.linear.y,
        t.linear.z⟩
    angular :=
      ⟨t.angular.x, t.angular.y,
        if |t.angular.z| < idx s.deadband_velocities_ 2 then 0 else t.angular.z⟩ }

/-- The method `VelocitySmoother::smootherTimer` (lines 304-390): the state
after the tick and the message published, if any. -/
def smootherTimer (s : VelocitySmoother) (env : TickEnv) :
    VelocitySmoother × Option TwistStamped :=
  match s.command_ with
  | none => (s, none)
  | some command_ =>
    let header := command_.header
    if isStale s env ∧ (s.last_cmd_.twist = Twist.zero ∨ s.stopped_ = true) then
      ({ s with stopped_ := true }, none)
    else
      let command_ := effectiveCommand s env command_
      let current_ := currentVelocity s env
      let command_ := clampCommand s command_
      let eta := selectEta s current_.twist command_.twist
      let cmd_vel : TwistStamped := ⟨header, solveTwist s current_.twist command_.twist eta⟩
      ({ s with command_ := some command_, stopped_ := false, last_cmd_ := cmd_vel },
        some ⟨header, applyDeadband s cmd_vel.twist⟩)

/-- A run of consecutive ticks with no callback in between: the final state
and, tick by tick, what was published. -/
def runTicks : VelocitySmoother → List TickEnv → VelocitySmoother × List (Option TwistStamped)
  | s, [] => (s, [])
  | s, env :: envs =>
    let r := smootherTimer s env
    let rest := runTicks r.1 envs
    (rest.1, r.2 :: rest.2)

/-- The three axes the smoother works on, in the order of the limit vectors:
0 is linear x, 1 is linear y, 2 is angular z. -/
def axisOf (t : Twist) (i : Nat) : ℚ :=
  match i with
  | 0 => t.linear.x
  | 1 => t.linear.y
  | _ => t.angular.z

/-- The state left by `on_configure` with every parameter at its declared
default (lines 55-116), after `on_activate`, before any command. -/
def defaultState : VelocitySmoother :=
  { smoothing_frequency_ := 20
    velocity_timeout_ := 1000000000
    open_loop_ := true
    scale_velocities_ := false
    max_velocities_ := [1/2, 0, 5/2]
    min_velocities_ := [-1/2, 0, -5/2]
    max_accels_ := [5/2, 0, 16/5]
    max_decels_ := [-5/2, 0, -16/5]
    deadband_velocities_ := [0, 0, 0]
    odom_topic_ := "odom"
    odom_duration_ := 1/10
    timer_ := some 50
    odom_smoother_ := none
    command_ := none
    last_command_time_ := 0
    last_cmd_ := TwistStamped.zero
    stopped_ := false }

/-- Valid limits (the KinematicLimits invariant of the specification and the
checks of `on_configure`): five vectors of three elements, with
`min_velocity ≤ 0 ≤ max_velocity`, `max_accel ≥ 0` and `max_decel ≤ 0` on each
axis, and a positive smoothing frequency. -/
def ValidLimits (s : VelocitySmoother) : Prop :=
  0 < s.smoothing_frequency_ ∧
    s.max_velocities_.length = 3 ∧ s.min_velocities_.length = 3 ∧
    s.max_accels_.length = 3 ∧ s.max_decels_.length = 3 ∧
    s.deadband_velocities_.length = 3 ∧
    ∀ i, i < 3 →
      idx s.min_velocities_ i ≤ 0 ∧ 0 ≤ idx s.max_velocities_ i ∧
        0 ≤ idx s.max_accels_ i ∧ idx s.max_decels_ i ≤ 0

/-- Example state: the default configuration after a stop, a zero command
received at time 0 and the latch set. -/
def stoppedState : VelocitySmoother :=
  { defaultState with command_ := some TwistStamped.zero, stopped_ := true }

/-- Example state: the default configuration with a command received at time
0, the last output zero and the latch clear. -/
def restingState : VelocitySmoother :=
  { defaultState with command_ := some TwistStamped.zero, stopped_ := false }

/-- Example message: a finite command of 3/10 on linear x stamped at second 1. -/
def oldStampedMsg : RawTwistStamped :=
  ⟨⟨⟨1, 0⟩, "base_link"⟩,
    ⟨.finite (3/10), .finite 0, .finite 0, .finite 0, .finite 0, .finite 0⟩⟩

/-- Example tick: both clock reads return `t`, the odometry estimate is zero. -/
def tickAt (t : Int) : TickEnv := ⟨t, t, TwistStamped.zero⟩

/-- Example state: the default configuration in open loop with a command of
3/10 on linear x received at time 0 and a last output of 1/4 on linear x. -/
def movingState : VelocitySmoother :=
  { defaultState with
    command_ := some ⟨⟨⟨0, 0⟩, "base_link"⟩, ⟨⟨3/10, 0, 0⟩, ⟨0, 0, 0⟩⟩⟩
    last_cmd_ := ⟨⟨⟨0, 0⟩, "base_link"⟩, ⟨⟨1/4, 0, 0⟩, ⟨0, 0, 0⟩⟩⟩ }

/-- Example state: the default configuration with `scale_velocities` enabled. -/
def scalingState : VelocitySmoother :=
  { defaultState with scale_velocities_ := true }

/-- The eta an axis contributes to the selection: its own when strictly
positive, the neutral value 1 otherwise. -/
def positiveEta (e : ℚ) : ℚ := if 0 < e then e else 1

/-- The current velocity a tick hands to the solver (lines 326-332). -/
def tickCurrent (s : VelocitySmoother) (env : TickEnv) : Twist :=
  (currentVelocity s env).twist

/-- The command a tick hands to the solver: the effective command (lines
315-322) clamped into the velocity limits (lines 334-343). -/
def tickCommand (s : VelocitySmoother) (env : TickEnv) (c : TwistStamped) : Twist :=
  (clampCommand s (effectiveCommand s env c)).twist

/-- The value `findEtaConstraint` reports for axis `i` of a tick. -/
def axisEta (s : VelocitySmoother) (current command : Twist) (i : Nat) : ℚ :=
  findEtaConstraint s.smoothing_frequency_ (axisOf current i) (axisOf command i)
    (idx s.max_accels_ i) (idx s.max_decels_ i)

/-- What every stored output satisfies (`last_cmd_` starts as the zero twist
and is only ever assigned from a fresh `cmd_vel`, line 379; the latch is only
set at line 317): the components the smoother never assigns are zero, and the
latch is set only over a zero stored output. -/
def StoredOutputInv (s : VelocitySmoother) : Prop :=
  s.last_cmd_.twist.linear.z = 0 ∧ s.last_cmd_.twist.angular.x = 0 ∧
    s.last_cmd_.twist.angular.y = 0 ∧
    (s.stopped_ = true → s.last_cmd_.twist = Twist.zero)

/-- Rounding of a rational to the nearest integer, a tie going to the even
neighbour. -/
def roundNearestEven (y : ℚ) : ℤ :=
  if y - ⌊y⌋ < 1 / 2 then ⌊y⌋
  else if 1 / 2 < y - ⌊y⌋ then ⌊y⌋ + 1
  else if ⌊y⌋ % 2 = 0 then ⌊y⌋ else ⌊y⌋ + 1

/-- The exponent of the unit in the last place of binary64 at `x`: 52 below
the binary exponent of `x`, which is taken no lower than `-1022` (below
`2^-1022` the values are subnormal, all of them multiples of `2^-1074`). -/
def ulpExponent (x : ℚ) : ℤ := max (Int.log 2 |x|) (-1022) - 52

/-- The binary64 value nearest to `x`, ties to even: the result of a C++
arithmetic operation on `double` whose exact result is `x`. -/
def fl64 (x : ℚ) : ℚ := roundNearestEven (x / 2 ^ ulpExponent x) * 2 ^ ulpExponent x

/-- The method `VelocitySmoother::findEtaConstraint` (lines 250-279) in
binary64: the difference at line 254, the product at line 262, the quotients
at lines 263-267 and the quotient returned at line 271 or 275 are rounded. -/
def findEtaConstraint64 (smoothing_frequency_ v_curr v_cmd accel decel : ℚ) : ℚ :=
  let dv := fl64 (v_cmd - v_curr)
  let v_component_max :=
    if |v_cmd| ≥ |v_curr| ∧ fl64 (v_curr * v_cmd) ≥ 0 then fl64 (accel / smoothing_frequency_)
    else fl64 (-decel / smoothing_frequency_)
  let v_component_min :=
    if |v_cmd| ≥ |v_curr| ∧ fl64 (v_curr * v_cmd) ≥ 0 then fl64 (-accel / smoothing_frequency_)
    else fl64 (decel / smoothing_frequency_)
  if dv > v_component_max then fl64 (v_component_max / dv)
  else if dv < v_component_min then fl64 (v_component_min / dv)
  else -1

/-- The method `VelocitySmoother::applyConstraints` (lines 281-302) in
binary64: the difference at line 285, the product at line 293, the quotients
at lines 294-298, the product `eta * dv` and the sum at line 301 are rounded. -/
def applyConstraints64 (smoothing_frequency_ v_curr v_cmd accel decel eta : ℚ) : ℚ :=
  let dv := fl64 (v_cmd - v_curr)
  let v_component_max :=
    if |v_cmd| ≥ |v_curr| ∧ fl64 (v_curr * v_cmd) ≥ 0 then fl64 (accel / smoothing_frequency_)
    else fl64 (-decel / smoothing_frequency_)
  let v_component_min :=
    if |v_cmd| ≥ |v_curr| ∧ fl64 (v_curr * v_cmd) ≥ 0 then fl64 (-accel / smoothing_frequency_)
    else fl64 (decel / smoothing_frequency_)
  fl64 (v_curr + clamp (fl64 (eta * dv)) v_component_min v_component_max)

/-- Lines 356-358 of `smootherTimer` in binary64: the two differences
`1.0 - curr_eta` and `1.0 - eta` are rounded before they are compared. -/
def etaUpdate64 (eta curr_eta : ℚ) : ℚ :=
  if curr_eta > 0 ∧ |fl64 (1 - curr_eta)| > |fl64 (1 - eta)| then curr_eta else eta

/-- Lines 350-371 of `smootherTimer` in binary64: the global eta. -/
def selectEta64 (s : VelocitySmoother) (current command : Twist) : ℚ :=
  if s.scale_velocities_ then
    let eta := etaUpdate64 1
      (findEtaConstraint64 s.smoothing_frequency_ current.linear.x command.linear.x
        (idx s.max_accels_ 0) (idx s.max_decels_ 0))
    let eta := etaUpdate64 eta
      (findEtaConstraint64 s.smoothing_frequency_ current.linear.y command.linear.y
        (idx s.max_accels_ 1) (idx s.max_decels_ 1))
    let eta := etaUpdate64 eta
      (findEtaConstraint64 s.smoothing_frequency_ current.angular.z command.angular.z
        (idx s.max_accels_ 2) (idx s.max_decels_ 2))
    eta
  else 1

/-- Lines 373-378 of `smootherTimer` in binary64: the twist of `cmd_vel`. -/
def solveTwist64 (s : VelocitySmoother) (current command : Twist) (eta : ℚ) : Twist :=
  { linear :=
      ⟨applyConstraints64 s.smoothing_frequency_ current.linear.x command.linear.x
          (idx s.max_accels_ 0) (idx s.max_decels_ 0) eta,
        applyConstraints64 s.smoothing_frequency_ current.linear.y command.linear.y
          (idx s.max_accels_ 1) (idx s.max_decels_ 1) eta,
        0⟩
    angular :=
      ⟨0, 0,
        applyConstraints64 s.smoothing_frequency_ current.angular.z command.angular.z
          (idx s.max_accels_ 2) (idx s.max_decels_ 2) eta⟩ }

/-- The method `VelocitySmoother::smootherTimer` (lines 304-390) in binary64:
the state after the tick and the message published, if any. The staleness
test, the clamp of the command and the deadband only compare. -/
def smootherTimer64 (s : VelocitySmoother) (env : TickEnv) :
    VelocitySmoother × Option TwistStamped :=
  match s.command_ with
  | none => (s, none)
  | some command_ =>
    let header := command_.header
    if isStale s env ∧ (s.last_cmd_.twist = Twist.zero ∨ s.stopped_ = true) then
      ({ s with stopped_ := true }, none)
    else
      let command_ := effectiveCommand s env command_
      let current_ := currentVelocity s env
      let command_ := clampCommand s command_
      let eta := selectEta64 s current_.twist command_.twist
      let cmd_vel : TwistStamped := ⟨header, solveTwist64 s current_.twist command_.twist eta⟩
      ({ s with command_ := some command_, stopped_ := false, last_cmd_ := cmd_vel },
        some ⟨header, applyDeadband s cmd_vel.twist⟩)

/-- The value `findEtaConstraint` reports in binary64 for axis `i` of a tick. -/
def axisEta64 (s : VelocitySmoother) (current command : Twist) (i : Nat) : ℚ :=
  findEtaConstraint64 s.smoothing_frequency_ (axisOf current i) (axisOf command i)
    (idx s.max_accels_ i) (idx s.max_decels_ i)

/-- The largest finite binary64 value, `DBL_MAX = (2^53 - 1) * 2^971`. -/
def maxFinite64 : ℚ := (2 ^ 53 - 1) * 2 ^ 971

/-- The binary64 operation whose exact result is `x` does not overflow: the
rounded result is finite. -/
def Finite64 (x : ℚ) : Prop := |fl64 x| ≤ maxFinite64

/-- The distance from 1 by which lines 356, 362 and 368 rank an eta: the
rounded difference `fabs(1.0 - eta)`. -/
def etaDistance64 (eta : ℚ) : ℚ := |fl64 (1 - eta)|

/-- The default configuration as the program holds it: the declared limit
3.2 of the angular axis is the binary64 value nearest to 16/5. -/
def defaultState64 : VelocitySmoother :=
  { defaultState with
    max_accels_ := [5/2, 0, 3602879701896397 / 1125899906842624]
    max_decels_ := [-5/2, 0, -3602879701896397 / 1125899906842624] }

/-- Example state: the binary64 default configuration with `scale_velocities`
enabled. -/
def scalingState64 : VelocitySmoother :=
  { defaultState64 with scale_velocities_ := true }

/-- Example command: 0.5 on linear x and the binary64 value
0.6400000000000001 on angular z. -/
def nearTieCommand : Twist :=
  ⟨⟨1/2, 0, 0⟩, ⟨0, 0, 5764607523034236 / 9007199254740992⟩⟩

/-- The conversion `static_cast<int>(x)` of a `double`: truncation toward zero
(for values within the range of `int`). -/
def static_cast_int (x : ℚ) : Int := if 0 ≤ x then ⌊x⌋ else ⌈x⌉

/-- The function `rclcpp::Duration::from_seconds`: the duration in
nanoseconds, truncated toward zero. -/
def Duration.from_seconds (seconds : ℚ) : Int := static_cast_int (seconds * 1000000000)

/-- The value of an `rclcpp::Parameter`, by parameter type; `other` stands for
the types the smoother does not look at (bool, integer, and so on). -/
inductive ParameterValue where
  | double (v : ℚ)
  | double_array (v : List ℚ)
  | string (v : String)
  | other
deriving DecidableEq

/-- An `rclcpp::Parameter`: its name and its typed value. -/
structure Parameter where
  name : String
  value : ParameterValue
deriving DecidableEq

/-- What one pass of the loop body of `dynamicParametersCallback` leaves: the
members, `result.successful`, and whether the loop was left by `break`. -/
structure StepResult where
  state : VelocitySmoother
  successful : Bool
  stop : Bool
deriving DecidableEq

/-- The loops at lines 434-441 and 458-465: some element `[i]`, `i = 0, 1, 2`,
is `< 0.0`. -/
def anyNegative (v : List ℚ) : Bool :=
  decide (idx v 0 < 0) || decide (idx v 1 < 0) || decide (idx v 2 < 0)

/-- The loops at lines 446-453 and 470-477: some element `[i]`, `i = 0, 1, 2`,
is `> 0.0`. -/
def anyPositive (v : List ℚ) : Bool :=
  decide (idx v 0 > 0) || decide (idx v 1 > 0) || decide (idx v 2 > 0)

/-- The loop body of `dynamicParametersCallback` (lines 398-507) for one
parameter. The timer created at lines 413-416 is recorded by its period in
milliseconds, the truncation of the binary64 quotient of line 413 (rclcpp
itself, which may refuse a period, is not modelled). -/
def applyParameter (s : VelocitySmoother) (successful : Bool) (parameter : Parameter) :
    StepResult :=
  if '.' ∈ parameter.name.toList then ⟨s, successful, false⟩
  else
    match parameter.value with
    | .double v =>
      if parameter.name = "smoothing_frequency" then
        ⟨{ s with
            smoothing_frequency_ := v
            timer_ := some (static_cast_int (fl64 (1000 / v))) },
          successful, false⟩
      else if parameter.name = "velocity_timeout" then
        ⟨{ s with velocity_timeout_ := Duration.from_seconds v }, successful, false⟩
      else if parameter.name = "odom_duration" then
        ⟨{ s with odom_duration_ := v, odom_smoother_ := some (v, s.odom_topic_) },
          successful, false⟩
      else ⟨s, successful, false⟩
    | .double_array v =>
      if v.length ≠ 3 then ⟨s, false, true⟩
      else if parameter.name = "max_velocity" then
        let successful := if anyNegative v then false else successful
        ⟨if successful then { s with max_velocities_ := v } else s, successful, false⟩
      else if parameter.name = "min_velocity" then
        let successful := if anyPositive v then false else successful
        ⟨if successful then { s with min_velocities_ := v } else s, successful, false⟩
      else if parameter.name = "max_accel" then
        let successful := if anyNegative v then false else successful
        ⟨if successful then { s with max_accels_ := v } else s, successful, false⟩
      else if parameter.name = "max_decel" then
        let successful := if anyPositive v then false else successful
        ⟨if successful then { s with max_decels_ := v } else s, successful, false⟩
      else if parameter.name = "deadband_velocity" then
        ⟨{ s with deadband_velocities_ := v }, successful, false⟩
      else ⟨s, successful, false⟩
    | .string v =>
      if parameter.name = "feedback" then
        if v = "OPEN_LOOP" then
          ⟨{ s with open_loop_ := true, odom_smoother_ := none }, successful, false⟩
        else if v = "CLOSED_LOOP" then
          ⟨{ s with
              open_loop_ := false
              odom_smoother_ := some (s.odom_duration_, s.odom_topic_) },
            successful, false⟩
        else ⟨s, false, true⟩
      else if parameter.name = "odom_topic" then
        ⟨{ s with odom_topic_ := v, odom_smoother_ := some (s.odom_duration_, v) },
          successful, false⟩
      else ⟨s, successful, false⟩
    | .other => ⟨s, successful, false⟩

/-- The loop `for (auto parameter : parameters)` of `dynamicParametersCallback`
from a given value of `result.successful`. -/
def processParameters (s : VelocitySmoother) (successful : Bool) :
    List Parameter → VelocitySmoother × Bool
  | [] => (s, successful)
  | parameter :: rest =>
    let r := applyParameter s successful parameter
    if r.stop then (r.state, r.successful) else processParameters r.state r.successful rest

/-- The method `VelocitySmoother::dynamicParametersCallback` (lines 392-510):
the members after the call and `result.successful`. -/
def dynamicParametersCallback (s : VelocitySmoother) (parameters : List Parameter) :
    VelocitySmoother × Bool :=
  processParameters s true parameters

/-- The method `VelocitySmoother::on_activate` (lines 172-188), as far as the
modelled members go: the wall timer is created with a period of
`static_cast<int>(1000.0 / smoothing_frequency_)` milliseconds, the quotient
of line 177 being a binary64 division. -/
def on_activate (s : VelocitySmoother) : VelocitySmoother :=
  { s with timer_ := some (static_cast_int (fl64 (1000 / s.smoothing_frequency_))) }

/-- The method `VelocitySmoother::on_cleanup` (lines 208-216), as far as the
modelled members go. -/
def on_cleanup (s : VelocitySmoother) : VelocitySmoother :=
  { s with odom_smoother_ := none }

/-- The type nav2::CallbackReturn. -/
inductive CallbackReturn where
  | SUCCESS
  | FAILURE
  | ERROR
deriving DecidableEq

/-- The values `on_configure` reads with `get_parameter`, and whether
`nav2::setSoftRealTimePriority` succeeds when it is called. -/
structure StartupParams where
  smoothing_frequency : ℚ
  feedback : String
  scale_velocities : Bool
  max_velocity : List ℚ
  min_velocity : List ℚ
  max_accel : List ℚ
  max_decel : List ℚ
  odom_topic : String
  odom_duration : ℚ
  deadband_velocity : List ℚ
  velocity_timeout : ℚ
  use_realtime_priority : Bool
  realtime_priority_ok : Bool
deriving DecidableEq

/-- One pass of the loop at lines 77-109 of `on_configure`: `some true` when a
check fails (the method returns FAILURE), `some false` when all five pass,
`none` when an element is read outside its vector. The reads happen in the
order of the source. -/
def checkAxis (s : VelocitySmoother) (i : Nat) : Option Bool :=
  match s.max_decels_[i]? with
  | none => none
  | some decel =>
    if decel > 0 then some true
    else
      match s.max_accels_[i]? with
      | none => none
      | some accel =>
        if accel < 0 then some true
        else
          match s.min_velocities_[i]? with
          | none => none
          | some vmin =>
            if vmin > 0 then some true
            else
              match s.max_velocities_[i]? with
              | none => none
              | some vmax =>
                if vmax < 0 then some true
                else if vmin > vmax then some true
                else some false

/-- The loop `for (unsigned int i = 0; i != 3; i++)` at lines 77-109. -/
def checkLimits (s : VelocitySmoother) : Option Bool :=
  match checkAxis s 0 with
  | none => none
  | some true => some true
  | some false =>
    match checkAxis s 1 with
    | none => none
    | some true => some true
    | some false => checkAxis s 2

/-- The method `VelocitySmoother::on_configure` (lines 46-170): the value
returned and the members after the call, or `none` when an element of a limit
vector is read outside the vector. -/
def on_configure (s : VelocitySmoother) (p : StartupParams) :
    Option (CallbackReturn × VelocitySmoother) :=
  let s1 : VelocitySmoother :=
    { s with
      smoothing_frequency_ := p.smoothing_frequency
      scale_velocities_ := p.scale_velocities
      max_velocities_ := p.max_velocity
      min_velocities_ := p.min_velocity
      max_accels_ := p.max_accel
      max_decels_ := p.max_decel }
  match checkLimits s1 with
  | none => none
  | some true => some (CallbackReturn.FAILURE, on_cleanup s1)
  | some false =>
    let s2 : VelocitySmoother :=
      { s1 with
        odom_topic_ := p.odom_topic
        odom_duration_ := p.odom_duration
        deadband_velocities_ := p.deadband_velocity
        velocity_timeout_ := Duration.from_seconds p.velocity_timeout }
    if s2.max_velocities_.length ≠ 3 ∨ s2.min_velocities_.length ≠ 3 ∨
        s2.max_accels_.length ≠ 3 ∨ s2.max_decels_.length ≠ 3 ∨
        s2.deadband_velocities_.length ≠ 3 then
      some (CallbackReturn.FAILURE, on_cleanup s2)
    else if p.feedback = "OPEN_LOOP" then
      let s3 : VelocitySmoother := { s2 with open_loop_ := true }
      if p.use_realtime_priority ∧ ¬ p.realtime_priority_ok then
        some (CallbackReturn.FAILURE, on_cleanup s3)
      else some (CallbackReturn.SUCCESS, s3)
    else if p.feedback = "CLOSED_LOOP" then
      let s3 : VelocitySmoother :=
        { s2 with
          open_loop_ := false
          odom_smoother_ := some (s2.odom_duration_, s2.odom_topic_) }
      if p.use_realtime_priority ∧ ¬ p.realtime_priority_ok then
        some (CallbackReturn.FAILURE, on_cleanup s3)
      else some (CallbackReturn.SUCCESS, s3)
    else some (CallbackReturn.FAILURE, on_cleanup s2)

/-- The declared defaults of the parameters (lines 55-116 and 156). -/
def defaultParams : StartupParams :=
  { smoothing_frequency := 20
    feedback := "OPEN_LOOP"
    scale_velocities := false
    max_velocity := [1/2, 0, 5/2]
    min_velocity := [-1/2, 0, -5/2]
    max_accel := [5/2, 0, 16/5]
    max_decel := [-5/2, 0, -16/5]
    odom_topic := "odom"
    odom_duration := 1/10
    deadband_velocity := [0, 0, 0]
    velocity_timeout := 1
    use_realtime_priority := false
    realtime_priority_ok := true }

/-- The KinematicLimits invariant fails on axis `i` of a startup
configuration: `max_decel > 0`, `max_accel < 0`, `min_velocity > 0`,
`max_velocity < 0`, or `min_velocity > max_velocity`. -/
def axisInvalid (p : StartupParams) (i : Nat) : Prop :=
  idx p.max_decel i > 0 ∨ idx p.max_accel i < 0 ∨ idx p.min_velocity i > 0 ∨
    idx p.max_velocity i < 0 ∨ idx p.min_velocity i > idx p.max_velocity i

instance (p : StartupParams) (i : Nat) : Decidable (axisInvalid p i) := by
  unfold axisInvalid; infer_instance

/-- Every component of a received twist is finite. -/
def RawTwist.allFinite (t : RawTwist) : Prop :=
  t.linear_x.isFinite = true ∧ t.linear_y.isFinite = true ∧ t.linear_z.isFinite = true ∧
    t.angular_x.isFinite = true ∧ t.angular_y.isFinite = true ∧ t.angular_z.isFinite = true

instance (t : RawTwist) : Decidable t.allFinite := by
  unfold RawTwist.allFinite; infer_instance

/-- Example state: the default configuration with a deadband of 1/5 on linear
x and a command of 1/2 on linear x received at time 0. -/
def deadbandState : VelocitySmoother :=
  { defaultState with
    deadband_velocities_ := [1/5, 0, 0]
    command_ := some ⟨⟨⟨0, 0⟩, "base_link"⟩, ⟨⟨1/2, 0, 0⟩, ⟨0, 0, 0⟩⟩⟩ }

/-- The tick passes line 324 and publishes: it is not stale, or it is stale
with a non-zero last output and a clear latch. -/
def Emits (s : VelocitySmoother) (env : TickEnv) : Prop :=
  ¬ (isStale s env ∧ (s.last_cmd_.twist = Twist.zero ∨ s.stopped_ = true))

instance (s : VelocitySmoother) (env : TickEnv) : Decidable (Emits s env) := by
  unfold Emits; infer_instance

/-- Example state: open loop, frequency 20, accelerations `[5/2, 0, 16/5]`, at
rest, a fresh command of 1 on linear x, 1/4 on linear y and 2 on angular z,
scaling enabled and a velocity limit of 3 on linear x. -/
def scenarioAState : VelocitySmoother :=
  { defaultState with
    scale_velocities_ := true
    max_velocities_ := [3, 1/2, 5/2]
    min_velocities_ := [-3, -1/2, -5/2]
    command_ := some ⟨⟨⟨0, 0⟩, "base_link"⟩, ⟨⟨1, 1/4, 0⟩, ⟨0, 0, 2⟩⟩⟩ }

/-- Example state: default limits in closed loop, a command of 3/10 on linear
x received at time 0. -/
def closedLoopState : VelocitySmoother :=
  { defaultState with
    open_loop_ := false
    odom_smoother_ := some (1/10, "odom")
    command_ := some ⟨⟨⟨0, 0⟩, "base_link"⟩, ⟨⟨3/10, 0, 0⟩, ⟨0, 0, 0⟩⟩⟩ }

/-- Example tick at clock 0.5 s whose odometry estimate is 3/10 on linear x. -/
def cruiseTick : TickEnv :=
  ⟨500000000, 500000000, ⟨⟨⟨0, 0⟩, "odom"⟩, ⟨⟨3/10, 0, 0⟩, ⟨0, 0, 0⟩⟩⟩⟩

/-- A sequence of reconfiguration requests, each handled by one call of
`dynamicParametersCallback`: the members after the last call. -/
def reconfigure (s : VelocitySmoother) (requests : List (List Parameter)) : VelocitySmoother :=
  requests.foldl (fun st parameters => (dynamicParametersCallback st parameters).1) s

/-- Example state: the default configuration with a smoothing frequency of 30. -/
def thirtyHzState : VelocitySmoother :=
  { defaultState with smoothing_frequency_ := 30, timer_ := none }

/-- Example state: the default configuration with the smoothing frequency
142.85714285714286, the binary64 value nearest to 1000/7. -/
def sevenMsState : VelocitySmoother :=
  { defaultState with
    smoothing_frequency_ := 5026338869833143 / 35184372088832
    timer_ := none }

/-- Some check of the loop at lines 77-109 fails on axis `i` of the members. -/
def limitCheckFails (s : VelocitySmoother) (i : Nat) : Prop :=
  idx s.max_decels_ i > 0 ∨ idx s.max_accels_ i < 0 ∨ idx s.min_velocities_ i > 0 ∨
    idx s.max_velocities_ i < 0 ∨ idx s.min_velocities_ i > idx s.max_velocities_ i

instance (s : VelocitySmoother) (i : Nat) : Decidable (limitCheckFails s i) := by
  unfold limitCheckFails; infer_instance

/-- Example startup configuration: the defaults with an empty `max_decel`. -/
def emptyDecelParams : StartupParams :=
  { defaultParams with max_decel := [] }

/-- Example startup configuration: the defaults with a four-element
`max_decel`. -/
def longDecelParams : StartupParams :=
  { defaultParams with max_decel := [-5/2, 0, -16/5, -1] }

/-- Example startup configuration: the defaults with the one-element
`max_decel = [-1]`. -/
def shortDecelParams : StartupParams :=
  { defaultParams with max_decel := [-1] }

end nav2_velocity_smoother

/-!
# nav2_graceful_controller: the parameter handler

A shallow embedding of `src/nav2_graceful_controller/src/parameter_handler.cpp`,
with `double` values as exact rationals. The logger and the mutex are not
modelled.
-/

namespace nav2_graceful_controller

/-- The value of an `rclcpp::Parameter`, by parameter type; `other` stands for
the types the handler does not look at. -/
inductive ParameterValue where
  | double (v : ℚ)
  | bool (v : Bool)
  | other
deriving DecidableEq

/-- An `rclcpp::Parameter`: its name and its typed value. -/
structure Parameter where
  name : String
  value : ParameterValue
deriving DecidableEq

/-- The struct `Parameters` (member `params_`), with the fields that
parameter_handler.cpp assigns. -/
structure Parameters where
  transform_tolerance : ℚ
  min_lookahead : ℚ
  max_lookahead : ℚ
  max_robot_pose_search_dist : ℚ
  k_phi : ℚ
  k_delta : ℚ
  beta : ℚ
  lambda : ℚ
  v_linear_min : ℚ
  v_linear_max : ℚ
  v_linear_max_initial : ℚ
  v_angular_max : ℚ
  v_angular_max_initial : ℚ
  v_angular_min_in_place : ℚ
  slowdown_radius : ℚ
  initial_rotation : Bool
  initial_rotation_tolerance : ℚ
  prefer_final_rotation : Bool
  rotation_scaling_factor : ℚ
  allow_backward : Bool
  in_place_collision_resolution : ℚ
  use_collision_detection : Bool
deriving DecidableEq

/-- The values that the calls of `get_parameter` at lines 76-109 return: the
declared defaults or whatever the node was given instead. -/
structure NodeParameters where
  transform_tolerance : ℚ
  min_lookahead : ℚ
  max_lookahead : ℚ
  max_robot_pose_search_dist : ℚ
  k_phi : ℚ
  k_delta : ℚ
  beta : ℚ
  lambda : ℚ
  v_linear_min : ℚ
  v_linear_max : ℚ
  v_angular_max : ℚ
  v_angular_min_in_place : ℚ
  slowdown_radius : ℚ
  initial_rotation : Bool
  initial_rotation_tolerance : ℚ
  prefer_final_rotation : Bool
  rotation_scaling_factor : ℚ
  allow_backward : Bool
  in_place_collision_resolution : ℚ
  use_collision_detection : Bool
deriving DecidableEq

/-- The members of class `ParameterHandler` that the code reads and writes. -/
structure ParameterHandler where
  plugin_name_ : String
  params_ : Parameters
deriving DecidableEq

/-- The constant `std::numeric_limits<double>::max()`. -/
def DBL_MAX : ℚ := (2 - 1 / 2 ^ 52) * 2 ^ 1023

/-- The constructor `ParameterHandler::ParameterHandler` (lines 30-120). -/
def ParameterHandler.construct (plugin_name : String) (node : NodeParameters) :
    ParameterHandler :=
  { plugin_name_ := plugin_name
    params_ :=
      { transform_tolerance := node.transform_tolerance
        min_lookahead := node.min_lookahead
        max_lookahead := node.max_lookahead
        max_robot_pose_search_dist :=
          if node.max_robot_pose_search_dist < 0 then DBL_MAX
          else node.max_robot_pose_search_dist
        k_phi := node.k_phi
        k_delta := node.k_delta
        beta := node.beta
        lambda := node.lambda
        v_linear_min := node.v_linear_min
        v_linear_max := node.v_linear_max
        v_linear_max_initial := node.v_linear_max
        v_angular_max := node.v_angular_max
        v_angular_max_initial := node.v_angular_max
        v_angular_min_in_place := node.v_angular_min_in_place
        slowdown_radius := node.slowdown_radius
        initial_rotation := node.initial_rotation
        initial_rotation_tolerance := node.initial_rotation_tolerance
        prefer_final_rotation := node.prefer_final_rotation
        rotation_scaling_factor := node.rotation_scaling_factor
        allow_backward :=
          if node.initial_rotation = true ∧ node.allow_backward = true then false
          else node.allow_backward
        in_place_collision_resolution := node.in_place_collision_resolution
        use_collision_detection := node.use_collision_detection } }

/-- The branch `PARAMETER_DOUBLE` of the loop body of
`ParameterHandler::dynamicParametersCallback` (lines 144-177). -/
def applyDouble (h : ParameterHandler) (param_name : String) (v : ℚ) : ParameterHandler :=
  if param_name = h.plugin_name_ ++ ".transform_tolerance" then
    { h with params_ := { h.params_ with transform_tolerance := v } }
  else if param_name = h.plugin_name_ ++ ".min_lookahead" then
    { h with params_ := { h.params_ with min_lookahead := v } }
  else if param_name = h.plugin_name_ ++ ".max_lookahead" then
    { h with params_ := { h.params_ with max_lookahead := v } }
  else if param_name = h.plugin_name_ ++ ".k_phi" then
    { h with params_ := { h.params_ with k_phi := v } }
  else if param_name = h.plugin_name_ ++ ".k_delta" then
    { h with params_ := { h.params_ with k_delta := v } }
  else if param_name = h.plugin_name_ ++ ".beta" then
    { h with params_ := { h.params_ with beta := v } }
  else if param_name = h.plugin_name_ ++ ".lambda" then
    { h with params_ := { h.params_ with lambda := v } }
  else if param_name = h.plugin_name_ ++ ".v_linear_min" then
    { h with params_ := { h.params_ with v_linear_min := v } }
  else if param_name = h.plugin_name_ ++ ".v_linear_max" then
    { h with params_ := { h.params_ with v_linear_max := v, v_linear_max_initial := v } }
  else if param_name = h.plugin_name_ ++ ".v_angular_max" then
    { h with params_ := { h.params_ with v_angular_max := v, v_angular_max_initial := v } }
  else if param_name = h.plugin_name_ ++ ".v_angular_min_in_place" then
    { h with params_ := { h.params_ with v_angular_min_in_place := v } }
  else if param_name = h.plugin_name_ ++ ".slowdown_radius" then
    { h with params_ := { h.params_ with slowdown_radius := v } }
  else if param_name = h.plugin_name_ ++ ".initial_rotation_tolerance" then
    { h with params_ := { h.params_ with initial_rotation_tolerance := v } }
  else if param_name = h.plugin_name_ ++ ".rotation_scaling_factor" then
    { h with params_ := { h.params_ with rotation_scaling_factor := v } }
  else if param_name = h.plugin_name_ ++ ".in_place_collision_resolution" then
    { h with params_ := { h.params_ with in_place_collision_resolution := v } }
  else h

/-- The branch `PARAMETER_BOOL` of the loop body of
`ParameterHandler::dynamicParametersCallback` (lines 178-200); a rejected
change leaves the loop pass by `continue`. -/
def applyBool (h : ParameterHandler) (param_name : String) (v : Bool) : ParameterHandler :=
  if param_name = h.plugin_name_ ++ ".initial_rotation" then
    if v = true ∧ h.params_.allow_backward = true then h
    else { h with params_ := { h.params_ with initial_rotation := v } }
  else if param_name = h.plugin_name_ ++ ".prefer_final_rotation" then
    { h with params_ := { h.params_ with prefer_final_rotation := v } }
  else if param_name = h.plugin_name_ ++ ".allow_backward" then
    if h.params_.initial_rotation = true ∧ v = true then h
    else { h with params_ := { h.params_ with allow_backward := v } }
  else if param_name = h.plugin_name_ ++ ".use_collision_detection" then
    { h with params_ := { h.params_ with use_collision_detection := v } }
  else h

/-- The loop body of `ParameterHandler::dynamicParametersCallback` (lines
137-201) for one parameter; `param_name.find(plugin_name_ + ".") != 0` says
that `plugin_name_ + "."` is not a prefix of the name. -/
def applyParameter (h : ParameterHandler) (parameter : Parameter) : ParameterHandler :=
  if ¬ ((h.plugin_name_ ++ ".").toList <+: parameter.name.toList) then h
  else
    match parameter.value with
    | .double v => applyDouble h parameter.name v
    | .bool v => applyBool h parameter.name v
    | .other => h

/-- The method `ParameterHandler::dynamicParametersCallback` (lines 131-205):
the members after the call and `result.successful`, which is always set to
true at line 203. -/
def dynamicParametersCallback (h : ParameterHandler) (parameters : List Parameter) :
    ParameterHandler × Bool :=
  (parameters.foldl applyParameter h, true)

/-- The parameters never have `initial_rotation` and `allow_backward` both
true. -/
def Consistent (p : Parameters) : Prop :=
  ¬ (p.initial_rotation = true ∧ p.allow_backward = true)

instance (p : Parameters) : Decidable (Consistent p) := by
  unfold Consistent; infer_instance

/-- The declared defaults (lines 38-74) for a costmap of width 3, except that
`allow_backward` is requested together with the default `initial_rotation`. -/
def bothRequested : NodeParameters :=
  { transform_tolerance := 1/10
    min_lookahead := 1/4
    max_lookahead := 1
    max_robot_pose_search_dist := 3/2
    k_phi := 2
    k_delta := 1
    beta := 2/5
    lambda := 2
    v_linear_min := 1/10
    v_linear_max := 1/2
    v_angular_max := 1
    v_angular_min_in_place := 1/4
    slowdown_radius := 3/2
    initial_rotation := true
    initial_rotation_tolerance := 3/4
    prefer_final_rotation := true
    rotation_scaling_factor := 1/2
    allow_backward := true
    in_place_collision_resolution := 1/10
    use_collision_detection := true }

/-- Example request: a new `k_phi`, then `allow_backward = true`, then a new
`beta`. -/
def mixedRequest : List Parameter :=
  [⟨"FollowPath.k_phi", .double 3⟩, ⟨"FollowPath.allow_backward", .bool true⟩,
    ⟨"FollowPath.beta", .double (1/2)⟩]

end nav2_graceful_controller

namespace nav2_velocity_smoother

/-! ## Binary64 rounding -/

theorem roundNearestEven_spec (y : ℚ) :
    |y - roundNearestEven y| ≤ 1 / 2 ∧
      (|y - roundNearestEven y| = 1 / 2 → roundNearestEven y % 2 = 0) := by
  have h1 := Int.floor_le y
  have h2 := Int.lt_floor_add_one y
  unfold roundNearestEven
  split_ifs with a b c
  · constructor
    · rw [abs_le]; constructor <;> linarith
    · intro h
      rw [abs_of_nonneg (by linarith)] at h
      linarith
  · push_cast
    constructor
    · rw [abs_le]; constructor <;> linarith
    · intro h
      rw [abs_of_nonpos (by linarith)] at h
      linarith
  · have e : y - ⌊y⌋ = 1 / 2 := le_antisymm (not_lt.mp b) (not_lt.mp a)
    refine ⟨?_, fun _ => c⟩
    rw [e, abs_of_pos (by norm_num)]
  · have e : y - ⌊y⌋ = 1 / 2 := le_antisymm (not_lt.mp b) (not_lt.mp a)
    push_cast
    constructor
    · rw [abs_le]; constructor <;> linarith
    · intro _
      omega

theorem roundNearestEven_unique {y : ℚ} {m : ℤ} (h : |y - m| ≤ 1 / 2)
    (ht : |y - m| = 1 / 2 → m % 2 = 0) : roundNearestEven y = m := by
  obtain ⟨s1, s2⟩ := roundNearestEven_spec y
  rw [abs_le] at h s1
  by_contra hne
  rcases lt_or_gt_of_ne hne with hlt | hgt
  · have h3 : ((roundNearestEven y : ℤ) : ℚ) + 1 ≤ m := by exact_mod_cast hlt
    have ey : y = m - 1 / 2 := by linarith
    have er : ((roundNearestEven y : ℤ) : ℚ) = m - 1 := by linarith
    have er2 : roundNearestEven y = m - 1 := by exact_mod_cast er
    have t1 : m % 2 = 0 := by
      apply ht
      rw [ey]
      norm_num
    have t2 : roundNearestEven y % 2 = 0 := by
      apply s2
      rw [er, ey]
      norm_num
    omega
  · have h3 : (m : ℚ) + 1 ≤ roundNearestEven y := by exact_mod_cast hgt
    have ey : y = m + 1 / 2 := by linarith
    have er : ((roundNearestEven y : ℤ) : ℚ) = m + 1 := by linarith
    have er2 : roundNearestEven y = m + 1 := by exact_mod_cast er
    have t1 : m % 2 = 0 := by
      apply ht
      rw [ey]
      norm_num
    have t2 : roundNearestEven y % 2 = 0 := by
      apply s2
      rw [er, ey]
      norm_num
    omega

theorem roundNearestEven_intCast (n : ℤ) : roundNearestEven (n : ℚ) = n := by
  apply roundNearestEven_unique
  · rw [sub_self, abs_zero]
    norm_num
  · intro h
    rw [sub_self, abs_zero] at h
    norm_num at h

theorem roundNearestEven_mono {y z : ℚ} (h : y ≤ z) :
    roundNearestEven y ≤ roundNearestEven z := by
  rcases eq_or_lt_of_le h with rfl | hlt
  · exact le_refl _
  · obtain ⟨s1, _⟩ := roundNearestEven_spec y
    obtain ⟨s2, _⟩ := roundNearestEven_spec z
    rw [abs_le] at s1 s2
    by_contra hc
    push_neg at hc
    have h3 : ((roundNearestEven z : ℤ) : ℚ) + 1 ≤ roundNearestEven y := by exact_mod_cast hc
    linarith

theorem roundNearestEven_neg (y : ℚ) : roundNearestEven (-y) = -roundNearestEven y := by
  obtain ⟨s1, s2⟩ := roundNearestEven_spec y
  have e : |-y - ((-roundNearestEven y : ℤ) : ℚ)| = |y - roundNearestEven y| := by
    push_cast
    rw [← abs_neg]
    congr 1
    ring
  apply roundNearestEven_unique
  · rw [e]
    exact s1
  · intro h
    rw [e] at h
    have := s2 h
    omega

theorem two_zpow_pos (k : ℤ) : (0 : ℚ) < 2 ^ k := zpow_pos (by norm_num) k

theorem fl64_zero : fl64 0 = 0 := by
  unfold fl64
  rw [zero_div]
  have : roundNearestEven 0 = 0 := by
    have := roundNearestEven_intCast 0
    simpa using this
  rw [this]
  simp

theorem ulpExponent_neg (x : ℚ) : ulpExponent (-x) = ulpExponent x := by
  unfold ulpExponent
  rw [abs_neg]

theorem fl64_neg (x : ℚ) : fl64 (-x) = -fl64 x := by
  unfold fl64
  rw [ulpExponent_neg, neg_div, roundNearestEven_neg]
  push_cast
  ring

theorem ulpExponent_ge (x : ℚ) : -1074 ≤ ulpExponent x := by
  unfold ulpExponent
  have := le_max_right (Int.log 2 |x|) (-1022)
  omega

/-- A multiple of the unit in the last place lies on the grid `fl64` rounds
to: rounding cannot cross it. -/
theorem fl64_le_of_le_grid {x : ℚ} {n : ℤ} {k : ℤ} (hk : ulpExponent x ≤ k)
    (h : x ≤ n * 2 ^ k) : fl64 x ≤ n * 2 ^ k := by
  have hq := two_zpow_pos (ulpExponent x)
  obtain ⟨d, hd⟩ : ∃ d : ℕ, k = ulpExponent x + d :=
    ⟨(k - ulpExponent x).toNat, by rw [Int.toNat_of_nonneg (by omega)]; ring⟩
  have e : (n : ℚ) * 2 ^ k = ((n * 2 ^ d : ℤ) : ℚ) * 2 ^ ulpExponent x := by
    rw [hd, zpow_add₀ (by norm_num), zpow_natCast]
    push_cast
    ring
  rw [e] at h ⊢
  unfold fl64
  apply mul_le_mul_of_nonneg_right _ hq.le
  have h2 : x / 2 ^ ulpExponent x ≤ ((n * 2 ^ d : ℤ) : ℚ) := by
    rw [div_le_iff₀ hq]
    exact h
  have := roundNearestEven_mono h2
  rw [roundNearestEven_intCast] at this
  exact_mod_cast this

theorem le_fl64_of_grid_le {x : ℚ} {n : ℤ} {k : ℤ} (hk : ulpExponent x ≤ k)
    (h : n * 2 ^ k ≤ x) : n * 2 ^ k ≤ fl64 x := by
  have h1 : ulpExponent (-x) ≤ k := by rw [ulpExponent_neg]; exact hk
  have h2 : -x ≤ ((-n : ℤ) : ℚ) * 2 ^ k := by
    push_cast
    linarith
  have := fl64_le_of_le_grid h1 h2
  rw [fl64_neg] at this
  push_cast at this
  linarith

theorem fl64_nonneg {x : ℚ} (h : 0 ≤ x) : 0 ≤ fl64 x := by
  have := le_fl64_of_grid_le (x := x) (n := 0) (k := ulpExponent x) (le_refl _) (by simpa using h)
  simpa using this

theorem fl64_nonpos {x : ℚ} (h : x ≤ 0) : fl64 x ≤ 0 := by
  have := fl64_nonneg (x := -x) (by linarith)
  rw [fl64_neg] at this
  linarith

theorem log_abs_le_of_lt {x : ℚ} {k : ℤ} (hx : x ≠ 0) (h : |x| < 2 ^ k) :
    Int.log 2 |x| < k := by
  have := (Int.lt_zpow_iff_log_lt (R := ℚ) (b := 2) (by norm_num) (x := k)
    (abs_pos.mpr hx)).mp (by simpa using h)
  exact this

/-- A value with a significand of at most 53 bits and an exponent no lower
than the subnormal one is a binary64 value: `fl64` leaves it alone. -/
theorem fl64_of_rep (m k : ℤ) (hm : |m| < 2 ^ 53) (hk : -1074 ≤ k) :
    fl64 (m * 2 ^ k) = m * 2 ^ k := by
  by_cases h0 : m = 0
  · subst h0
    simp [fl64_zero]
  have hpk := two_zpow_pos k
  have hx : (m : ℚ) * 2 ^ k ≠ 0 := mul_ne_zero (by exact_mod_cast h0) hpk.ne.symm
  have habs : |(m : ℚ) * 2 ^ k| < 2 ^ (53 + k) := by
    rw [abs_mul, abs_of_pos hpk, zpow_add₀ (by norm_num)]
    apply mul_lt_mul_of_pos_right _ hpk
    have : ((|m| : ℤ) : ℚ) < ((2 ^ 53 : ℤ) : ℚ) := by exact_mod_cast hm
    have e : (2 : ℚ) ^ (53 : ℤ) = ((2 ^ 53 : ℤ) : ℚ) := by norm_num
    rw [e]
    simpa using this
  have hlog := log_abs_le_of_lt hx habs
  have hq : ulpExponent ((m : ℚ) * 2 ^ k) ≤ k := by
    unfold ulpExponent
    have := max_le (a := Int.log 2 |(m : ℚ) * 2 ^ k|) (b := -1022) (c := k + 52)
      (by omega) (by omega)
    omega
  exact le_antisymm (fl64_le_of_le_grid hq (le_refl _)) (le_fl64_of_grid_le hq (le_refl _))

theorem fl64_intCast (n : ℤ) (h : |n| < 2 ^ 53) : fl64 (n : ℚ) = n := by
  have := fl64_of_rep n 0 h (by norm_num)
  simpa using this

theorem ulpExponent_mono {x y : ℚ} (hx : 0 < x) (h : x ≤ y) :
    ulpExponent x ≤ ulpExponent y := by
  unfold ulpExponent
  rw [abs_of_pos hx, abs_of_pos (lt_of_lt_of_le hx h)]
  have := Int.log_mono_right (b := 2) hx h
  have := max_le_max this (le_refl (-1022 : ℤ))
  omega

theorem fl64_mono_pos {x y : ℚ} (hx : 0 < x) (h : x ≤ y) : fl64 x ≤ fl64 y := by
  have hy : 0 < y := lt_of_lt_of_le hx h
  have hq := ulpExponent_mono hx h
  rcases eq_or_lt_of_le hq with he | hlt
  · unfold fl64
    rw [← he]
    have hp := two_zpow_pos (ulpExponent x)
    apply mul_le_mul_of_nonneg_right _ hp.le
    have := roundNearestEven_mono (div_le_div_of_nonneg_right h hp.le)
    exact_mod_cast this
  · -- the binade boundary `2 ^ log y` separates the two values
    have hboth : ulpExponent y = Int.log 2 |y| - 52 ∧ Int.log 2 |x| < Int.log 2 |y| := by
      unfold ulpExponent at hlt ⊢
      have h1 := le_max_right (Int.log 2 |x|) (-1022)
      have h2 := le_max_left (Int.log 2 |x|) (-1022)
      rcases max_cases (Int.log 2 |y|) (-1022) with ⟨e, _⟩ | ⟨e, _⟩
      · rw [e] at hlt ⊢
        exact ⟨rfl, by omega⟩
      · rw [e] at hlt
        omega
    obtain ⟨hly, hlx⟩ := hboth
    have hxP : x ≤ ((1 : ℤ) : ℚ) * 2 ^ (Int.log 2 |y|) := by
      have h1 := Int.lt_zpow_succ_log_self (R := ℚ) (b := 2) (by norm_num) |x|
      rw [abs_of_pos hx] at h1
      have h2 : ((2 : ℕ) : ℚ) ^ (Int.log 2 x + 1) ≤ ((2 : ℕ) : ℚ) ^ (Int.log 2 |y|) :=
        zpow_le_zpow_right₀ (by norm_num) (by rw [abs_of_pos hx] at hlx; omega)
      push_cast at h1 h2 ⊢
      linarith
    have hPy : ((1 : ℤ) : ℚ) * 2 ^ (Int.log 2 |y|) ≤ y := by
      have h1 := Int.zpow_log_le_self (R := ℚ) (b := 2) (by norm_num) (abs_pos.mpr hy.ne.symm)
      rw [abs_of_pos hy] at h1 ⊢
      push_cast at h1 ⊢
      linarith
    have a1 := fl64_le_of_le_grid (by omega : ulpExponent x ≤ Int.log 2 |y|) hxP
    have a2 := le_fl64_of_grid_le (by omega : ulpExponent y ≤ Int.log 2 |y|) hPy
    exact le_trans a1 a2

/-- Rounding to binary64 is monotone. -/
theorem fl64_mono {x y : ℚ} (h : x ≤ y) : fl64 x ≤ fl64 y := by
  rcases lt_trichotomy 0 x with hx | hx | hx
  · exact fl64_mono_pos hx h
  · subst hx
    rw [fl64_zero]
    exact fl64_nonneg h
  · rcases lt_or_le y 0 with hy | hy
    · have := fl64_mono_pos (x := -y) (y := -x) (by linarith) (by linarith)
      rw [fl64_neg, fl64_neg] at this
      linarith
    · exact le_trans (fl64_nonpos hx.le) (fl64_nonneg hy)

theorem fl64_abs (x : ℚ) : |fl64 x| = fl64 |x| := by
  rcases le_total 0 x with h | h
  · rw [abs_of_nonneg h, abs_of_nonneg (fl64_nonneg h)]
  · rw [abs_of_nonpos h, abs_of_nonpos (fl64_nonpos h), fl64_neg]

/-- The rounding error is at most half a unit in the last place. -/
theorem fl64_error (x : ℚ) : |fl64 x - x| ≤ 2 ^ ulpExponent x / 2 := by
  have hp := two_zpow_pos (ulpExponent x)
  obtain ⟨s1, _⟩ := roundNearestEven_spec (x / 2 ^ ulpExponent x)
  have e : fl64 x - x =
      -(x / 2 ^ ulpExponent x - roundNearestEven (x / 2 ^ ulpExponent x)) *
        2 ^ ulpExponent x := by
    unfold fl64
    field_simp
    ring
  rw [e, abs_mul, abs_neg, abs_of_pos hp]
  calc |x / 2 ^ ulpExponent x - roundNearestEven (x / 2 ^ ulpExponent x)| * 2 ^ ulpExponent x
      ≤ 1 / 2 * 2 ^ ulpExponent x := mul_le_mul_of_nonneg_right s1 hp.le
    _ = 2 ^ ulpExponent x / 2 := by ring

/-- The significand `fl64` produces has at most 53 bits, or is `2^53` when
the rounding carries into the next binade. -/
theorem roundNearestEven_significand (x : ℚ) :
    |roundNearestEven (x / 2 ^ ulpExponent x)| ≤ 2 ^ 53 := by
  have hp := two_zpow_pos (ulpExponent x)
  have hb : |x / 2 ^ ulpExponent x| ≤ 2 ^ 53 := by
    rw [abs_div, abs_of_pos hp, div_le_iff₀ hp]
    have h1 := Int.lt_zpow_succ_log_self (R := ℚ) (b := 2) (by norm_num) |x|
    have h2 : ((2 : ℕ) : ℚ) ^ (Int.log 2 |x| + 1) ≤ 2 ^ (53 + ulpExponent x) := by
      push_cast
      apply zpow_le_zpow_right₀ (by norm_num)
      unfold ulpExponent
      have := le_max_left (Int.log 2 |x|) (-1022)
      omega
    have e : (2 : ℚ) ^ (53 + ulpExponent x) = 2 ^ 53 * 2 ^ ulpExponent x := by
      rw [zpow_add₀ (by norm_num)]
      norm_num
    rw [e] at h2
    linarith
  rw [abs_le] at hb ⊢
  have l1 := roundNearestEven_mono hb.1
  have l2 := roundNearestEven_mono hb.2
  have e1 : (-(2 : ℚ) ^ 53) = ((-(2 ^ 53) : ℤ) : ℚ) := by push_cast; ring
  have e2 : ((2 : ℚ) ^ 53) = (((2 ^ 53) : ℤ) : ℚ) := by push_cast; ring
  rw [e1, roundNearestEven_intCast] at l1
  rw [e2, roundNearestEven_intCast] at l2
  exact ⟨l1, l2⟩

/-- The result of the rounding is a binary64 value: rounding it again changes
nothing. -/
theorem fl64_idem (x : ℚ) : fl64 (fl64 x) = fl64 x := by
  have hs := roundNearestEven_significand x
  have hk := ulpExponent_ge x
  rcases lt_or_eq_of_le hs with hlt | heq
  · exact fl64_of_rep _ _ hlt hk
  · have hp := two_zpow_pos (ulpExponent x)
    have e2 : (2 : ℚ) ^ (ulpExponent x + 1) = 2 ^ ulpExponent x * 2 := by
      rw [zpow_add₀ (by norm_num), zpow_one]
    rcases abs_eq (by norm_num : (0 : ℤ) ≤ 2 ^ 53) |>.mp heq with h | h
    · have e : fl64 x = ((2 ^ 52 : ℤ) : ℚ) * 2 ^ (ulpExponent x + 1) := by
        unfold fl64
        rw [h, e2]
        push_cast
        ring
      rw [e]
      exact fl64_of_rep _ _ (by norm_num) (by omega)
    · have e : fl64 x = ((-(2 ^ 52) : ℤ) : ℚ) * 2 ^ (ulpExponent x + 1) := by
        unfold fl64
        rw [h, e2]
        push_cast
        ring
      rw [e]
      exact fl64_of_rep _ _ (by norm_num) (by omega)

/-- Evaluation of `fl64`: with `2^e ≤ |x| < 2^(e+1)`, `e ≥ -1022`, the result
is `m * 2^(e-52)` for the integer `m` nearest to `x / 2^(e-52)`. -/
theorem fl64_eval {x : ℚ} (e m : ℤ) (he : -1022 ≤ e) (h1 : 2 ^ e ≤ |x|)
    (h2 : |x| < 2 ^ (e + 1)) (hm : |x / 2 ^ (e - 52) - m| ≤ 1 / 2)
    (ht : |x / 2 ^ (e - 52) - m| = 1 / 2 → m % 2 = 0) :
    fl64 x = m * 2 ^ (e - 52) := by
  have hpos : 0 < |x| := lt_of_lt_of_le (two_zpow_pos e) h1
  have hl1 : e ≤ Int.log 2 |x| :=
    (Int.zpow_le_iff_le_log (R := ℚ) (b := 2) (by norm_num) hpos).mp (by simpa using h1)
  have hl2 : Int.log 2 |x| < e + 1 :=
    (Int.lt_zpow_iff_log_lt (R := ℚ) (b := 2) (by norm_num) hpos).mp (by simpa using h2)
  have hq : ulpExponent x = e - 52 := by
    unfold ulpExponent
    rw [max_eq_left (by omega)]
    omega
  unfold fl64
  rw [hq, roundNearestEven_unique hm ht]

theorem fl64_one : fl64 1 = 1 := by
  have := fl64_intCast 1 (by norm_num)
  simpa using this

theorem fl64_eq_self_of (x : ℚ) (m k : ℤ) (hx : x = m * 2 ^ k) (hm : |m| < 2 ^ 53)
    (hk : -1074 ≤ k) : fl64 x = x := by
  rw [hx]
  exact fl64_of_rep m k hm hk

/-- Evaluation of `fl64` away from a tie. -/
theorem fl64_eval_lt {x : ℚ} (e m : ℤ) (he : -1022 ≤ e) (h1 : 2 ^ e ≤ |x|)
    (h2 : |x| < 2 ^ (e + 1)) (hm : |x / 2 ^ (e - 52) - m| < 1 / 2) :
    fl64 x = m * 2 ^ (e - 52) :=
  fl64_eval e m he h1 h2 hm.le (fun h => absurd h hm.ne)

/-- Below 1 the rounding error is at most `2^-54`. -/
theorem fl64_error_unit {t : ℚ} (h0 : 0 ≤ t) (h1 : t < 1) : |fl64 t - t| ≤ 1 / 2 ^ 54 := by
  rcases eq_or_lt_of_le h0 with rfl | hpos
  · rw [fl64_zero, sub_zero, abs_zero]
    positivity
  · have hlog : Int.log 2 |t| < 0 :=
      log_abs_le_of_lt hpos.ne.symm (by rw [abs_of_pos hpos]; simpa using h1)
    have hq : ulpExponent t ≤ -53 := by
      unfold ulpExponent
      have := max_le (a := Int.log 2 |t|) (b := -1022) (c := -1) (by omega) (by norm_num)
      omega
    have hp : (2 : ℚ) ^ ulpExponent t ≤ 2 ^ (-53 : ℤ) :=
      zpow_le_zpow_right₀ (by norm_num) hq
    calc |fl64 t - t| ≤ 2 ^ ulpExponent t / 2 := fl64_error t
      _ ≤ 2 ^ (-53 : ℤ) / 2 := div_le_div_of_nonneg_right hp (by norm_num)
      _ = 1 / 2 ^ 54 := by norm_num

/-! ## Solver lemmas -/

theorem clamp_mem {v lo hi : ℚ} (h : lo ≤ hi) : lo ≤ clamp v lo hi ∧ clamp v lo hi ≤ hi := by
  unfold clamp
  split_ifs with h1 h2
  · exact ⟨le_refl _, h⟩
  · exact ⟨h, le_refl _⟩
  · exact ⟨not_lt.mp h1, not_lt.mp h2⟩

theorem clamp_of_mem {v lo hi : ℚ} (h1 : lo ≤ v) (h2 : v ≤ hi) : clamp v lo hi = v := by
  unfold clamp
  rw [if_neg (not_lt.mpr h1), if_neg (not_lt.mpr h2)]

/-- Claim C1. For every current velocity, command and eta, and all limits
with `accel ≥ 0`, `decel ≤ 0` and frequency `f > 0`, the output of
`applyConstraints` differs from `v_curr` by at most `accel/f` when the axis is
accelerating and by at most `|decel|/f` otherwise. -/
theorem applyConstraints_delta_bound (f v_curr v_cmd accel decel eta : ℚ)
    (hf : 0 < f) (ha : 0 ≤ accel) (hd : decel ≤ 0) :
    |applyConstraints f v_curr v_cmd accel decel eta - v_curr| ≤
      if |v_cmd| ≥ |v_curr| ∧ v_curr * v_cmd ≥ 0 then accel / f else |decel| / f := by
  unfold applyConstraints
  simp only [add_sub_cancel_left]
  split_ifs with hc
  · have hb : -accel / f ≤ accel / f := by
      apply div_le_div_of_nonneg_right _ hf.le
      linarith
    have := clamp_mem (v := eta * (v_cmd - v_curr)) hb
    rw [abs_le]
    constructor
    · have e : -(accel / f) = -accel / f := by ring
      rw [e]; exact this.1
    · exact this.2
  · have hb : decel / f ≤ -decel / f := by
      apply div_le_div_of_nonneg_right _ hf.le
      linarith
    have := clamp_mem (v := eta * (v_cmd - v_curr)) hb
    rw [abs_of_nonpos hd, abs_le]
    constructor
    · have e : -(-decel / f) = decel / f := by ring
      rw [e]; exact this.1
    · exact this.2

/-- Witness of C1: frequency 20, acceleration 5/2, a command of 1 from rest. -/
theorem applyConstraints_delta_bound_witness :
    |applyConstraints 20 0 1 (5/2) (-5/2) 1 - 0| ≤
      if |(1:ℚ)| ≥ |(0:ℚ)| ∧ (0:ℚ) * 1 ≥ 0 then (5/2 : ℚ) / 20 else |(-5/2 : ℚ)| / 20 :=
  applyConstraints_delta_bound 20 0 1 (5/2) (-5/2) 1 (by norm_num) (by norm_num) (by norm_num)

theorem probe_matches_spec (f v_curr v_cmd accel decel : ℚ) :
    findEtaConstraint f v_curr v_cmd accel decel =
      findEtaConstraint_spec f v_curr v_cmd accel decel := by
  unfold findEtaConstraint findEtaConstraint_spec accelerating
  by_cases hc : |v_cmd| ≥ |v_curr| ∧ v_curr * v_cmd ≥ 0
  · simp only [hc, and_self, if_true]
  · simp only [hc, if_false]

/-- Claim C4. `findEtaConstraint` computes what the specification defines:
with `dv = v_cmd - v_curr` and the bounds chosen by the direction
classification, `upper/dv` if `dv > upper`, otherwise `lower/dv` if
`dv < lower`, otherwise the sentinel `-1`. -/
theorem findEtaConstraint_eq_spec (f v_curr v_cmd accel decel : ℚ) (hf : 0 < f) :
    findEtaConstraint f v_curr v_cmd accel decel =
      findEtaConstraint_spec f v_curr v_cmd accel decel := by
  have _ := hf
  exact probe_matches_spec f v_curr v_cmd accel decel

/-- Witness of C4 at frequency 20, a command of 1 from rest. -/
theorem findEtaConstraint_eq_spec_witness :
    findEtaConstraint 20 0 1 (5/2) (-5/2) = findEtaConstraint_spec 20 0 1 (5/2) (-5/2) :=
  findEtaConstraint_eq_spec 20 0 1 (5/2) (-5/2) (by norm_num)

/-- The value returned by `findEtaConstraint` on an axis in violation, with
valid limits: it lies in `[0, 1)`. -/
theorem findEtaConstraint_range {f v_curr v_cmd accel decel : ℚ}
    (hf : 0 < f) (ha : 0 ≤ accel) (hd : decel ≤ 0)
    (hv : violates f v_curr v_cmd accel decel) :
    0 ≤ findEtaConstraint f v_curr v_cmd accel decel ∧
      findEtaConstraint f v_curr v_cmd accel decel < 1 ∧
      (0 < findEtaConstraint f v_curr v_cmd accel decel ↔
        (if accelerating v_curr v_cmd then accel else decel) ≠ 0) := by
  unfold violates upperBound lowerBound at hv
  unfold findEtaConstraint
  unfold accelerating at hv ⊢
  by_cases hc : |v_cmd| ≥ |v_curr| ∧ v_curr * v_cmd ≥ 0
  · simp only [hc, and_self, if_true] at hv ⊢
    have hu : 0 ≤ accel / f := div_nonneg ha hf.le
    have hl : -accel / f ≤ 0 := by
      rw [neg_div]; linarith
    by_cases h1 : v_cmd - v_curr > accel / f
    · rw [if_pos h1]
      have hdv : 0 < v_cmd - v_curr := lt_of_le_of_lt hu h1
      refine ⟨div_nonneg hu hdv.le, (div_lt_one hdv).mpr h1, ?_⟩
      rw [div_pos_iff_of_pos_right hdv, div_pos_iff_of_pos_right hf]
      exact ⟨fun h => ne_of_gt h, fun h => lt_of_le_of_ne ha (Ne.symm h)⟩
    · rw [if_neg h1]
      have h2 : v_cmd - v_curr < -accel / f := by
        rcases hv with h | h
        · exact absurd h h1
        · exact h
      rw [if_pos h2]
      have hdv : v_cmd - v_curr < 0 := lt_of_lt_of_le h2 hl
      refine ⟨div_nonneg_of_nonpos hl hdv.le, (div_lt_one_of_neg hdv).mpr h2, ?_⟩
      rw [div_pos_iff]
      constructor
      · rintro (⟨h, _⟩ | ⟨h, _⟩)
        · exact absurd h (not_lt.mpr hl)
        · intro h0
          rw [h0] at h
          simp at h
      · intro h0
        right
        refine ⟨?_, hdv⟩
        rw [neg_div]
        have : 0 < accel / f := div_pos (lt_of_le_of_ne ha (Ne.symm h0)) hf
        linarith
  · simp only [hc, if_false] at hv ⊢
    have hu : 0 ≤ -decel / f := div_nonneg (by linarith) hf.le
    have hl : decel / f ≤ 0 := div_nonpos_of_nonpos_of_nonneg hd hf.le
    by_cases h1 : v_cmd - v_curr > -decel / f
    · rw [if_pos h1]
      have hdv : 0 < v_cmd - v_curr := lt_of_le_of_lt hu h1
      refine ⟨div_nonneg hu hdv.le, (div_lt_one hdv).mpr h1, ?_⟩
      rw [div_pos_iff_of_pos_right hdv, div_pos_iff_of_pos_right hf]
      constructor
      · intro h h0
        rw [h0] at h
        simp at h
      · intro h
        have : decel < 0 := lt_of_le_of_ne hd h
        linarith
    · rw [if_neg h1]
      have h2 : v_cmd - v_curr < decel / f := by
        rcases hv with h | h
        · exact absurd h h1
        · exact h
      rw [if_pos h2]
      have hdv : v_cmd - v_curr < 0 := lt_of_lt_of_le h2 hl
      refine ⟨div_nonneg_of_nonpos hl hdv.le, (div_lt_one_of_neg hdv).mpr h2, ?_⟩
      rw [div_pos_iff]
      constructor
      · rintro (⟨h, _⟩ | ⟨h, _⟩)
        · exact absurd h (not_lt.mpr hl)
        · intro h0
          rw [h0] at h
          simp at h
      · intro h0
        right
        refine ⟨?_, hdv⟩
        exact div_neg_of_neg_of_pos (lt_of_le_of_ne hd h0) hf

/-- The sentinel: an axis that is not in violation reports `-1`. -/
theorem findEtaConstraint_of_not_violates {f v_curr v_cmd accel decel : ℚ}
    (hv : ¬ violates f v_curr v_cmd accel decel) :
    findEtaConstraint f v_curr v_cmd accel decel = -1 := by
  unfold violates upperBound lowerBound accelerating at hv
  unfold findEtaConstraint
  by_cases hc : |v_cmd| ≥ |v_curr| ∧ v_curr * v_cmd ≥ 0
  · simp only [hc, and_self, if_true] at hv ⊢
    push_neg at hv
    rw [if_neg (not_lt.mpr hv.1), if_neg (not_lt.mpr hv.2)]
  · simp only [hc, if_false] at hv ⊢
    push_neg at hv
    rw [if_neg (not_lt.mpr hv.1), if_neg (not_lt.mpr hv.2)]

theorem runTicks_fixed (s : VelocitySmoother) (envs : List TickEnv)
    (h : ∀ env ∈ envs, smootherTimer s env = (s, none)) :
    runTicks s envs = (s, List.replicate envs.length none) := by
  induction envs with
  | nil => rfl
  | cons env envs ih =>
    have h1 := h env (List.mem_cons_self _ _)
    have h2 := ih (fun e he => h e (List.mem_cons_of_mem _ he))
    simp only [runTicks, h1, h2, List.length_cons, List.replicate_succ]

theorem smootherTimer_of_stale_stopped (s : VelocitySmoother) (env : TickEnv)
    (hstop : s.stopped_ = true) (hstale : isStale s env) :
    smootherTimer s env = (s, none) := by
  have hs : ({ s with stopped_ := true } : VelocitySmoother) = s := by
    cases s
    simp only at hstop
    simp only [hstop]
  unfold smootherTimer
  split
  · rfl
  · rw [if_pos ⟨hstale, Or.inr hstop⟩, hs]

/-- Claim C10. An IDLE tick is a no-op: when no valid command has ever been
ingested (`command_` is null) `smootherTimer` publishes nothing and leaves the
whole state unchanged, and so does every run of such ticks. -/
theorem smootherTimer_idle (s : VelocitySmoother) (h : s.command_ = none) :
    (∀ env, smootherTimer s env = (s, none)) ∧
      ∀ envs, runTicks s envs = (s, List.replicate envs.length none) := by
  have h1 : ∀ env, smootherTimer s env = (s, none) := by
    intro env
    unfold smootherTimer
    rw [h]
  exact ⟨h1, fun envs => runTicks_fixed s envs (fun env _ => h1 env)⟩

/-- Witness of C10: the freshly configured node, before any command. -/
theorem smootherTimer_idle_witness :
    (∀ env, smootherTimer defaultState env = (defaultState, none)) ∧
      ∀ envs, runTicks defaultState envs = (defaultState, List.replicate envs.length none) :=
  smootherTimer_idle defaultState rfl

/-- Claim C7. STOPPED is idempotent: with the stop latch set and the command
still stale, `smootherTimer` publishes nothing and leaves the state (latest
command, `last_command_time_`, last stored output, latch and all the rest)
unchanged; hence a run of any number of such ticks publishes nothing. -/
theorem smootherTimer_stopped_idempotent (s : VelocitySmoother)
    (hstop : s.stopped_ = true) :
    (∀ env, isStale s env → smootherTimer s env = (s, none)) ∧
      ∀ envs, (∀ env ∈ envs, isStale s env) →
        runTicks s envs = (s, List.replicate envs.length none) :=
  ⟨fun env hstale => smootherTimer_of_stale_stopped s env hstop hstale,
    fun envs hall => runTicks_fixed s envs
      (fun env he => smootherTimer_of_stale_stopped s env hstop (hall env he))⟩

/-- Witness of C7: the default configuration, a zero command received at time
0 and the latch set. -/
theorem smootherTimer_stopped_idempotent_witness :
    (∀ env, isStale stoppedState env → smootherTimer stoppedState env = (stoppedState, none)) ∧
      ∀ envs, (∀ env ∈ envs, isStale stoppedState env) →
        runTicks stoppedState envs = (stoppedState, List.replicate envs.length none) :=
  smootherTimer_stopped_idempotent stoppedState rfl

theorem smootherTimer_of_emit (s : VelocitySmoother) (env : TickEnv) (c : TwistStamped)
    (hc : s.command_ = some c)
    (h : ¬ (isStale s env ∧ (s.last_cmd_.twist = Twist.zero ∨ s.stopped_ = true))) :
    smootherTimer s env =
      ({ s with
          command_ := some (clampCommand s (effectiveCommand s env c))
          stopped_ := false
          last_cmd_ := ⟨c.header,
            solveTwist s (currentVelocity s env).twist
              (clampCommand s (effectiveCommand s env c)).twist
              (selectEta s (currentVelocity s env).twist
                (clampCommand s (effectiveCommand s env c)).twist)⟩ },
        some ⟨c.header,
          applyDeadband s
            (solveTwist s (currentVelocity s env).twist
              (clampCommand s (effectiveCommand s env c)).twist
              (selectEta s (currentVelocity s env).twist
                (clampCommand s (effectiveCommand s env c)).twist))⟩) := by
  unfold smootherTimer
  rw [hc]
  simp only [if_neg h]

theorem smootherTimer_of_latch (s : VelocitySmoother) (env : TickEnv) (c : TwistStamped)
    (hc : s.command_ = some c)
    (h : isStale s env ∧ (s.last_cmd_.twist = Twist.zero ∨ s.stopped_ = true)) :
    smootherTimer s env = ({ s with stopped_ := true }, none) := by
  unfold smootherTimer
  rw [hc]
  simp only [if_pos h]

/-- Counterexample to C8 as stated: with the latch set, a valid command whose
stamp is second 1 is accepted at time 10 s; the latch is still set after the
callback, and the tick at 10.05 s (timeout 1 s) takes the STOPPED branch and
publishes nothing. -/
theorem inputCommand_keeps_latch_counterexample :
    validateTwist oldStampedMsg.twist = true ∧ stoppedState.stopped_ = true ∧
      (inputCommandStampedCallback stoppedState 10000000000 oldStampedMsg).command_ =
        some ⟨oldStampedMsg.header, oldStampedMsg.twist.toTwist⟩ ∧
      (inputCommandStampedCallback stoppedState 10000000000 oldStampedMsg).stopped_ = true ∧
      (smootherTimer (inputCommandStampedCallback stoppedState 10000000000 oldStampedMsg)
        (tickAt 10050000000)).2 = none := by
  refine ⟨by decide, rfl, rfl, rfl, ?_⟩
  rw [smootherTimer_of_latch _ _ ⟨oldStampedMsg.header, oldStampedMsg.twist.toTwist⟩ rfl]
  refine ⟨?_, Or.inr rfl⟩
  simp [isStale, inputCommandStampedCallback, validateTwist, oldStampedMsg, Double.isFinite,
    tickAt, stoppedState, defaultState, Stamp.toTime]

/-- Claim C8, amended. Ingesting a valid command replaces the command but
leaves the stop latch as it was. The latch is cleared by the next tick, and a
sample is published, when the accepted command is not stale at that tick
(`now - last_command_time_ ≤ velocity_timeout_`); when the latch was set and
the accepted command is already stale at the next tick, that tick takes the
STOPPED branch and publishes nothing. -/
theorem inputCommand_latch (s : VelocitySmoother) (now : Int) (msg : RawTwistStamped)
    (hvalid : validateTwist msg.twist = true) :
    (inputCommandStampedCallback s now msg).stopped_ = s.stopped_ ∧
      (inputCommandStampedCallback s now msg).command_ =
        some ⟨msg.header, msg.twist.toTwist⟩ ∧
      (∀ env, ¬ isStale (inputCommandStampedCallback s now msg) env →
        (smootherTimer (inputCommandStampedCallback s now msg) env).1.stopped_ = false ∧
          (smootherTimer (inputCommandStampedCallback s now msg) env).2 ≠ none) ∧
      (∀ env, isStale (inputCommandStampedCallback s now msg) env → s.stopped_ = true →
        smootherTimer (inputCommandStampedCallback s now msg) env =
          (inputCommandStampedCallback s now msg, none)) := by
  have h1 : (inputCommandStampedCallback s now msg).stopped_ = s.stopped_ := by
    simp [inputCommandStampedCallback, hvalid]
  have h2 : (inputCommandStampedCallback s now msg).command_ =
      some ⟨msg.header, msg.twist.toTwist⟩ := by
    simp [inputCommandStampedCallback, hvalid]
  refine ⟨h1, h2, ?_, ?_⟩
  · intro env hns
    rw [smootherTimer_of_emit _ env _ h2 (fun h => hns h.1)]
    exact ⟨rfl, by simp⟩
  · intro env hst hstop
    exact smootherTimer_of_stale_stopped _ env (h1.trans hstop) hst

/-- Witness of the amended C8: the old-stamped example command ingested into
the stopped state at time 10 s. -/
theorem inputCommand_latch_witness :
    (inputCommandStampedCallback stoppedState 10000000000 oldStampedMsg).stopped_ =
        stoppedState.stopped_ ∧
      (inputCommandStampedCallback stoppedState 10000000000 oldStampedMsg).command_ =
        some ⟨oldStampedMsg.header, oldStampedMsg.twist.toTwist⟩ ∧
      (∀ env, ¬ isStale (inputCommandStampedCallback stoppedState 10000000000 oldStampedMsg) env →
        (smootherTimer (inputCommandStampedCallback stoppedState 10000000000 oldStampedMsg)
            env).1.stopped_ = false ∧
          (smootherTimer (inputCommandStampedCallback stoppedState 10000000000 oldStampedMsg)
            env).2 ≠ none) ∧
      (∀ env, isStale (inputCommandStampedCallback stoppedState 10000000000 oldStampedMsg) env →
        stoppedState.stopped_ = true →
        smootherTimer (inputCommandStampedCallback stoppedState 10000000000 oldStampedMsg) env =
          (inputCommandStampedCallback stoppedState 10000000000 oldStampedMsg, none)) :=
  inputCommand_latch stoppedState 10000000000 oldStampedMsg (by decide)

/-- Counterexample to C9 as stated: a stale tick (clock 2 s, command received
at 0, timeout 1 s) entered with a zero last output and a clear latch publishes
nothing and sets the latch. -/
theorem stale_zero_output_counterexample :
    isStale restingState (tickAt 2000000000) ∧ restingState.stopped_ = false ∧
      restingState.last_cmd_.twist = Twist.zero ∧
      (smootherTimer restingState (tickAt 2000000000)).2 = none ∧
      (smootherTimer restingState (tickAt 2000000000)).1.stopped_ = true := by
  have hst : isStale restingState (tickAt 2000000000) := by
    simp [isStale, tickAt, restingState, defaultState]
  refine ⟨hst, rfl, rfl, ?_, ?_⟩
  · rw [smootherTimer_of_latch _ _ TwistStamped.zero rfl ⟨hst, Or.inl rfl⟩]
  · rw [smootherTimer_of_latch _ _ TwistStamped.zero rfl ⟨hst, Or.inl rfl⟩]

/-- Claim C9, amended. On a stale tick with a command present and the latch
clear: when the last stored output is not the zero twist, the loop publishes
one sample, computed by the solver toward the synthesized zero command (clamped
into the velocity limits), stores it and leaves the latch clear; when the last
stored output is the zero twist, the loop publishes nothing and sets the
latch, changing nothing else. So the latch becomes set exactly when the
previously stored output is the zero twist. -/
theorem stale_tick_unlatched (s : VelocitySmoother) (env : TickEnv) (c : TwistStamped)
    (hc : s.command_ = some c) (hstale : isStale s env) (hclear : s.stopped_ = false) :
    (s.last_cmd_.twist ≠ Twist.zero →
      effectiveCommand s env c =
          ⟨⟨Stamp.ofTime env.now_restamp, ""⟩, Twist.zero⟩ ∧
        (smootherTimer s env).2 =
          some ⟨c.header,
            applyDeadband s
              (solveTwist s (currentVelocity s env).twist
                (clampCommand s (effectiveCommand s env c)).twist
                (selectEta s (currentVelocity s env).twist
                  (clampCommand s (effectiveCommand s env c)).twist))⟩ ∧
        (smootherTimer s env).1.last_cmd_.twist =
          solveTwist s (currentVelocity s env).twist
            (clampCommand s (effectiveCommand s env c)).twist
            (selectEta s (currentVelocity s env).twist
              (clampCommand s (effectiveCommand s env c)).twist) ∧
        (smootherTimer s env).1.stopped_ = false) ∧
      (s.last_cmd_.twist = Twist.zero →
        smootherTimer s env = ({ s with stopped_ := true }, none)) ∧
      ((smootherTimer s env).1.stopped_ = true ↔ s.last_cmd_.twist = Twist.zero) := by
  have hemit : s.last_cmd_.twist ≠ Twist.zero →
      ¬ (isStale s env ∧ (s.last_cmd_.twist = Twist.zero ∨ s.stopped_ = true)) := by
    rintro hnz ⟨_, h | h⟩
    · exact hnz h
    · rw [hclear] at h
      exact Bool.false_ne_true h
  refine ⟨?_, ?_, ?_⟩
  · intro hnz
    rw [smootherTimer_of_emit s env c hc (hemit hnz)]
    refine ⟨?_, rfl, rfl, rfl⟩
    unfold effectiveCommand
    rw [if_pos hstale]
    rfl
  · intro hz
    exact smootherTimer_of_latch s env c hc ⟨hstale, Or.inl hz⟩
  · constructor
    · intro h
      by_contra hnz
      rw [smootherTimer_of_emit s env c hc (hemit hnz)] at h
      exact Bool.false_ne_true h
    · intro hz
      rw [smootherTimer_of_latch s env c hc ⟨hstale, Or.inl hz⟩]

/-- Witness of the amended C9: the moving example state at clock 2 s, stale
with a non-zero last output, publishes and keeps the latch clear. -/
theorem stale_tick_unlatched_witness :
    (smootherTimer movingState (tickAt 2000000000)).1.stopped_ = false :=
  ((stale_tick_unlatched movingState (tickAt 2000000000)
      ⟨⟨⟨0, 0⟩, "base_link"⟩, ⟨⟨3/10, 0, 0⟩, ⟨0, 0, 0⟩⟩⟩ rfl
      (by simp [isStale, tickAt, movingState, defaultState]) rfl).1
    (by simp [movingState, Twist.zero])).2.2.2

/-! ## Selection of the global eta -/

theorem validLimits_defaultState : ValidLimits defaultState := by
  refine ⟨by norm_num [defaultState], rfl, rfl, rfl, rfl, rfl, ?_⟩
  intro i hi
  interval_cases i <;> norm_num [idx, defaultState]

theorem validLimits_scalingState : ValidLimits scalingState := validLimits_defaultState

theorem findEtaConstraint_lt_one {f v_curr v_cmd accel decel : ℚ}
    (hf : 0 < f) (ha : 0 ≤ accel) (hd : decel ≤ 0) :
    findEtaConstraint f v_curr v_cmd accel decel < 1 := by
  by_cases hv : violates f v_curr v_cmd accel decel
  · exact (findEtaConstraint_range hf ha hd hv).2.1
  · rw [findEtaConstraint_of_not_violates hv]
    norm_num

theorem positiveEta_pos {e : ℚ} : 0 < positiveEta e := by
  unfold positiveEta
  split_ifs with h
  · exact h
  · exact one_pos

theorem positiveEta_le_one {e : ℚ} (he : e < 1) : positiveEta e ≤ 1 := by
  unfold positiveEta
  split_ifs with h
  · exact he.le
  · exact le_refl _

theorem etaUpdate_eq_min {eta e : ℚ} (h1 : eta ≤ 1) (he : e < 1) :
    etaUpdate eta e = min eta (positiveEta e) := by
  unfold etaUpdate positiveEta
  by_cases hp : 0 < e
  · rw [if_pos hp]
    have a1 : |1 - e| = 1 - e := abs_of_pos (by linarith)
    have a2 : |1 - eta| = 1 - eta := abs_of_nonneg (by linarith)
    rw [a1, a2]
    by_cases hlt : e < eta
    · rw [if_pos ⟨hp, by linarith⟩, min_eq_right hlt.le]
    · rw [if_neg (fun h => hlt (by linarith [h.2])), min_eq_left (not_lt.mp hlt)]
  · rw [if_neg hp, if_neg (fun h => hp h.1), min_eq_left h1]

theorem foldl_etaUpdate_eq (l : List ℚ) (hl : ∀ e ∈ l, e < 1) (eta : ℚ)
    (h0 : 0 < eta) (h1 : eta ≤ 1) :
    l.foldl etaUpdate eta = l.foldl (fun acc e => min acc (positiveEta e)) eta := by
  induction l generalizing eta with
  | nil => rfl
  | cons e l ih =>
    have he : e < 1 := hl e (List.mem_cons_self _ _)
    simp only [List.foldl_cons]
    rw [etaUpdate_eq_min h1 he]
    exact ih (fun x hx => hl x (List.mem_cons_of_mem _ hx)) _
      (lt_min h0 positiveEta_pos) (le_trans (min_le_left _ _) h1)

theorem foldl_etaUpdate_perm {l l' : List ℚ} (hp : l.Perm l') (hl : ∀ e ∈ l', e < 1) :
    l.foldl etaUpdate 1 = l'.foldl etaUpdate 1 := by
  have hl2 : ∀ e ∈ l, e < 1 := fun e he => hl e (hp.subset he)
  rw [foldl_etaUpdate_eq l hl2 1 one_pos (le_refl _),
    foldl_etaUpdate_eq l' hl 1 one_pos (le_refl _)]
  apply List.Perm.foldl_eq' hp
  intro x _ y _ z
  simp only [min_assoc]
  rw [min_comm (positiveEta x)]

/-! ## Selection of the global eta in binary64 -/

theorem eta_shape {dv M L : ℚ} (hM : 0 ≤ M) (hL : L ≤ 0) :
    (if dv > M then fl64 (M / dv) else if dv < L then fl64 (L / dv) else -1) = -1 ∨
      (0 ≤ (if dv > M then fl64 (M / dv) else if dv < L then fl64 (L / dv) else -1) ∧
        (if dv > M then fl64 (M / dv) else if dv < L then fl64 (L / dv) else -1) ≤ 1) := by
  split_ifs with h1 h2
  · right
    have hdv : 0 < dv := lt_of_le_of_lt hM h1
    constructor
    · exact fl64_nonneg (div_nonneg hM hdv.le)
    · have := fl64_mono ((div_le_one hdv).mpr h1.le)
      rwa [fl64_one] at this
  · right
    have hdv : dv < 0 := lt_of_lt_of_le h2 hL
    constructor
    · exact fl64_nonneg (div_nonneg_of_nonpos hL hdv.le)
    · have := fl64_mono ((div_le_one_of_neg hdv).mpr h2.le)
      rwa [fl64_one] at this
  · left
    rfl

theorem findEtaConstraint64_range {f v_curr v_cmd accel decel : ℚ}
    (hf : 0 < f) (ha : 0 ≤ accel) (hd : decel ≤ 0) :
    findEtaConstraint64 f v_curr v_cmd accel decel = -1 ∨
      (0 ≤ findEtaConstraint64 f v_curr v_cmd accel decel ∧
        findEtaConstraint64 f v_curr v_cmd accel decel ≤ 1) := by
  unfold findEtaConstraint64
  simp only
  by_cases hc : |v_cmd| ≥ |v_curr| ∧ fl64 (v_curr * v_cmd) ≥ 0
  · simp only [if_pos hc]
    exact eta_shape (fl64_nonneg (div_nonneg ha hf.le))
      (fl64_nonpos (div_nonpos_of_nonpos_of_nonneg (by linarith) hf.le))
  · simp only [if_neg hc]
    exact eta_shape (fl64_nonneg (div_nonneg (by linarith) hf.le))
      (fl64_nonpos (div_nonpos_of_nonpos_of_nonneg hd hf.le))

theorem etaDistance64_one : etaDistance64 1 = 0 := by
  unfold etaDistance64
  rw [sub_self, fl64_zero, abs_zero]

theorem etaDistance64_nonneg (e : ℚ) : 0 ≤ etaDistance64 e := abs_nonneg _

/-- An eta in `(0, 1]` is within `2^-54` of one minus its rounded distance. -/
theorem etaDistance64_near {e : ℚ} (h0 : 0 < e) (h1 : e ≤ 1) :
    |etaDistance64 e - (1 - e)| ≤ 1 / 2 ^ 54 := by
  unfold etaDistance64
  rw [abs_of_nonneg (fl64_nonneg (by linarith))]
  exact fl64_error_unit (by linarith) (by linarith)

theorem etaUpdate64_eq (eta e : ℚ) :
    etaUpdate64 eta e = if 0 < e ∧ etaDistance64 eta < etaDistance64 e then e else eta := rfl

theorem etaUpdate64_sentinel (eta : ℚ) : etaUpdate64 eta (-1) = eta := by
  rw [etaUpdate64_eq, if_neg]
  rintro ⟨h, _⟩
  norm_num at h

theorem etaUpdate64_zero (eta : ℚ) : etaUpdate64 eta 0 = eta := by
  rw [etaUpdate64_eq, if_neg]
  rintro ⟨h, _⟩
  exact lt_irrefl _ h

/-- The running selection over a list of reported etas: the result is the
start value or a strictly positive element, lies in `(0, 1]`, and no
strictly positive element, nor the start value, has a larger rounded
distance from 1. -/
theorem foldl_etaUpdate64 (l : List ℚ) (hl : ∀ e ∈ l, e = -1 ∨ (0 ≤ e ∧ e ≤ 1)) :
    ∀ eta : ℚ, 0 < eta → eta ≤ 1 →
      (l.foldl etaUpdate64 eta = eta ∨
        (l.foldl etaUpdate64 eta ∈ l ∧ 0 < l.foldl etaUpdate64 eta)) ∧
      0 < l.foldl etaUpdate64 eta ∧ l.foldl etaUpdate64 eta ≤ 1 ∧
      etaDistance64 eta ≤ etaDistance64 (l.foldl etaUpdate64 eta) ∧
      ∀ e ∈ l, 0 < e → etaDistance64 e ≤ etaDistance64 (l.foldl etaUpdate64 eta) := by
  induction l with
  | nil =>
    intro eta h0 h1
    exact ⟨Or.inl rfl, h0, h1, le_refl _, fun e he => absurd he (List.not_mem_nil e)⟩
  | cons a l ih =>
    intro eta h0 h1
    have ha := hl a (List.mem_cons_self _ _)
    have hl2 : ∀ e ∈ l, e = -1 ∨ (0 ≤ e ∧ e ≤ 1) :=
      fun e he => hl e (List.mem_cons_of_mem _ he)
    simp only [List.foldl_cons]
    by_cases hc : 0 < a ∧ etaDistance64 eta < etaDistance64 a
    · have hstep : etaUpdate64 eta a = a := by
        rw [etaUpdate64_eq, if_pos hc]
      have ha1 : a ≤ 1 := by
        rcases ha with h | h
        · rw [h] at hc
          exact absurd hc.1 (by norm_num)
        · exact h.2
      rw [hstep]
      obtain ⟨i1, i2, i3, i4, i5⟩ := ih hl2 a hc.1 ha1
      refine ⟨?_, i2, i3, le_trans hc.2.le i4, ?_⟩
      · right
        rcases i1 with h | h
        · rw [h]
          exact ⟨List.mem_cons_self _ _, hc.1⟩
        · exact ⟨List.mem_cons_of_mem _ h.1, h.2⟩
      · intro e he hpos
        rcases List.mem_cons.mp he with rfl | h
        · exact i4
        · exact i5 e h hpos
    · have hstep : etaUpdate64 eta a = eta := by
        rw [etaUpdate64_eq, if_neg hc]
      rw [hstep]
      obtain ⟨i1, i2, i3, i4, i5⟩ := ih hl2 eta h0 h1
      refine ⟨?_, i2, i3, i4, ?_⟩
      · rcases i1 with h | h
        · exact Or.inl h
        · exact Or.inr ⟨List.mem_cons_of_mem _ h.1, h.2⟩
      · intro e he hpos
        rcases List.mem_cons.mp he with rfl | h
        · push_neg at hc
          exact le_trans (hc hpos) i4
        · exact i5 e h hpos

theorem selectEta64_eq_fold (s : VelocitySmoother) (current command : Twist)
    (hscale : s.scale_velocities_ = true) :
    selectEta64 s current command =
      [axisEta64 s current command 0, axisEta64 s current command 1,
        axisEta64 s current command 2].foldl etaUpdate64 1 := by
  unfold selectEta64
  rw [if_pos hscale]
  rfl

theorem axisEta64_range (s : VelocitySmoother) (current command : Twist)
    (hvalid : ValidLimits s) (i : Nat) (hi : i < 3) :
    axisEta64 s current command i = -1 ∨
      (0 ≤ axisEta64 s current command i ∧ axisEta64 s current command i ≤ 1) := by
  obtain ⟨hf, _, _, _, _, _, hax⟩ := hvalid
  exact findEtaConstraint64_range hf (hax i hi).2.2.1 (hax i hi).2.2.2

theorem mem_axes_iff (s : VelocitySmoother) (current command : Twist) (e : ℚ) :
    e ∈ [axisEta64 s current command 0, axisEta64 s current command 1,
        axisEta64 s current command 2] ↔ ∃ i, i < 3 ∧ e = axisEta64 s current command i := by
  simp only [List.mem_cons, List.mem_singleton, List.not_mem_nil, or_false]
  constructor
  · rintro (h | h | h)
    · exact ⟨0, by norm_num, h⟩
    · exact ⟨1, by norm_num, h⟩
    · exact ⟨2, by norm_num, h⟩
  · rintro ⟨i, hi, h⟩
    interval_cases i
    · exact Or.inl h
    · exact Or.inr (Or.inl h)
    · exact Or.inr (Or.inr h)

/-- Two etas of `(0, 1]` with the same rounded distance from 1 differ by at
most `2^-53`. -/
theorem eta_close_of_distance_le {a b : ℚ} (ha0 : 0 < a) (ha1 : a ≤ 1) (hb0 : 0 < b)
    (hb1 : b ≤ 1) (h : etaDistance64 a ≤ etaDistance64 b) : b ≤ a + 1 / 2 ^ 53 := by
  have h1 := abs_le.mp (etaDistance64_near ha0 ha1)
  have h2 := abs_le.mp (etaDistance64_near hb0 hb1)
  have e : (1 : ℚ) / 2 ^ 53 = 1 / 2 ^ 54 + 1 / 2 ^ 54 := by norm_num
  linarith [h1.1, h1.2, h2.1, h2.2]

theorem findEtaConstraint64_at_rest {f a d : ℚ} (hf : 0 < f) (ha : 0 ≤ a) :
    findEtaConstraint64 f 0 0 a d = -1 := by
  have hM : 0 ≤ fl64 (a / f) := fl64_nonneg (div_nonneg ha hf.le)
  have hL : fl64 (-a / f) ≤ 0 :=
    fl64_nonpos (div_nonpos_of_nonpos_of_nonneg (by linarith) hf.le)
  have hc : |(0 : ℚ)| ≥ |(0 : ℚ)| ∧ fl64 (0 * 0) ≥ 0 := by
    rw [mul_zero, fl64_zero]
    exact ⟨le_refl _, le_refl _⟩
  unfold findEtaConstraint64
  simp only [if_pos hc, sub_zero, fl64_zero]
  rw [if_neg (not_lt.mpr hM), if_neg (not_lt.mpr hL)]

theorem findEtaConstraint64_accel_upper (f vc vm a d dv M e : ℚ)
    (hc : |vm| ≥ |vc| ∧ fl64 (vc * vm) ≥ 0) (hdv : fl64 (vm - vc) = dv)
    (hM : fl64 (a / f) = M) (hgt : dv > M) (he : fl64 (M / dv) = e) :
    findEtaConstraint64 f vc vm a d = e := by
  unfold findEtaConstraint64
  simp only [if_pos hc, hdv, hM, if_pos hgt, he]

theorem findEtaConstraint64_decel_lower (f vc vm a d dv M L e : ℚ)
    (hc : ¬ (|vm| ≥ |vc| ∧ fl64 (vc * vm) ≥ 0)) (hdv : fl64 (vm - vc) = dv)
    (hM : fl64 (-d / f) = M) (hL : fl64 (d / f) = L) (h1 : ¬ dv > M) (h2 : dv < L)
    (he : fl64 (L / dv) = e) :
    findEtaConstraint64 f vc vm a d = e := by
  unfold findEtaConstraint64
  simp only [if_neg hc, hdv, hM, hL, if_neg h1, if_pos h2, he]

theorem validLimits_scalingState64 : ValidLimits scalingState64 := by
  refine ⟨by norm_num [scalingState64, defaultState64, defaultState], rfl, rfl, rfl, rfl,
    rfl, ?_⟩
  intro i hi
  interval_cases i <;> norm_num [idx, scalingState64, defaultState64, defaultState]

/-- The declared limit 3.2 as the program holds it. -/
theorem fl64_default_accel :
    fl64 (16 / 5) = 3602879701896397 / 1125899906842624 := by
  have h := fl64_eval_lt (x := 16 / 5) 1 7205759403792794 (by norm_num)
    (by rw [abs_of_pos (by norm_num)]; norm_num)
    (by rw [abs_of_pos (by norm_num)]; norm_num)
    (by rw [abs_lt]; constructor <;> norm_num)
  rw [h]
  norm_num

theorem axisEta64_nearTie_x : axisEta64 scalingState64 Twist.zero nearTieCommand 0 = 1 / 4 := by
  show findEtaConstraint64 20 0 (1 / 2) (5 / 2) (-5 / 2) = 1 / 4
  apply findEtaConstraint64_accel_upper 20 0 (1 / 2) (5 / 2) (-5 / 2) (1 / 2) (1 / 8) (1 / 4)
  · rw [zero_mul, fl64_zero]
    norm_num
  · rw [sub_zero]
    exact fl64_eq_self_of _ 1 (-1) (by norm_num) (by norm_num) (by norm_num)
  · rw [show (5 / 2 : ℚ) / 20 = 1 / 8 by norm_num]
    exact fl64_eq_self_of _ 1 (-3) (by norm_num) (by norm_num) (by norm_num)
  · norm_num
  · rw [show (1 / 8 : ℚ) / (1 / 2) = 1 / 4 by norm_num]
    exact fl64_eq_self_of _ 1 (-2) (by norm_num) (by norm_num) (by norm_num)

theorem axisEta64_nearTie_y : axisEta64 scalingState64 Twist.zero nearTieCommand 1 = -1 := by
  show findEtaConstraint64 20 0 0 0 0 = -1
  exact findEtaConstraint64_at_rest (by norm_num) (le_refl _)

theorem axisEta64_nearTie_z :
    axisEta64 scalingState64 Twist.zero nearTieCommand 2 = 1 / 4 - 1 / 2 ^ 54 := by
  show findEtaConstraint64 20 0 (5764607523034236 / 9007199254740992)
    (3602879701896397 / 1125899906842624) (-3602879701896397 / 1125899906842624) = _
  apply findEtaConstraint64_accel_upper 20 0 (5764607523034236 / 9007199254740992)
    (3602879701896397 / 1125899906842624) (-3602879701896397 / 1125899906842624)
    (5764607523034236 / 9007199254740992) (5764607523034235 / 36028797018963968)
  · rw [zero_mul, fl64_zero]
    norm_num
  · rw [sub_zero]
    exact fl64_eq_self_of _ 5764607523034236 (-53) (by norm_num) (by norm_num) (by norm_num)
  · have h := fl64_eval_lt (x := 3602879701896397 / 1125899906842624 / 20) (-3)
      5764607523034235 (by norm_num)
      (by rw [abs_of_pos (by norm_num)]; norm_num)
      (by rw [abs_of_pos (by norm_num)]; norm_num)
      (by rw [abs_lt]; constructor <;> norm_num)
    rw [h]
    norm_num
  · norm_num
  · have h := fl64_eval_lt
      (x := 5764607523034235 / 36028797018963968 / (5764607523034236 / 9007199254740992))
      (-3) 9007199254740990 (by norm_num)
      (by rw [abs_of_pos (by norm_num)]; norm_num)
      (by rw [abs_of_pos (by norm_num)]; norm_num)
      (by rw [abs_lt]; constructor <;> norm_num)
    rw [h]
    norm_num

theorem etaDistance64_quarter : etaDistance64 (1 / 4) = 3 / 4 := by
  unfold etaDistance64
  rw [show (1 : ℚ) - 1 / 4 = 3 / 4 by norm_num,
    fl64_eq_self_of (3 / 4) 3 (-2) (by norm_num) (by norm_num) (by norm_num)]
  norm_num

/-- The tie: `1 - (1/4 - 2^-54)` lies half way between the binary64 values
`3/4` and `3/4 + 2^-53` and rounds to the even one, `3/4`. -/
theorem etaDistance64_nearTie : etaDistance64 (1 / 4 - 1 / 2 ^ 54) = 3 / 4 := by
  unfold etaDistance64
  have h := fl64_eval (x := 1 - (1 / 4 - 1 / 2 ^ 54)) (-1) 6755399441055744 (by norm_num)
    (by rw [abs_of_pos (by norm_num)]; norm_num)
    (by rw [abs_of_pos (by norm_num)]; norm_num)
    (by rw [abs_le]; constructor <;> norm_num)
    (by intro _; norm_num)
  rw [h]
  norm_num

/-- Counterexample to C2 as stated, in binary64 with the default limits and
scaling enabled. First, with an estimate of 1/8 on linear y and a zero command
the y axis (whose limits are 0) reports the real eta 0, and the eta selected
is 1. Second, at rest with a command of 0.5 on linear x and
0.6400000000000001 on angular z, the x axis reports 1/4 and the angular axis
reports `1/4 - 2^-54`; the eta selected is 1/4, which is not the minimum, and
visiting the axes in the order angular, y, x selects `1/4 - 2^-54` instead. -/
theorem selectEta_not_minimum_counterexample :
    ValidLimits scalingState64 ∧ scalingState64.scale_velocities_ = true ∧
      axisEta64 scalingState64 ⟨⟨0, 1 / 8, 0⟩, ⟨0, 0, 0⟩⟩ Twist.zero 1 = 0 ∧
      selectEta64 scalingState64 ⟨⟨0, 1 / 8, 0⟩, ⟨0, 0, 0⟩⟩ Twist.zero = 1 ∧
      axisEta64 scalingState64 Twist.zero nearTieCommand 0 = 1 / 4 ∧
      axisEta64 scalingState64 Twist.zero nearTieCommand 1 = -1 ∧
      axisEta64 scalingState64 Twist.zero nearTieCommand 2 = 1 / 4 - 1 / 2 ^ 54 ∧
      selectEta64 scalingState64 Twist.zero nearTieCommand = 1 / 4 ∧
      axisEta64 scalingState64 Twist.zero nearTieCommand 2 <
        selectEta64 scalingState64 Twist.zero nearTieCommand ∧
      [axisEta64 scalingState64 Twist.zero nearTieCommand 2,
        axisEta64 scalingState64 Twist.zero nearTieCommand 1,
        axisEta64 scalingState64 Twist.zero nearTieCommand 0].foldl etaUpdate64 1 =
          1 / 4 - 1 / 2 ^ 54 := by
  have hy : axisEta64 scalingState64 ⟨⟨0, 1 / 8, 0⟩, ⟨0, 0, 0⟩⟩ Twist.zero 1 = 0 := by
    show findEtaConstraint64 20 (1 / 8) 0 0 0 = 0
    apply findEtaConstraint64_decel_lower 20 (1 / 8) 0 0 0 (-(1 / 8)) 0 0 0
    · rw [abs_zero, abs_of_pos (by norm_num : (0 : ℚ) < 1 / 8)]
      norm_num
    · rw [zero_sub, fl64_neg,
        fl64_eq_self_of (1 / 8) 1 (-3) (by norm_num) (by norm_num) (by norm_num)]
    · rw [neg_zero, zero_div, fl64_zero]
    · rw [zero_div, fl64_zero]
    · norm_num
    · norm_num
    · rw [zero_div, fl64_zero]
  have hx0 : axisEta64 scalingState64 ⟨⟨0, 1 / 8, 0⟩, ⟨0, 0, 0⟩⟩ Twist.zero 0 = -1 := by
    show findEtaConstraint64 20 0 0 (5 / 2) (-5 / 2) = -1
    exact findEtaConstraint64_at_rest (by norm_num) (by norm_num)
  have hz0 : axisEta64 scalingState64 ⟨⟨0, 1 / 8, 0⟩, ⟨0, 0, 0⟩⟩ Twist.zero 2 = -1 := by
    show findEtaConstraint64 20 0 0 (3602879701896397 / 1125899906842624)
      (-3602879701896397 / 1125899906842624) = -1
    exact findEtaConstraint64_at_rest (by norm_num) (by norm_num)
  have hsel0 : selectEta64 scalingState64 ⟨⟨0, 1 / 8, 0⟩, ⟨0, 0, 0⟩⟩ Twist.zero = 1 := by
    rw [selectEta64_eq_fold _ _ _ rfl, hx0, hy, hz0]
    show etaUpdate64 (etaUpdate64 (etaUpdate64 1 (-1)) 0) (-1) = 1
    rw [etaUpdate64_sentinel, etaUpdate64_zero, etaUpdate64_sentinel]
  have s1 : etaUpdate64 1 (1 / 4) = 1 / 4 := by
    rw [etaUpdate64_eq, etaDistance64_one, etaDistance64_quarter]
    norm_num
  have s2 : etaUpdate64 (1 / 4) (1 / 4 - 1 / 2 ^ 54) = 1 / 4 := by
    rw [etaUpdate64_eq, etaDistance64_quarter, etaDistance64_nearTie]
    norm_num
  have s3 : etaUpdate64 1 (1 / 4 - 1 / 2 ^ 54) = 1 / 4 - 1 / 2 ^ 54 := by
    rw [etaUpdate64_eq, etaDistance64_one, etaDistance64_nearTie]
    norm_num
  have s4 : etaUpdate64 (1 / 4 - 1 / 2 ^ 54) (1 / 4) = 1 / 4 - 1 / 2 ^ 54 := by
    rw [etaUpdate64_eq, etaDistance64_quarter, etaDistance64_nearTie]
    norm_num
  have hsel : selectEta64 scalingState64 Twist.zero nearTieCommand = 1 / 4 := by
    rw [selectEta64_eq_fold _ _ _ rfl, axisEta64_nearTie_x, axisEta64_nearTie_y,
      axisEta64_nearTie_z]
    show etaUpdate64 (etaUpdate64 (etaUpdate64 1 (1 / 4)) (-1)) (1 / 4 - 1 / 2 ^ 54) = 1 / 4
    rw [s1, etaUpdate64_sentinel, s2]
  refine ⟨validLimits_scalingState64, rfl, hy, hsel0, axisEta64_nearTie_x,
    axisEta64_nearTie_y, axisEta64_nearTie_z, hsel, ?_, ?_⟩
  · rw [hsel, axisEta64_nearTie_z]
    norm_num
  · rw [axisEta64_nearTie_x, axisEta64_nearTie_y, axisEta64_nearTie_z]
    show etaUpdate64 (etaUpdate64 (etaUpdate64 1 (1 / 4 - 1 / 2 ^ 54)) (-1)) (1 / 4) =
      1 / 4 - 1 / 2 ^ 54
    rw [s3, etaUpdate64_sentinel, s4]

/-- Claim C2, amended. With `scale_velocities` enabled, valid limits
(`accel ≥ 0`, `decel ≤ 0`, `f > 0` on every axis) and no overflow in the
differences `dv`, the global eta that `smootherTimer` selects in binary64 is 1
or one of the strictly positive etas reported by `findEtaConstraint` for the
x, y and angular axes (an axis that reports 0, because its limit is 0, is
passed over like an unconstrained one); it lies in `(0, 1]`; it is the most
restrictive by the measure the code compares, the rounded distance
`fabs(1.0 - eta)`: no axis reports a strictly positive eta with a larger
rounded distance, so the eta selected exceeds no strictly positive reported
eta by more than `2^-53`, and an axis reports a smaller strictly positive eta
only at the same rounded distance; visiting the axes in another order selects
an eta with the same rounded distance, within `2^-53` of this one. -/
theorem selectEta_most_restrictive (s : VelocitySmoother) (current command : Twist)
    (hscale : s.scale_velocities_ = true) (hvalid : ValidLimits s)
    (_hfin : ∀ i, i < 3 → Finite64 (axisOf command i - axisOf current i)) :
    (selectEta64 s current command = 1 ∨
        ∃ i, i < 3 ∧ 0 < axisEta64 s current command i ∧
          selectEta64 s current command = axisEta64 s current command i) ∧
      0 < selectEta64 s current command ∧ selectEta64 s current command ≤ 1 ∧
      (∀ i, i < 3 → 0 < axisEta64 s current command i →
        etaDistance64 (axisEta64 s current command i) ≤
            etaDistance64 (selectEta64 s current command) ∧
          selectEta64 s current command ≤ axisEta64 s current command i + 1 / 2 ^ 53 ∧
          (axisEta64 s current command i < selectEta64 s current command →
            etaDistance64 (axisEta64 s current command i) =
              etaDistance64 (selectEta64 s current command))) ∧
      (∀ l : List ℚ,
        l.Perm [axisEta64 s current command 0, axisEta64 s current command 1,
          axisEta64 s current command 2] →
        etaDistance64 (l.foldl etaUpdate64 1) =
            etaDistance64 (selectEta64 s current command) ∧
          |l.foldl etaUpdate64 1 - selectEta64 s current command| ≤ 1 / 2 ^ 53) := by
  have hL : ∀ e ∈ [axisEta64 s current command 0, axisEta64 s current command 1,
      axisEta64 s current command 2], e = -1 ∨ (0 ≤ e ∧ e ≤ 1) := by
    intro e he
    obtain ⟨i, hi, rfl⟩ := (mem_axes_iff s current command e).mp he
    exact axisEta64_range s current command hvalid i hi
  obtain ⟨f1, f2, f3, _, f5⟩ := foldl_etaUpdate64 _ hL 1 one_pos (le_refl _)
  rw [selectEta64_eq_fold s current command hscale]
  refine ⟨?_, f2, f3, ?_, ?_⟩
  · rcases f1 with h | ⟨hm, hp⟩
    · exact Or.inl h
    · obtain ⟨i, hi, he⟩ := (mem_axes_iff s current command _).mp hm
      exact Or.inr ⟨i, hi, by rw [← he]; exact hp, he⟩
  · intro i hi hpos
    have hm := (mem_axes_iff s current command _).mpr ⟨i, hi, rfl⟩
    have h1 : axisEta64 s current command i ≤ 1 := by
      rcases axisEta64_range s current command hvalid i hi with h | h
      · rw [h] at hpos
        exact absurd hpos (by norm_num)
      · exact h.2
    refine ⟨f5 _ hm hpos, eta_close_of_distance_le hpos h1 f2 f3 (f5 _ hm hpos), fun hlt => ?_⟩
    apply le_antisymm (f5 _ hm hpos)
    unfold etaDistance64
    rw [abs_of_nonneg (fl64_nonneg (by linarith)), abs_of_nonneg (fl64_nonneg (by linarith))]
    exact fl64_mono (by linarith)
  · intro l hl
    have hl2 : ∀ e ∈ l, e = -1 ∨ (0 ≤ e ∧ e ≤ 1) := fun e he => hL e (hl.subset he)
    obtain ⟨g1, g2, g3, _, g5⟩ := foldl_etaUpdate64 l hl2 1 one_pos (le_refl _)
    have d1 : etaDistance64 (l.foldl etaUpdate64 1) ≤
        etaDistance64 ([axisEta64 s current command 0, axisEta64 s current command 1,
          axisEta64 s current command 2].foldl etaUpdate64 1) := by
      rcases g1 with h | ⟨hm, hp⟩
      · rw [h, etaDistance64_one]
        exact etaDistance64_nonneg _
      · exact f5 _ (hl.subset hm) hp
    have d2 : etaDistance64 ([axisEta64 s current command 0, axisEta64 s current command 1,
          axisEta64 s current command 2].foldl etaUpdate64 1) ≤
        etaDistance64 (l.foldl etaUpdate64 1) := by
      rcases f1 with h | ⟨hm, hp⟩
      · rw [h, etaDistance64_one]
        exact etaDistance64_nonneg _
      · exact g5 _ (hl.symm.subset hm) hp
    refine ⟨le_antisymm d1 d2, ?_⟩
    have c1 := eta_close_of_distance_le g2 g3 f2 f3 d1
    have c2 := eta_close_of_distance_le f2 f3 g2 g3 d2
    rw [abs_le]
    constructor <;> linarith

theorem finite64_nearTie :
    ∀ i, i < 3 → Finite64 (axisOf nearTieCommand i - axisOf Twist.zero i) := by
  intro i hi
  unfold Finite64
  interval_cases i
  · show |fl64 (1 / 2 - 0)| ≤ maxFinite64
    rw [sub_zero, fl64_eq_self_of _ 1 (-1) (by norm_num) (by norm_num) (by norm_num),
      abs_of_pos (by norm_num)]
    norm_num [maxFinite64]
  · show |fl64 (0 - 0)| ≤ maxFinite64
    rw [sub_zero, fl64_zero]
    norm_num [maxFinite64]
  · show |fl64 (5764607523034236 / 9007199254740992 - 0)| ≤ maxFinite64
    rw [sub_zero,
      fl64_eq_self_of _ 5764607523034236 (-53) (by norm_num) (by norm_num) (by norm_num),
      abs_of_pos (by norm_num)]
    norm_num [maxFinite64]

/-- Witness of the amended C2: the binary64 default limits with scaling
enabled, at rest, the command of the near tie. -/
theorem selectEta_most_restrictive_witness :
    0 < selectEta64 scalingState64 Twist.zero nearTieCommand ∧
      selectEta64 scalingState64 Twist.zero nearTieCommand ≤ 1 :=
  ⟨(selectEta_most_restrictive scalingState64 Twist.zero nearTieCommand rfl
      validLimits_scalingState64 finite64_nearTie).2.1,
    (selectEta_most_restrictive scalingState64 Twist.zero nearTieCommand rfl
      validLimits_scalingState64 finite64_nearTie).2.2.1⟩

/-! ## One violating axis -/

theorem axisOf_solveTwist (s : VelocitySmoother) (current command : Twist) (eta : ℚ)
    (j : Nat) (hj : j < 3) :
    axisOf (solveTwist s current command eta) j =
      applyConstraints s.smoothing_frequency_ (axisOf current j) (axisOf command j)
        (idx s.max_accels_ j) (idx s.max_decels_ j) eta := by
  interval_cases j <;> rfl

theorem selectEta_eq_fold (s : VelocitySmoother) (current command : Twist)
    (hscale : s.scale_velocities_ = true) :
    selectEta s current command =
      etaUpdate (etaUpdate (etaUpdate 1 (axisEta s current command 0))
        (axisEta s current command 1)) (axisEta s current command 2) := by
  unfold selectEta
  rw [if_pos hscale]
  rfl

theorem etaUpdate_sentinel (eta : ℚ) : etaUpdate eta (-1) = eta := by
  unfold etaUpdate
  rw [if_neg]
  intro h
  norm_num at h

theorem selectEta_eq_min (s : VelocitySmoother) (current command : Twist)
    (hscale : s.scale_velocities_ = true) (hvalid : ValidLimits s) :
    selectEta s current command =
      min (min (min 1 (positiveEta (axisEta s current command 0)))
        (positiveEta (axisEta s current command 1)))
        (positiveEta (axisEta s current command 2)) := by
  obtain ⟨hf, _, _, _, _, _, hax⟩ := hvalid
  have hlt : ∀ i, i < 3 → axisEta s current command i < 1 := fun i hi =>
    findEtaConstraint_lt_one hf (hax i hi).2.2.1 (hax i hi).2.2.2
  rw [selectEta_eq_fold s current command hscale,
    etaUpdate_eq_min (le_refl 1) (hlt 0 (by norm_num)),
    etaUpdate_eq_min (min_le_left _ _) (hlt 1 (by norm_num)),
    etaUpdate_eq_min (le_trans (min_le_left _ _) (min_le_left _ _)) (hlt 2 (by norm_num))]

theorem axisOf_applyDeadband (s : VelocitySmoother) (t : Twist) (i : Nat) (hi : i < 3) :
    axisOf (applyDeadband s t) i =
      if |axisOf t i| < idx s.deadband_velocities_ i then 0 else axisOf t i := by
  interval_cases i <;> rfl

theorem storedOutputInv_of_zero (s : VelocitySmoother)
    (h : s.last_cmd_.twist = Twist.zero) : StoredOutputInv s := by
  unfold StoredOutputInv
  rw [h]
  exact ⟨rfl, rfl, rfl, fun _ => rfl⟩

theorem storedOutputInv_inputCommand (s : VelocitySmoother) (now : Int)
    (msg : RawTwistStamped) (h : StoredOutputInv s) :
    StoredOutputInv (inputCommandStampedCallback s now msg) := by
  unfold inputCommandStampedCallback
  split_ifs <;> exact h

theorem storedOutputInv_smootherTimer (s : VelocitySmoother) (env : TickEnv)
    (h : StoredOutputInv s) : StoredOutputInv (smootherTimer s env).1 := by
  cases hc : s.command_ with
  | none =>
    have : smootherTimer s env = (s, none) := by
      unfold smootherTimer
      rw [hc]
    rw [this]
    exact h
  | some c =>
    by_cases hl : isStale s env ∧ (s.last_cmd_.twist = Twist.zero ∨ s.stopped_ = true)
    · rw [smootherTimer_of_latch s env c hc hl]
      obtain ⟨h1, h2, h3, h4⟩ := h
      refine ⟨h1, h2, h3, fun _ => ?_⟩
      rcases hl.2 with hz | hs
      · exact hz
      · exact h4 hs
    · rw [smootherTimer_of_emit s env c hc hl]
      exact ⟨rfl, rfl, rfl, fun hs => absurd hs Bool.false_ne_true⟩

/-! ## Stale deceleration in binary64 -/

theorem axisOf_solveTwist64 (s : VelocitySmoother) (current command : Twist) (eta : ℚ)
    (i : Nat) (hi : i < 3) :
    axisOf (solveTwist64 s current command eta) i =
      applyConstraints64 s.smoothing_frequency_ (axisOf current i) (axisOf command i)
        (idx s.max_accels_ i) (idx s.max_decels_ i) eta := by
  interval_cases i <;> rfl

theorem smootherTimer64_of_emit (s : VelocitySmoother) (env : TickEnv) (c : TwistStamped)
    (hc : s.command_ = some c)
    (h : ¬ (isStale s env ∧ (s.last_cmd_.twist = Twist.zero ∨ s.stopped_ = true))) :
    smootherTimer64 s env =
      ({ s with
          command_ := some (clampCommand s (effectiveCommand s env c))
          stopped_ := false
          last_cmd_ := ⟨c.header,
            solveTwist64 s (currentVelocity s env).twist
              (clampCommand s (effectiveCommand s env c)).twist
              (selectEta64 s (currentVelocity s env).twist
                (clampCommand s (effectiveCommand s env c)).twist)⟩ },
        some ⟨c.header,
          applyDeadband s
            (solveTwist64 s (currentVelocity s env).twist
              (clampCommand s (effectiveCommand s env c)).twist
              (selectEta64 s (currentVelocity s env).twist
                (clampCommand s (effectiveCommand s env c)).twist))⟩) := by
  unfold smootherTimer64
  rw [hc]
  simp only [if_neg h]

theorem smootherTimer64_of_latch (s : VelocitySmoother) (env : TickEnv) (c : TwistStamped)
    (hc : s.command_ = some c)
    (h : isStale s env ∧ (s.last_cmd_.twist = Twist.zero ∨ s.stopped_ = true)) :
    smootherTimer64 s env = ({ s with stopped_ := true }, none) := by
  unfold smootherTimer64
  rw [hc]
  simp only [if_pos h]

/-- The stored-output invariant holds in every state the binary64 tick
reaches. -/
theorem storedOutputInv_smootherTimer64 (s : VelocitySmoother) (env : TickEnv)
    (h : StoredOutputInv s) : StoredOutputInv (smootherTimer64 s env).1 := by
  rcases Option.eq_none_or_eq_some s.command_ with hc | ⟨c, hc⟩
  · have : smootherTimer64 s env = (s, none) := by
      unfold smootherTimer64
      rw [hc]
    rw [this]
    exact h
  · by_cases hl : isStale s env ∧ (s.last_cmd_.twist = Twist.zero ∨ s.stopped_ = true)
    · rw [smootherTimer64_of_latch s env c hc hl]
      obtain ⟨h1, h2, h3, h4⟩ := h
      refine ⟨h1, h2, h3, fun _ => ?_⟩
      rcases hl.2 with hz | hs
      · exact hz
      · exact h4 hs
    · rw [smootherTimer64_of_emit s env c hc hl]
      exact ⟨rfl, rfl, rfl, fun hs => absurd hs Bool.false_ne_true⟩

/-- The axes of the stored output stay binary64 values: the binary64 tick
leaves them alone or assigns them rounded sums. -/
theorem stored_binary64_smootherTimer64 (s : VelocitySmoother) (env : TickEnv)
    (h : ∀ i, i < 3 → fl64 (axisOf s.last_cmd_.twist i) = axisOf s.last_cmd_.twist i) :
    ∀ i, i < 3 →
      fl64 (axisOf (smootherTimer64 s env).1.last_cmd_.twist i) =
        axisOf (smootherTimer64 s env).1.last_cmd_.twist i := by
  rcases Option.eq_none_or_eq_some s.command_ with hc | ⟨c, hc⟩
  · have : smootherTimer64 s env = (s, none) := by
      unfold smootherTimer64
      rw [hc]
    rw [this]
    exact h
  · by_cases hl : isStale s env ∧ (s.last_cmd_.twist = Twist.zero ∨ s.stopped_ = true)
    · rw [smootherTimer64_of_latch s env c hc hl]
      exact h
    · rw [smootherTimer64_of_emit s env c hc hl]
      intro i hi
      simp only
      rw [axisOf_solveTwist64 s _ _ _ i hi]
      unfold applyConstraints64
      exact fl64_idem _

theorem validateTwist_iff (t : RawTwist) : validateTwist t = true ↔ t.allFinite := by
  unfold validateTwist RawTwist.allFinite
  simp only [Bool.and_eq_true, and_assoc]

theorem inputCommandStampedCallback_of_invalid (s : VelocitySmoother) (now : Int)
    (msg : RawTwistStamped) (h : ¬ msg.twist.allFinite) :
    inputCommandStampedCallback s now msg = s := by
  have hv : validateTwist msg.twist = false := by
    rw [← Bool.not_eq_true, validateTwist_iff]
    exact h
  unfold inputCommandStampedCallback
  rw [hv]
  rfl

theorem inputCommandStampedCallback_of_valid (s : VelocitySmoother) (now : Int)
    (msg : RawTwistStamped) (h : msg.twist.allFinite) :
    inputCommandStampedCallback s now msg =
      { s with
        command_ := some ⟨msg.header, msg.twist.toTwist⟩
        last_command_time_ :=
          if msg.header.stamp.sec = 0 ∧ msg.header.stamp.nanosec = 0 then now
          else msg.header.stamp.toTime } := by
  have hv : validateTwist msg.twist = true := (validateTwist_iff _).mpr h
  unfold inputCommandStampedCallback
  rw [hv]
  rfl

/-- Claim C11. `inputCommandStampedCallback` changes the state iff every
component of the twist is finite: a command with a NaN or infinite component
leaves the whole state (so `command_` and `last_command_time_`) unchanged; a
finite command replaces `command_` by the message and sets
`last_command_time_` to the message stamp when that stamp is non-zero and to
the ingestion time `now()` when it is zero, changing nothing else. The
unstamped entry point `inputCommandCallback` therefore records the ingestion
time for every command it accepts. -/
theorem inputCommand_finite_iff (s : VelocitySmoother) (now : Int) :
    (∀ msg : RawTwistStamped, ¬ msg.twist.allFinite →
        inputCommandStampedCallback s now msg = s) ∧
      (∀ msg : RawTwistStamped, msg.twist.allFinite →
        inputCommandStampedCallback s now msg =
          { s with
            command_ := some ⟨msg.header, msg.twist.toTwist⟩
            last_command_time_ :=
              if msg.header.stamp.sec = 0 ∧ msg.header.stamp.nanosec = 0 then now
              else msg.header.stamp.toTime }) ∧
      (∀ t : RawTwist, ¬ t.allFinite → inputCommandCallback s now t = s) ∧
      (∀ t : RawTwist, t.allFinite →
        inputCommandCallback s now t =
          { s with
            command_ := some ⟨TwistStamped.zero.header, t.toTwist⟩
            last_command_time_ := now }) := by
  refine ⟨fun msg h => inputCommandStampedCallback_of_invalid s now msg h,
    fun msg h => inputCommandStampedCallback_of_valid s now msg h, ?_, ?_⟩
  · intro t h
    exact inputCommandStampedCallback_of_invalid s now ⟨TwistStamped.zero.header, t⟩ h
  · intro t h
    unfold inputCommandCallback
    rw [inputCommandStampedCallback_of_valid s now ⟨TwistStamped.zero.header, t⟩ h]
    rfl

/-! ## Emitting ticks: deadband, stored output, round trip, scenario A -/

theorem selectEta_pos (s : VelocitySmoother) (current command : Twist)
    (hvalid : ValidLimits s) :
    0 < selectEta s current command ∧ selectEta s current command ≤ 1 := by
  by_cases hscale : s.scale_velocities_ = true
  · rw [selectEta_eq_min s current command hscale hvalid]
    exact ⟨lt_min (lt_min (lt_min one_pos positiveEta_pos) positiveEta_pos) positiveEta_pos,
      le_trans (min_le_left _ _) (le_trans (min_le_left _ _) (min_le_left _ _))⟩
  · have h1 : selectEta s current command = 1 := by
      unfold selectEta
      rw [if_neg hscale]
    rw [h1]
    exact ⟨one_pos, le_refl _⟩

theorem stored_axis_of_emit (s : VelocitySmoother) (env : TickEnv) (c : TwistStamped)
    (hc : s.command_ = some c) (hemit : Emits s env) (i : Nat) (hi : i < 3) :
    axisOf (smootherTimer s env).1.last_cmd_.twist i =
      applyConstraints s.smoothing_frequency_ (axisOf (tickCurrent s env) i)
        (axisOf (tickCommand s env c) i) (idx s.max_accels_ i) (idx s.max_decels_ i)
        (selectEta s (tickCurrent s env) (tickCommand s env c)) := by
  rw [smootherTimer_of_emit s env c hc hemit]
  exact axisOf_solveTwist s _ _ _ i hi

theorem published_of_emit (s : VelocitySmoother) (env : TickEnv) (c : TwistStamped)
    (hc : s.command_ = some c) (hemit : Emits s env) :
    (smootherTimer s env).2 =
      some ⟨c.header, applyDeadband s (smootherTimer s env).1.last_cmd_.twist⟩ := by
  rw [smootherTimer_of_emit s env c hc hemit]

/-- Claim C16. Deadband: on every emitting tick and for each axis
independently, the published value is exactly 0 when the absolute value of the
solver output for that axis is strictly below the axis's deadband, and is the
solver output unchanged otherwise; so every published axis value is either
exactly 0 or of magnitude at least its deadband. -/
theorem deadband_published (s : VelocitySmoother) (env : TickEnv) (c : TwistStamped)
    (hc : s.command_ = some c) (hemit : Emits s env) :
    ∃ msg, (smootherTimer s env).2 = some msg ∧
      ∀ i, i < 3 →
        axisOf msg.twist i =
            (if |applyConstraints s.smoothing_frequency_ (axisOf (tickCurrent s env) i)
                  (axisOf (tickCommand s env c) i) (idx s.max_accels_ i) (idx s.max_decels_ i)
                  (selectEta s (tickCurrent s env) (tickCommand s env c))| <
                idx s.deadband_velocities_ i then 0
              else
                applyConstraints s.smoothing_frequency_ (axisOf (tickCurrent s env) i)
                  (axisOf (tickCommand s env c) i) (idx s.max_accels_ i) (idx s.max_decels_ i)
                  (selectEta s (tickCurrent s env) (tickCommand s env c))) ∧
          (axisOf msg.twist i = 0 ∨ idx s.deadband_velocities_ i ≤ |axisOf msg.twist i|) := by
  refine ⟨_, published_of_emit s env c hc hemit, ?_⟩
  intro i hi
  simp only
  rw [axisOf_applyDeadband s _ i hi, stored_axis_of_emit s env c hc hemit i hi]
  refine ⟨rfl, ?_⟩
  split_ifs with h
  · exact Or.inl rfl
  · exact Or.inr (not_lt.mp h)

theorem emits_deadbandState : Emits deadbandState (tickAt 500000000) := by
  unfold Emits
  rintro ⟨h, _⟩
  revert h
  norm_num [isStale, deadbandState, defaultState, tickAt]

/-- Witness of C16: default limits with a deadband of 1/5 on linear x, at
rest, a command of 1/2 on linear x, clock 0.5 s. -/
theorem deadband_published_witness :
    ∃ msg, (smootherTimer deadbandState (tickAt 500000000)).2 = some msg ∧
      ∀ i, i < 3 →
        (axisOf msg.twist i = 0 ∨
          idx deadbandState.deadband_velocities_ i ≤ |axisOf msg.twist i|) := by
  obtain ⟨msg, h1, h2⟩ := deadband_published deadbandState (tickAt 500000000)
    ⟨⟨⟨0, 0⟩, "base_link"⟩, ⟨⟨1/2, 0, 0⟩, ⟨0, 0, 0⟩⟩⟩ rfl emits_deadbandState
  exact ⟨msg, h1, fun i hi => (h2 i hi).2⟩

/-- Claim C19. The value stored as the last emitted command is the solver
output before the deadband: after every emitting tick `last_cmd_` holds, per
axis, the result of `applyConstraints`, the published message is its
deadbanded copy (so an axis published as 0 by the deadband keeps its solver
value in `last_cmd_`), and it is the stored value that the next tick uses as
the open-loop current velocity and compares with the zero twist for the stop
latch. -/
theorem stored_is_pre_deadband (s : VelocitySmoother) (env : TickEnv) (c : TwistStamped)
    (hc : s.command_ = some c) (hemit : Emits s env) :
    (∀ i, i < 3 →
        axisOf (smootherTimer s env).1.last_cmd_.twist i =
          applyConstraints s.smoothing_frequency_ (axisOf (tickCurrent s env) i)
            (axisOf (tickCommand s env c) i) (idx s.max_accels_ i) (idx s.max_decels_ i)
            (selectEta s (tickCurrent s env) (tickCommand s env c))) ∧
      (smootherTimer s env).2 =
        some ⟨c.header, applyDeadband s (smootherTimer s env).1.last_cmd_.twist⟩ ∧
      (∀ env2, s.open_loop_ = true →
        tickCurrent (smootherTimer s env).1 env2 = (smootherTimer s env).1.last_cmd_.twist) ∧
      (∀ env2, isStale (smootherTimer s env).1 env2 →
        ((smootherTimer (smootherTimer s env).1 env2).2 = none ↔
          (smootherTimer s env).1.last_cmd_.twist = Twist.zero)) := by
  refine ⟨fun i hi => stored_axis_of_emit s env c hc hemit i hi,
    published_of_emit s env c hc hemit, ?_, ?_⟩
  · intro env2 hopen
    rw [smootherTimer_of_emit s env c hc hemit]
    unfold tickCurrent currentVelocity
    simp only [hopen, if_true]
  · intro env2 hstale
    have hc2 : (smootherTimer s env).1.command_ =
        some (clampCommand s (effectiveCommand s env c)) := by
      rw [smootherTimer_of_emit s env c hc hemit]
    have hst2 : (smootherTimer s env).1.stopped_ = false := by
      rw [smootherTimer_of_emit s env c hc hemit]
    constructor
    · intro hnone
      by_contra hnz
      have hem : Emits (smootherTimer s env).1 env2 := by
        rintro ⟨_, h | h⟩
        · exact hnz h
        · rw [hst2] at h
          exact Bool.false_ne_true h
      rw [published_of_emit _ env2 _ hc2 hem] at hnone
      exact Option.some_ne_none _ hnone
    · intro hz
      rw [smootherTimer_of_latch _ env2 _ hc2 ⟨hstale, Or.inl hz⟩]

/-- Witness of C19: with a deadband of 1/5 on linear x the first tick toward a
command of 1/2 stores the solver output while the published message goes
through the deadband. -/
theorem stored_is_pre_deadband_witness :
    (smootherTimer deadbandState (tickAt 500000000)).2 =
      some ⟨⟨⟨0, 0⟩, "base_link"⟩,
        applyDeadband deadbandState
          (smootherTimer deadbandState (tickAt 500000000)).1.last_cmd_.twist⟩ :=
  (stored_is_pre_deadband deadbandState (tickAt 500000000)
    ⟨⟨⟨0, 0⟩, "base_link"⟩, ⟨⟨1/2, 0, 0⟩, ⟨0, 0, 0⟩⟩⟩ rfl emits_deadbandState).2.1

theorem applyConstraints_same {f v a d : ℚ} (eta : ℚ) (hf : 0 < f) (ha : 0 ≤ a) :
    applyConstraints f v v a d eta = v := by
  unfold applyConstraints clamp
  have hacc : |v| ≥ |v| ∧ v * v ≥ 0 := ⟨le_refl _, mul_self_nonneg v⟩
  have hq : 0 ≤ a / f := div_nonneg ha hf.le
  have e : -a / f = -(a / f) := by ring
  simp only [hacc, and_self, if_true, sub_self, mul_zero, e]
  rw [if_neg (by linarith), if_neg (by linarith), add_zero]

theorem findEtaConstraint_same {f v a d : ℚ} (hf : 0 < f) (ha : 0 ≤ a) :
    findEtaConstraint f v v a d = -1 := by
  unfold findEtaConstraint
  have hacc : |v| ≥ |v| ∧ v * v ≥ 0 := ⟨le_refl _, mul_self_nonneg v⟩
  have hq : 0 ≤ a / f := div_nonneg ha hf.le
  have e : -a / f = -(a / f) := by ring
  simp only [hacc, and_self, if_true, sub_self, e]
  rw [if_neg (by linarith), if_neg (by linarith)]

theorem axisOf_clampCommand (s : VelocitySmoother) (c : TwistStamped) (i : Nat) (hi : i < 3) :
    axisOf (clampCommand s c).twist i =
      clamp (axisOf c.twist i) (idx s.min_velocities_ i) (idx s.max_velocities_ i) := by
  interval_cases i <;> rfl

/-- Claim C17. Round trip: for all `v`, `eta`, `accel ≥ 0`, `decel ≤ 0` and
`f > 0`, `applyConstraints(v, v, accel, decel, eta) = v` and
`findEtaConstraint(v, v, accel, decel)` reports unconstrained (`-1`); hence an
emitting tick with valid limits whose command equals the current estimate on
every axis, with that value inside `[min_velocity, max_velocity]`, selects
`eta = 1` and stores an output equal to the current estimate on every axis. -/
theorem round_trip :
    (∀ f v accel decel eta : ℚ, 0 < f → 0 ≤ accel → decel ≤ 0 →
        applyConstraints f v v accel decel eta = v ∧
          findEtaConstraint f v v accel decel = -1) ∧
      (∀ (s : VelocitySmoother) (env : TickEnv) (c : TwistStamped),
        s.command_ = some c → Emits s env → ValidLimits s →
        (∀ i, i < 3 →
          axisOf (effectiveCommand s env c).twist i = axisOf (tickCurrent s env) i ∧
            idx s.min_velocities_ i ≤ axisOf (tickCurrent s env) i ∧
            axisOf (tickCurrent s env) i ≤ idx s.max_velocities_ i) →
        selectEta s (tickCurrent s env) (tickCommand s env c) = 1 ∧
          ∀ i, i < 3 →
            axisOf (smootherTimer s env).1.last_cmd_.twist i =
              axisOf (tickCurrent s env) i) := by
  constructor
  · intro f v accel decel eta hf ha _
    exact ⟨applyConstraints_same eta hf ha, findEtaConstraint_same hf ha⟩
  · intro s env c hc hemit hvalid hsame
    have hvalid2 := hvalid
    obtain ⟨hf, _, _, _, _, _, hax⟩ := hvalid2
    have hcmd : ∀ i, i < 3 →
        axisOf (tickCommand s env c) i = axisOf (tickCurrent s env) i := by
      intro i hi
      unfold tickCommand
      rw [axisOf_clampCommand s _ i hi, (hsame i hi).1,
        clamp_of_mem (hsame i hi).2.1 (hsame i hi).2.2]
    have heta : ∀ i, i < 3 →
        axisEta s (tickCurrent s env) (tickCommand s env c) i = -1 := by
      intro i hi
      unfold axisEta
      rw [hcmd i hi]
      exact findEtaConstraint_same hf (hax i hi).2.2.1
    have hsel : selectEta s (tickCurrent s env) (tickCommand s env c) = 1 := by
      by_cases hscale : s.scale_velocities_ = true
      · rw [selectEta_eq_fold s _ _ hscale, heta 0 (by norm_num), heta 1 (by norm_num),
          heta 2 (by norm_num), etaUpdate_sentinel, etaUpdate_sentinel, etaUpdate_sentinel]
      · unfold selectEta
        rw [if_neg hscale]
    refine ⟨hsel, fun i hi => ?_⟩
    rw [stored_axis_of_emit s env c hc hemit i hi, hcmd i hi]
    exact applyConstraints_same _ hf (hax i hi).2.2.1

/-- Witness of C17: default limits in closed loop, a command of 3/10 on linear
x while the odometry estimate is 3/10 on linear x. -/
theorem round_trip_witness :
    selectEta closedLoopState (tickCurrent closedLoopState cruiseTick)
        (tickCommand closedLoopState cruiseTick
          ⟨⟨⟨0, 0⟩, "base_link"⟩, ⟨⟨3/10, 0, 0⟩, ⟨0, 0, 0⟩⟩⟩) = 1 ∧
      ∀ i, i < 3 →
        axisOf (smootherTimer closedLoopState cruiseTick).1.last_cmd_.twist i =
          axisOf (tickCurrent closedLoopState cruiseTick) i :=
  round_trip.2 closedLoopState cruiseTick
    ⟨⟨⟨0, 0⟩, "base_link"⟩, ⟨⟨3/10, 0, 0⟩, ⟨0, 0, 0⟩⟩⟩ rfl
    (by
      rintro ⟨h, _⟩
      revert h
      norm_num [isStale, closedLoopState, defaultState, cruiseTick])
    validLimits_defaultState
    (by
      have hns : ¬ isStale closedLoopState cruiseTick := by
        norm_num [isStale, closedLoopState, defaultState, cruiseTick]
      intro i hi
      unfold effectiveCommand
      rw [if_neg hns]
      interval_cases i <;>
        norm_num [axisOf, tickCurrent, currentVelocity, closedLoopState, defaultState,
          cruiseTick, idx])

theorem applyConstraints_from_rest {f cx a d eta : ℚ} (hf : 0 < f) (ha : 0 ≤ a)
    (h0 : 0 ≤ eta) (hc : 0 ≤ cx) :
    0 ≤ applyConstraints f 0 cx a d eta ∧ applyConstraints f 0 cx a d eta ≤ a / f := by
  have hq : 0 ≤ a / f := div_nonneg ha hf.le
  have e : -a / f = -(a / f) := by ring
  have hv : 0 ≤ eta * (cx - 0) := by
    rw [sub_zero]
    exact mul_nonneg h0 hc
  have hacc : |cx| ≥ |(0:ℚ)| ∧ (0:ℚ) * cx ≥ 0 := by
    rw [abs_zero, zero_mul]
    exact ⟨abs_nonneg _, le_refl _⟩
  unfold applyConstraints clamp
  simp only [hacc, and_self, if_true, zero_add, e]
  rw [if_neg (by linarith)]
  split_ifs with h
  · exact ⟨hq, le_refl _⟩
  · exact ⟨hv, not_lt.mp h⟩

/-- Claim C18. Scenario A as a tick-level bound: in open loop with smoothing
frequency 20, `max_accel = [2.5, 0, 3.2]`, `max_decel ≤ 0`,
`min_velocity ≤ 0 ≤ max_velocity`, a last output of zero and a fresh command
with `x = 1.0`, the x value stored and the x value published by the tick lie
in `[0, 0.125]`, whatever `scale_velocities`, the x velocity limit, the
deadband and the commanded y and angular components are. -/
theorem scenario_A (s : VelocitySmoother) (env : TickEnv) (c : TwistStamped)
    (hc : s.command_ = some c) (hfresh : ¬ isStale s env) (hopen : s.open_loop_ = true)
    (hf : s.smoothing_frequency_ = 20) (hacc : s.max_accels_ = [5/2, 0, 16/5])
    (hvalid : ValidLimits s) (hlast : s.last_cmd_.twist = Twist.zero)
    (hx : c.twist.linear.x = 1) :
    0 ≤ (smootherTimer s env).1.last_cmd_.twist.linear.x ∧
      (smootherTimer s env).1.last_cmd_.twist.linear.x ≤ 1/8 ∧
      ∃ msg, (smootherTimer s env).2 = some msg ∧
        0 ≤ msg.twist.linear.x ∧ msg.twist.linear.x ≤ 1/8 := by
  have hemit : Emits s env := fun h => hfresh h.1
  have hvalid2 := hvalid
  obtain ⟨hfpos, _, _, _, _, _, hax⟩ := hvalid2
  obtain ⟨hE0, _⟩ := selectEta_pos s (tickCurrent s env) (tickCommand s env c) hvalid
  have hcur : axisOf (tickCurrent s env) 0 = 0 := by
    unfold tickCurrent currentVelocity
    rw [if_pos hopen, hlast]
    rfl
  have hcmd : 0 ≤ axisOf (tickCommand s env c) 0 := by
    unfold tickCommand effectiveCommand
    rw [if_neg hfresh, axisOf_clampCommand s c 0 (by norm_num)]
    have hc1 : axisOf c.twist 0 = 1 := hx
    rw [hc1]
    unfold clamp
    split_ifs with h1 h2
    · linarith [(hax 0 (by norm_num)).1]
    · exact (hax 0 (by norm_num)).2.1
    · norm_num
  have hstore := stored_axis_of_emit s env c hc hemit 0 (by norm_num)
  rw [hcur] at hstore
  have hb := applyConstraints_from_rest (d := idx s.max_decels_ 0) hfpos
    (hax 0 (by norm_num)).2.2.1 hE0.le hcmd
  rw [← hstore] at hb
  have hbound : idx s.max_accels_ 0 / s.smoothing_frequency_ = 1/8 := by
    rw [hf, hacc]
    norm_num [idx]
  rw [hbound] at hb
  have hx0 : (smootherTimer s env).1.last_cmd_.twist.linear.x =
      axisOf (smootherTimer s env).1.last_cmd_.twist 0 := rfl
  refine ⟨by rw [hx0]; exact hb.1, by rw [hx0]; exact hb.2,
    _, published_of_emit s env c hc hemit, ?_⟩
  have hpub : (applyDeadband s (smootherTimer s env).1.last_cmd_.twist).linear.x =
      if |axisOf (smootherTimer s env).1.last_cmd_.twist 0| < idx s.deadband_velocities_ 0
      then 0 else axisOf (smootherTimer s env).1.last_cmd_.twist 0 :=
    axisOf_applyDeadband s _ 0 (by norm_num)
  simp only
  rw [hpub]
  split_ifs
  · norm_num
  · exact hb

/-- Witness of C18: scaling enabled, an x velocity limit of 3, a command of 1
on linear x, 1/4 on linear y and 2 on angular z, clock 0.5 s. -/
theorem scenario_A_witness :
    0 ≤ (smootherTimer scenarioAState (tickAt 500000000)).1.last_cmd_.twist.linear.x ∧
      (smootherTimer scenarioAState (tickAt 500000000)).1.last_cmd_.twist.linear.x ≤ 1/8 ∧
      ∃ msg, (smootherTimer scenarioAState (tickAt 500000000)).2 = some msg ∧
        0 ≤ msg.twist.linear.x ∧ msg.twist.linear.x ≤ 1/8 :=
  scenario_A scenarioAState (tickAt 500000000)
    ⟨⟨⟨0, 0⟩, "base_link"⟩, ⟨⟨1, 1/4, 0⟩, ⟨0, 0, 2⟩⟩⟩ rfl
    (by norm_num [isStale, scenarioAState, defaultState, tickAt]) rfl rfl rfl
    (by
      refine ⟨by norm_num [scenarioAState, defaultState], rfl, rfl, rfl, rfl, rfl, ?_⟩
      intro i hi
      interval_cases i <;> norm_num [idx, scenarioAState, defaultState])
    rfl rfl

/-! ## Live reconfiguration -/

theorem applyParameter_fail_state (s : VelocitySmoother) (p : Parameter)
    (h : (applyParameter s true p).successful = false) :
    (applyParameter s true p).state = s := by
  rcases p with ⟨name, value⟩
  cases value <;> simp only [applyParameter] at h ⊢ <;> split_ifs at h ⊢ <;> simp_all

theorem dynamicParametersCallback_single (s : VelocitySmoother) (p : Parameter) :
    dynamicParametersCallback s [p] =
      ((applyParameter s true p).state, (applyParameter s true p).successful) := by
  unfold dynamicParametersCallback
  simp only [processParameters]
  split_ifs <;> rfl

/-- Counterexample to C12 as stated: the request
`[max_velocity = [1, 0, 3], max_decel = [1, 0, 0]]` on the default
configuration returns `successful = false` (the deceleration is positive), yet
`max_velocities_`, named by the valid parameter of the same request, has
changed from `[1/2, 0, 5/2]` to `[1, 0, 3]`. -/
theorem reconfiguration_partial_counterexample :
    (dynamicParametersCallback defaultState
        [⟨"max_velocity", .double_array [1, 0, 3]⟩,
          ⟨"max_decel", .double_array [1, 0, 0]⟩]).2 = false ∧
      (dynamicParametersCallback defaultState
        [⟨"max_velocity", .double_array [1, 0, 3]⟩,
          ⟨"max_decel", .double_array [1, 0, 0]⟩]).1.max_velocities_ = [1, 0, 3] ∧
      defaultState.max_velocities_ = [1/2, 0, 5/2] ∧
      (dynamicParametersCallback defaultState
        [⟨"max_velocity", .double_array [1, 0, 3]⟩,
          ⟨"max_decel", .double_array [1, 0, 0]⟩]).1.max_velocities_ ≠
        defaultState.max_velocities_ := by
  have h : dynamicParametersCallback defaultState
      [⟨"max_velocity", .double_array [1, 0, 3]⟩, ⟨"max_decel", .double_array [1, 0, 0]⟩] =
      ({ defaultState with max_velocities_ := [1, 0, 3] }, false) := by
    simp [dynamicParametersCallback, processParameters, applyParameter, anyNegative,
      anyPositive, idx]
  rw [h]
  refine ⟨rfl, rfl, rfl, ?_⟩
  simp [defaultState]

/-- Claim C12, amended. Reconfiguration is all-or-nothing for a request of one
parameter: when `dynamicParametersCallback` returns `successful = false` on a
single-parameter request, every member (so every configuration field) has the
same value after the call as before it, because the loop pass that turns
`successful` to false changes no member. In a longer request the parameters
processed before the rejected one stay applied: there is no rollback. -/
theorem reconfiguration_failing_step (s : VelocitySmoother) (p : Parameter)
    (h : (dynamicParametersCallback s [p]).2 = false) :
    (dynamicParametersCallback s [p]).1 = s ∧
      (applyParameter s true p).successful = false ∧ (applyParameter s true p).state = s := by
  rw [dynamicParametersCallback_single] at h ⊢
  exact ⟨applyParameter_fail_state s p h, h, applyParameter_fail_state s p h⟩

/-- Witness of the amended C12: the single request `max_decel = [1, 0, 0]`
on the default configuration. -/
theorem reconfiguration_failing_step_witness :
    (dynamicParametersCallback defaultState [⟨"max_decel", .double_array [1, 0, 0]⟩]).1 =
        defaultState ∧
      (applyParameter defaultState true ⟨"max_decel", .double_array [1, 0, 0]⟩).successful =
        false ∧
      (applyParameter defaultState true ⟨"max_decel", .double_array [1, 0, 0]⟩).state =
        defaultState :=
  reconfiguration_failing_step defaultState ⟨"max_decel", .double_array [1, 0, 0]⟩
    (by
      simp [dynamicParametersCallback, processParameters, applyParameter, anyPositive, idx])

theorem anyPositive_iff {v : List ℚ} (h : v.length = 3) :
    anyPositive v = true ↔ ∃ x ∈ v, 0 < x := by
  obtain ⟨a, b, c, rfl⟩ := List.length_eq_three.mp h
  simp [anyPositive, idx, or_assoc]

theorem anyNegative_iff {v : List ℚ} (h : v.length = 3) :
    anyNegative v = true ↔ ∃ x ∈ v, x < 0 := by
  obtain ⟨a, b, c, rfl⟩ := List.length_eq_three.mp h
  simp [anyNegative, idx, or_assoc]

theorem reject_max_decel (s : VelocitySmoother) (v : List ℚ)
    (h : v.length ≠ 3 ∨ ∃ x ∈ v, 0 < x) :
    dynamicParametersCallback s [⟨"max_decel", .double_array v⟩] = (s, false) := by
  rw [dynamicParametersCallback_single]
  by_cases hl : v.length = 3
  · have hp : anyPositive v = true := (anyPositive_iff hl).mpr (h.resolve_left (not_not.mpr hl))
    simp [applyParameter, hl, hp]
  · simp [applyParameter, hl]

theorem reject_max_accel (s : VelocitySmoother) (v : List ℚ)
    (h : v.length ≠ 3 ∨ ∃ x ∈ v, x < 0) :
    dynamicParametersCallback s [⟨"max_accel", .double_array v⟩] = (s, false) := by
  rw [dynamicParametersCallback_single]
  by_cases hl : v.length = 3
  · have hp : anyNegative v = true := (anyNegative_iff hl).mpr (h.resolve_left (not_not.mpr hl))
    simp [applyParameter, hl, hp]
  · simp [applyParameter, hl]

theorem reject_min_velocity (s : VelocitySmoother) (v : List ℚ)
    (h : v.length ≠ 3 ∨ ∃ x ∈ v, 0 < x) :
    dynamicParametersCallback s [⟨"min_velocity", .double_array v⟩] = (s, false) := by
  rw [dynamicParametersCallback_single]
  by_cases hl : v.length = 3
  · have hp : anyPositive v = true := (anyPositive_iff hl).mpr (h.resolve_left (not_not.mpr hl))
    simp [applyParameter, hl, hp]
  · simp [applyParameter, hl]

theorem reject_max_velocity (s : VelocitySmoother) (v : List ℚ)
    (h : v.length ≠ 3 ∨ ∃ x ∈ v, x < 0) :
    dynamicParametersCallback s [⟨"max_velocity", .double_array v⟩] = (s, false) := by
  rw [dynamicParametersCallback_single]
  by_cases hl : v.length = 3
  · have hp : anyNegative v = true := (anyNegative_iff hl).mpr (h.resolve_left (not_not.mpr hl))
    simp [applyParameter, hl, hp]
  · simp [applyParameter, hl]

/-- Claim C13. A reconfiguration request consisting of one limit array with a
wrongly signed component or a wrong length is rejected with the old limit
kept: for `max_decel` with a component `> 0` (Scenario D: `[1, 0, 0]`),
`max_accel` with a component `< 0`, `min_velocity` with a component `> 0`,
`max_velocity` with a component `< 0`, or any of these of length other than 3,
`dynamicParametersCallback` returns `successful = false` and leaves every
member unchanged, so a later tick computes what it would have computed
before the request. -/
theorem reject_invalid_limit (s : VelocitySmoother) (v : List ℚ) :
    ((v.length ≠ 3 ∨ ∃ x ∈ v, 0 < x) →
        dynamicParametersCallback s [⟨"max_decel", .double_array v⟩] = (s, false) ∧
          ∀ env, smootherTimer
            (dynamicParametersCallback s [⟨"max_decel", .double_array v⟩]).1 env =
              smootherTimer s env) ∧
      ((v.length ≠ 3 ∨ ∃ x ∈ v, x < 0) →
        dynamicParametersCallback s [⟨"max_accel", .double_array v⟩] = (s, false) ∧
          ∀ env, smootherTimer
            (dynamicParametersCallback s [⟨"max_accel", .double_array v⟩]).1 env =
              smootherTimer s env) ∧
      ((v.length ≠ 3 ∨ ∃ x ∈ v, 0 < x) →
        dynamicParametersCallback s [⟨"min_velocity", .double_array v⟩] = (s, false) ∧
          ∀ env, smootherTimer
            (dynamicParametersCallback s [⟨"min_velocity", .double_array v⟩]).1 env =
              smootherTimer s env) ∧
      ((v.length ≠ 3 ∨ ∃ x ∈ v, x < 0) →
        dynamicParametersCallback s [⟨"max_velocity", .double_array v⟩] = (s, false) ∧
          ∀ env, smootherTimer
            (dynamicParametersCallback s [⟨"max_velocity", .double_array v⟩]).1 env =
              smootherTimer s env) ∧
      dynamicParametersCallback s [⟨"max_decel", .double_array [1, 0, 0]⟩] = (s, false) := by
  refine ⟨fun h => ?_, fun h => ?_, fun h => ?_, fun h => ?_, ?_⟩
  · rw [reject_max_decel s v h]
    exact ⟨rfl, fun _ => rfl⟩
  · rw [reject_max_accel s v h]
    exact ⟨rfl, fun _ => rfl⟩
  · rw [reject_min_velocity s v h]
    exact ⟨rfl, fun _ => rfl⟩
  · rw [reject_max_velocity s v h]
    exact ⟨rfl, fun _ => rfl⟩
  · exact reject_max_decel s [1, 0, 0] (Or.inr ⟨1, by simp, one_pos⟩)

/-- Witness of C13 (Scenario D): `max_decel = [1, 0, 0]` proposed to the
moving example state is rejected and the next tick is the one of the old
configuration. -/
theorem reject_invalid_limit_witness :
    dynamicParametersCallback movingState [⟨"max_decel", .double_array [1, 0, 0]⟩] =
        (movingState, false) ∧
      ∀ env, smootherTimer
        (dynamicParametersCallback movingState [⟨"max_decel", .double_array [1, 0, 0]⟩]).1 env =
          smootherTimer movingState env :=
  (reject_invalid_limit movingState [1, 0, 0]).1 (Or.inr ⟨1, by simp, one_pos⟩)

theorem applyParameter_frequency (s : VelocitySmoother) (b : Bool) (f : ℚ) :
    applyParameter s b ⟨"smoothing_frequency", .double f⟩ =
      ⟨{ s with
          smoothing_frequency_ := f
          timer_ := some (static_cast_int (fl64 (1000 / f))) },
        b, false⟩ := by
  simp [applyParameter]

theorem applyParameter_frequency_pos (s : VelocitySmoother) (b : Bool) (p : Parameter)
    (hs : 0 < s.smoothing_frequency_)
    (hp : ∀ f, p = ⟨"smoothing_frequency", .double f⟩ → 0 < f) :
    0 < (applyParameter s b p).state.smoothing_frequency_ := by
  rcases p with ⟨name, value⟩
  cases value with
  | double v =>
    simp only [applyParameter]
    split_ifs with h1 h2 h3 h4
    · exact hs
    · subst h2
      exact hp v rfl
    · exact hs
    · exact hs
    · exact hs
  | double_array v =>
    simp only [applyParameter]
    split_ifs <;> exact hs
  | string v =>
    simp only [applyParameter]
    split_ifs <;> exact hs
  | other =>
    simp only [applyParameter]
    split_ifs <;> exact hs

theorem processParameters_frequency_pos (ps : List Parameter) :
    ∀ (s : VelocitySmoother) (b : Bool), 0 < s.smoothing_frequency_ →
      (∀ p ∈ ps, ∀ f, p = ⟨"smoothing_frequency", .double f⟩ → 0 < f) →
      0 < (processParameters s b ps).1.smoothing_frequency_ := by
  induction ps with
  | nil =>
    intro s b hs _
    exact hs
  | cons p rest ih =>
    intro s b hs hps
    have h1 := applyParameter_frequency_pos s b p hs (hps p (List.mem_cons_self _ _))
    simp only [processParameters]
    split_ifs
    · exact h1
    · exact ih _ _ h1 (fun q hq => hps q (List.mem_cons_of_mem _ hq))

/-- Counterexample to C14 as stated: the request `smoothing_frequency = -10`
on the default configuration (frequency 20) changes `smoothing_frequency_` to
`-10`: line 407 stores the proposed value before anything else and nothing in
the callback compares it with 0. -/
theorem smoothing_frequency_unchecked_counterexample :
    defaultState.smoothing_frequency_ = 20 ∧
      (dynamicParametersCallback defaultState
        [⟨"smoothing_frequency", .double (-10)⟩]).1.smoothing_frequency_ = -10 ∧
      ¬ (0 < (dynamicParametersCallback defaultState
        [⟨"smoothing_frequency", .double (-10)⟩]).1.smoothing_frequency_) := by
  have h : (dynamicParametersCallback defaultState
      [⟨"smoothing_frequency", .double (-10)⟩]).1.smoothing_frequency_ = -10 := by
    rw [dynamicParametersCallback_single, applyParameter_frequency]
  refine ⟨rfl, h, ?_⟩
  rw [h]
  norm_num

/-- Claim C14, amended. `dynamicParametersCallback` does not validate
`smoothing_frequency`: the loop pass for that parameter stores whatever value
is proposed in `smoothing_frequency_` and leaves `successful` as it was.
`smoothing_frequency_ > 0` is preserved by every sequence of reconfiguration
requests whose proposed `smoothing_frequency` values are all `> 0`; under that
condition on the requests the divisors of `accel/f` and `decel/f` in the
solver stay non-zero. -/
theorem smoothing_frequency_invariant (s : VelocitySmoother)
    (requests : List (List Parameter)) (hs : 0 < s.smoothing_frequency_)
    (hreq : ∀ ps ∈ requests, ∀ p ∈ ps, ∀ f,
      p = ⟨"smoothing_frequency", .double f⟩ → 0 < f) :
    0 < (reconfigure s requests).smoothing_frequency_ ∧
      (reconfigure s requests).smoothing_frequency_ ≠ 0 ∧
      ∀ (b : Bool) (f : ℚ),
        (applyParameter s b ⟨"smoothing_frequency", .double f⟩).state.smoothing_frequency_ = f ∧
          (applyParameter s b ⟨"smoothing_frequency", .double f⟩).successful = b := by
  have hpos : 0 < (reconfigure s requests).smoothing_frequency_ := by
    unfold reconfigure
    induction requests generalizing s with
    | nil => exact hs
    | cons ps rest ih =>
      simp only [List.foldl_cons]
      apply ih
      · exact processParameters_frequency_pos ps s true hs
          (hreq ps (List.mem_cons_self _ _))
      · intro qs hqs
        exact hreq qs (List.mem_cons_of_mem _ hqs)
  refine ⟨hpos, hpos.ne.symm, fun b f => ?_⟩
  rw [applyParameter_frequency]
  exact ⟨rfl, rfl⟩

/-- Witness of the amended C14: two requests on the default configuration,
proposing the frequencies 10 and 50. -/
theorem smoothing_frequency_invariant_witness :
    0 < (reconfigure defaultState
      [[⟨"smoothing_frequency", .double 10⟩],
        [⟨"velocity_timeout", .double 2⟩, ⟨"smoothing_frequency", .double 50⟩]]
      ).smoothing_frequency_ :=
  (smoothing_frequency_invariant defaultState
    [[⟨"smoothing_frequency", .double 10⟩],
      [⟨"velocity_timeout", .double 2⟩, ⟨"smoothing_frequency", .double 50⟩]]
    (by norm_num [defaultState])
    (by
      intro ps hps p hp f hf
      simp only [List.mem_cons, List.mem_singleton, List.not_mem_nil, or_false] at hps
      rcases hps with rfl | rfl
      · simp only [List.mem_singleton] at hp
        subst hp
        injection hf with _ h2
        injection h2 with h3
        rw [← h3]
        norm_num
      · simp only [List.mem_cons, List.mem_singleton, List.not_mem_nil, or_false] at hp
        rcases hp with rfl | rfl
        · injection hf with h1 _
          exact absurd h1 (by decide)
        · injection hf with _ h2
          injection h2 with h3
          rw [← h3]
          norm_num)).1

/-! ## The timer period -/

theorem static_cast_int_of_nonneg {x : ℚ} (h : 0 ≤ x) : static_cast_int x = ⌊x⌋ := by
  unfold static_cast_int
  rw [if_pos h]

/-- The truncated binary64 quotient lies between the floor and the ceiling of
the exact one and within the range of `int`. -/
theorem timer_period_bounds {x : ℚ} (h0 : 0 ≤ x) (h1 : x ≤ 2147483647) :
    static_cast_int (fl64 x) = ⌊fl64 x⌋ ∧ 0 ≤ ⌊fl64 x⌋ ∧ ⌊fl64 x⌋ ≤ 2147483647 ∧
      ⌊x⌋ ≤ ⌊fl64 x⌋ ∧ ⌊fl64 x⌋ ≤ ⌈x⌉ ∧ fl64 x ≤ ((⌈x⌉ : ℤ) : ℚ) := by
  have hfl : (0 : ℚ) ≤ fl64 x := fl64_nonneg h0
  have hfloor0 : 0 ≤ ⌊x⌋ := Int.floor_nonneg.mpr h0
  have hceil : ⌈x⌉ ≤ 2147483647 := Int.ceil_le.mpr (by exact_mod_cast h1)
  have hfc : ⌊x⌋ ≤ ⌈x⌉ := Int.floor_le_ceil x
  have e1 : fl64 ((⌊x⌋ : ℤ) : ℚ) = ⌊x⌋ :=
    fl64_intCast _ (by rw [abs_of_nonneg hfloor0]; omega)
  have e2 : fl64 ((⌈x⌉ : ℤ) : ℚ) = ⌈x⌉ :=
    fl64_intCast _ (by rw [abs_of_nonneg (le_trans hfloor0 hfc)]; omega)
  have l1 : ((⌊x⌋ : ℤ) : ℚ) ≤ fl64 x := by
    have := fl64_mono (Int.floor_le x)
    rwa [e1] at this
  have l2 : fl64 x ≤ ((⌈x⌉ : ℤ) : ℚ) := by
    have := fl64_mono (Int.le_ceil x)
    rwa [e2] at this
  have l3 : ⌊fl64 x⌋ ≤ ⌈x⌉ := by
    have := Int.floor_le (fl64 x)
    have h : ((⌊fl64 x⌋ : ℤ) : ℚ) ≤ ((⌈x⌉ : ℤ) : ℚ) := le_trans this l2
    exact_mod_cast h
  exact ⟨static_cast_int_of_nonneg hfl, Int.floor_nonneg.mpr hfl, le_trans l3 hceil,
    Int.le_floor.mpr l1, l3, l2⟩

theorem static_cast_int_thirty : static_cast_int (fl64 (1000 / 30)) = 33 := by
  have e1 : fl64 ((33 : ℤ) : ℚ) = (33 : ℤ) := fl64_intCast 33 (by norm_num)
  have e2 : fl64 ((67 : ℤ) * 2 ^ (-1 : ℤ)) = (67 : ℤ) * 2 ^ (-1 : ℤ) :=
    fl64_of_rep 67 (-1) (by norm_num) (by norm_num)
  have l1 : fl64 ((33 : ℤ) : ℚ) ≤ fl64 (1000 / 30) := fl64_mono (by norm_num)
  have l2 : fl64 (1000 / 30) ≤ fl64 ((67 : ℤ) * 2 ^ (-1 : ℤ)) := fl64_mono (by norm_num)
  rw [e1] at l1
  rw [e2] at l2
  rw [static_cast_int_of_nonneg (le_trans (by norm_num) l1), Int.floor_eq_iff]
  constructor
  · exact_mod_cast l1
  · refine lt_of_le_of_lt l2 ?_
    norm_num

theorem fl64_seven :
    fl64 (1000 / (5026338869833143 / 35184372088832)) = 7 := by
  have h := fl64_eval (x := 1000 / (5026338869833143 / 35184372088832)) 2 7881299347898368
    (by norm_num) (by rw [abs_of_pos (by norm_num)]; norm_num)
    (by rw [abs_of_pos (by norm_num)]; norm_num)
    (by rw [abs_le]; constructor <;> norm_num)
    (by intro _; norm_num)
  rw [h]
  norm_num

/-- Counterexample to C20 as stated. At a smoothing frequency of 30 the timer
created at activation, and the one created by a reconfiguration to 30, has a
period of `static_cast<int>(1000.0 / 30) = 33` milliseconds, which is not
`1/30` second. At the frequency 142.85714285714286 (the binary64 value nearest
to 1000/7) the binary64 quotient `1000.0 / f` rounds up to 7.0 and the period
is 7 milliseconds, which is longer than `1/f` second. -/
theorem timer_period_truncated_counterexample :
    (0 : ℚ) < thirtyHzState.smoothing_frequency_ ∧
      (on_activate thirtyHzState).timer_ = some 33 ∧
      (dynamicParametersCallback defaultState
        [⟨"smoothing_frequency", .double 30⟩]).1.timer_ = some 33 ∧
      ((33 : ℤ) : ℚ) / 1000 ≠ 1 / 30 ∧
      (0 : ℚ) < sevenMsState.smoothing_frequency_ ∧
      (on_activate sevenMsState).timer_ = some 7 ∧
      1 / sevenMsState.smoothing_frequency_ < ((7 : ℤ) : ℚ) / 1000 := by
  refine ⟨by norm_num [thirtyHzState], ?_, ?_, by norm_num,
    by norm_num [sevenMsState], ?_, by norm_num [sevenMsState]⟩
  · show some (static_cast_int (fl64 (1000 / 30))) = some 33
    rw [static_cast_int_thirty]
  · rw [dynamicParametersCallback_single, applyParameter_frequency]
    show some (static_cast_int (fl64 (1000 / 30))) = some 33
    rw [static_cast_int_thirty]
  · show some (static_cast_int
      (fl64 (1000 / (5026338869833143 / 35184372088832)))) = some 7
    rw [fl64_seven, static_cast_int_of_nonneg (by norm_num)]
    norm_num

/-- Claim C20, amended. For every smoothing frequency `f > 0` (with `1000/f`
within the range of `int`) the timer created at activation and at a
`smoothing_frequency` reconfiguration has a period of `p` milliseconds, `p`
being the truncation of the binary64 quotient `1000.0 / f`: `p` is a
non-negative `int` between `floor(1000/f)` and `ceil(1000/f)`, so the period
differs from the `1/f` seconds the solver assumes by less than one millisecond,
it equals `1/f` seconds exactly when `1000/f` is a whole number (as for the
default 20 Hz), and it is longer than `1/f` seconds only when the binary64
quotient has rounded up to the whole number `ceil(1000/f)`. -/
theorem timer_period (s : VelocitySmoother) (f : ℚ) (hs : 0 < s.smoothing_frequency_)
    (hf : 0 < f) (hsr : 1000 / s.smoothing_frequency_ ≤ 2147483647)
    (hfr : 1000 / f ≤ 2147483647) :
    (on_activate s).timer_ = some ⌊fl64 (1000 / s.smoothing_frequency_)⌋ ∧
      (dynamicParametersCallback s [⟨"smoothing_frequency", .double f⟩]).1.timer_ =
        some ⌊fl64 (1000 / f)⌋ ∧
      ∀ g : ℚ, 0 < g → 1000 / g ≤ 2147483647 →
        0 ≤ ⌊fl64 (1000 / g)⌋ ∧ ⌊fl64 (1000 / g)⌋ ≤ 2147483647 ∧
          ⌊1000 / g⌋ ≤ ⌊fl64 (1000 / g)⌋ ∧ ⌊fl64 (1000 / g)⌋ ≤ ⌈1000 / g⌉ ∧
          |((⌊fl64 (1000 / g)⌋ : ℤ) : ℚ) / 1000 - 1 / g| < 1 / 1000 ∧
          (((⌊fl64 (1000 / g)⌋ : ℤ) : ℚ) / 1000 = 1 / g ↔ ∃ n : ℤ, 1000 / g = n) ∧
          (1 / g < ((⌊fl64 (1000 / g)⌋ : ℤ) : ℚ) / 1000 →
            fl64 (1000 / g) = ((⌈1000 / g⌉ : ℤ) : ℚ)) := by
  have hxs : 0 ≤ 1000 / s.smoothing_frequency_ := div_nonneg (by norm_num) hs.le
  have hxf : 0 ≤ 1000 / f := div_nonneg (by norm_num) hf.le
  refine ⟨?_, ?_, ?_⟩
  · show some (static_cast_int (fl64 (1000 / s.smoothing_frequency_))) = _
    rw [(timer_period_bounds hxs hsr).1]
  · rw [dynamicParametersCallback_single, applyParameter_frequency]
    show some (static_cast_int (fl64 (1000 / f))) = _
    rw [(timer_period_bounds hxf hfr).1]
  · intro g hgpos hgr
    have hx : 0 ≤ 1000 / g := div_nonneg (by norm_num) hgpos.le
    obtain ⟨_, b0, b1, b2, b3, b4⟩ := timer_period_bounds hx hgr
    have e : 1 / g = (1000 / g) / 1000 := by
      field_simp
    have c2 : (((⌊1000 / g⌋ : ℤ) : ℚ)) ≤ ((⌊fl64 (1000 / g)⌋ : ℤ) : ℚ) := by exact_mod_cast b2
    have c3 : ((⌊fl64 (1000 / g)⌋ : ℤ) : ℚ) ≤ ((⌈1000 / g⌉ : ℤ) : ℚ) := by exact_mod_cast b3
    have f1 := Int.lt_floor_add_one (1000 / g)
    have f2 := Int.ceil_lt_add_one (1000 / g)
    refine ⟨b0, b1, b2, b3, ?_, ?_, ?_⟩
    · rw [e, ← sub_div, abs_div, abs_of_pos (by norm_num : (0 : ℚ) < 1000),
        div_lt_div_iff_of_pos_right (by norm_num)]
      rw [abs_lt]
      constructor <;> linarith
    · rw [e, div_left_inj' (by norm_num : (1000 : ℚ) ≠ 0)]
      constructor
      · intro h
        exact ⟨⌊fl64 (1000 / g)⌋, h.symm⟩
      · rintro ⟨n, hn⟩
        have hn0 : (0 : ℚ) ≤ n := by rw [← hn]; exact hx
        have hn1 : (n : ℚ) ≤ 2147483647 := by rw [← hn]; exact hgr
        have hn0i : 0 ≤ n := by exact_mod_cast hn0
        have hn1i : n ≤ 2147483647 := by exact_mod_cast hn1
        rw [hn, fl64_intCast n (by rw [abs_of_nonneg hn0i]; omega), Int.floor_intCast]
    · intro hlong
      rw [e, div_lt_div_iff_of_pos_right (by norm_num : (0 : ℚ) < 1000)] at hlong
      have h1 : ⌈1000 / g⌉ ≤ ⌊fl64 (1000 / g)⌋ := Int.ceil_le.mpr hlong.le
      have h2 : ⌊fl64 (1000 / g)⌋ = ⌈1000 / g⌉ := le_antisymm b3 h1
      have h3 := Int.floor_le (fl64 (1000 / g))
      rw [h2] at h3
      exact le_antisymm b4 h3

/-- Witness of the amended C20: the default configuration (20 Hz) and a
reconfiguration to 30 Hz. -/
theorem timer_period_witness :
    (on_activate defaultState).timer_ =
        some ⌊fl64 (1000 / defaultState.smoothing_frequency_)⌋ ∧
      (dynamicParametersCallback defaultState
        [⟨"smoothing_frequency", .double 30⟩]).1.timer_ = some ⌊fl64 ((1000 : ℚ) / 30)⌋ :=
  ⟨(timer_period defaultState 30 (by norm_num [defaultState]) (by norm_num)
      (by norm_num [defaultState]) (by norm_num)).1,
    (timer_period defaultState 30 (by norm_num [defaultState]) (by norm_num)
      (by norm_num [defaultState]) (by norm_num)).2.1⟩

/-! ## Startup validation -/

theorem getElem?_eq_idx (v : List ℚ) (i : Nat) (h : i < v.length) :
    v[i]? = some (idx v i) := by
  unfold idx
  rw [List.getD_eq_getElem?_getD, List.getElem?_eq_getElem h]
  rfl

theorem checkAxis_eq (s : VelocitySmoother) (i : Nat) (hi : i < 3)
    (h1 : s.max_decels_.length = 3) (h2 : s.max_accels_.length = 3)
    (h3 : s.min_velocities_.length = 3) (h4 : s.max_velocities_.length = 3) :
    checkAxis s i = some (decide (limitCheckFails s i)) := by
  unfold checkAxis limitCheckFails
  rw [getElem?_eq_idx _ i (by omega), getElem?_eq_idx _ i (by omega),
    getElem?_eq_idx _ i (by omega), getElem?_eq_idx _ i (by omega)]
  simp only
  split_ifs <;> simp [*]

theorem exists_axis_iff (P : Nat → Prop) :
    (∃ i, i < 3 ∧ P i) ↔ (P 0 ∨ P 1 ∨ P 2) := by
  constructor
  · rintro ⟨i, hi, h⟩
    interval_cases i
    · exact Or.inl h
    · exact Or.inr (Or.inl h)
    · exact Or.inr (Or.inr h)
  · rintro (h | h | h)
    · exact ⟨0, by norm_num, h⟩
    · exact ⟨1, by norm_num, h⟩
    · exact ⟨2, by norm_num, h⟩

theorem checkLimits_eq (s : VelocitySmoother)
    (h1 : s.max_decels_.length = 3) (h2 : s.max_accels_.length = 3)
    (h3 : s.min_velocities_.length = 3) (h4 : s.max_velocities_.length = 3) :
    checkLimits s =
      some (decide (limitCheckFails s 0 ∨ limitCheckFails s 1 ∨ limitCheckFails s 2)) := by
  unfold checkLimits
  rw [checkAxis_eq s 0 (by norm_num) h1 h2 h3 h4, checkAxis_eq s 1 (by norm_num) h1 h2 h3 h4,
    checkAxis_eq s 2 (by norm_num) h1 h2 h3 h4]
  by_cases a0 : limitCheckFails s 0 <;> by_cases a1 : limitCheckFails s 1 <;>
    by_cases a2 : limitCheckFails s 2 <;> simp [a0, a1, a2]

/-- Claim C15. Startup validation is fatal: for every startup configuration
whose five limit arrays have length 3, `on_configure` returns (no element is
read outside its vector) and the value is FAILURE whenever some axis violates
the KinematicLimits invariant (`max_decel > 0`, `max_accel < 0`,
`min_velocity > 0`, `max_velocity < 0` or `min_velocity > max_velocity`) or
the feedback string is neither `OPEN_LOOP` nor `CLOSED_LOOP`; when none of
these holds and real-time priority is not requested it is SUCCESS, with
`open_loop_` true exactly for `OPEN_LOOP`. -/
theorem on_configure_validation (s : VelocitySmoother) (p : StartupParams)
    (hlen : p.max_velocity.length = 3 ∧ p.min_velocity.length = 3 ∧
      p.max_accel.length = 3 ∧ p.max_decel.length = 3 ∧ p.deadband_velocity.length = 3) :
    ∃ r s2, on_configure s p = some (r, s2) ∧
      (((∃ i, i < 3 ∧ axisInvalid p i) ∨
          (p.feedback ≠ "OPEN_LOOP" ∧ p.feedback ≠ "CLOSED_LOOP")) →
        r = CallbackReturn.FAILURE) ∧
      ((¬ ∃ i, i < 3 ∧ axisInvalid p i) →
        (p.feedback = "OPEN_LOOP" ∨ p.feedback = "CLOSED_LOOP") →
        p.use_realtime_priority = false →
        r = CallbackReturn.SUCCESS ∧ (s2.open_loop_ = true ↔ p.feedback = "OPEN_LOOP")) := by
  obtain ⟨l1, l2, l3, l4, l5⟩ := hlen
  have hcheck := checkLimits_eq
    { s with
      smoothing_frequency_ := p.smoothing_frequency
      scale_velocities_ := p.scale_velocities
      max_velocities_ := p.max_velocity
      min_velocities_ := p.min_velocity
      max_accels_ := p.max_accel
      max_decels_ := p.max_decel } l4 l3 l2 l1
  have hinv : (∃ i, i < 3 ∧ axisInvalid p i) ↔
      (axisInvalid p 0 ∨ axisInvalid p 1 ∨ axisInvalid p 2) := exists_axis_iff _
  have hsize : ¬ (p.max_velocity.length ≠ 3 ∨ p.min_velocity.length ≠ 3 ∨
      p.max_accel.length ≠ 3 ∨ p.max_decel.length ≠ 3 ∨ p.deadband_velocity.length ≠ 3) := by
    rw [l1, l2, l3, l4, l5]
    simp
  unfold on_configure
  simp only
  rw [hcheck]
  by_cases hbad : axisInvalid p 0 ∨ axisInvalid p 1 ∨ axisInvalid p 2
  · have hd : decide (limitCheckFails
        { s with
          smoothing_frequency_ := p.smoothing_frequency
          scale_velocities_ := p.scale_velocities
          max_velocities_ := p.max_velocity
          min_velocities_ := p.min_velocity
          max_accels_ := p.max_accel
          max_decels_ := p.max_decel } 0 ∨
        limitCheckFails
        { s with
          smoothing_frequency_ := p.smoothing_frequency
          scale_velocities_ := p.scale_velocities
          max_velocities_ := p.max_velocity
          min_velocities_ := p.min_velocity
          max_accels_ := p.max_accel
          max_decels_ := p.max_decel } 1 ∨
        limitCheckFails
        { s with
          smoothing_frequency_ := p.smoothing_frequency
          scale_velocities_ := p.scale_velocities
          max_velocities_ := p.max_velocity
          min_velocities_ := p.min_velocity
          max_accels_ := p.max_accel
          max_decels_ := p.max_decel } 2) = true := decide_eq_true hbad
    rw [hd]
    refine ⟨_, _, rfl, fun _ => rfl, fun h => ?_⟩
    exact absurd (hinv.mpr hbad) h
  · have hd : decide (limitCheckFails
        { s with
          smoothing_frequency_ := p.smoothing_frequency
          scale_velocities_ := p.scale_velocities
          max_velocities_ := p.max_velocity
          min_velocities_ := p.min_velocity
          max_accels_ := p.max_accel
          max_decels_ := p.max_decel } 0 ∨
        limitCheckFails
        { s with
          smoothing_frequency_ := p.smoothing_frequency
          scale_velocities_ := p.scale_velocities
          max_velocities_ := p.max_velocity
          min_velocities_ := p.min_velocity
          max_accels_ := p.max_accel
          max_decels_ := p.max_decel } 1 ∨
        limitCheckFails
        { s with
          smoothing_frequency_ := p.smoothing_frequency
          scale_velocities_ := p.scale_velocities
          max_velocities_ := p.max_velocity
          min_velocities_ := p.min_velocity
          max_accels_ := p.max_accel
          max_decels_ := p.max_decel } 2) = false := decide_eq_false hbad
    rw [hd]
    simp only
    rw [if_neg hsize]
    by_cases hopen : p.feedback = "OPEN_LOOP"
    · rw [if_pos hopen]
      by_cases hrt : p.use_realtime_priority = true ∧ ¬ p.realtime_priority_ok = true
      · rw [if_pos hrt]
        refine ⟨_, _, rfl, ?_, ?_⟩
        · rintro (h | h)
          · exact absurd (hinv.mp h) hbad
          · exact absurd hopen h.1
        · intro _ _ hno
          rw [hno] at hrt
          exact absurd hrt.1 Bool.false_ne_true
      · rw [if_neg hrt]
        refine ⟨_, _, rfl, ?_, ?_⟩
        · rintro (h | h)
          · exact absurd (hinv.mp h) hbad
          · exact absurd hopen h.1
        · intro _ _ _
          exact ⟨rfl, fun _ => hopen, fun _ => rfl⟩
    · rw [if_neg hopen]
      by_cases hclosed : p.feedback = "CLOSED_LOOP"
      · rw [if_pos hclosed]
        by_cases hrt : p.use_realtime_priority = true ∧ ¬ p.realtime_priority_ok = true
        · rw [if_pos hrt]
          refine ⟨_, _, rfl, ?_, ?_⟩
          · rintro (h | h)
            · exact absurd (hinv.mp h) hbad
            · exact absurd hclosed h.2
          · intro _ _ hno
            rw [hno] at hrt
            exact absurd hrt.1 Bool.false_ne_true
        · rw [if_neg hrt]
          refine ⟨_, _, rfl, ?_, ?_⟩
          · rintro (h | h)
            · exact absurd (hinv.mp h) hbad
            · exact absurd hclosed h.2
          · intro _ _ _
            refine ⟨rfl, fun h => ?_, fun h => absurd h hopen⟩
            exact absurd h Bool.false_ne_true
      · rw [if_neg hclosed]
        refine ⟨_, _, rfl, fun _ => rfl, ?_⟩
        rintro _ (h | h) _
        · exact absurd h hopen
        · exact absurd h hclosed

/-- Witness of C15: the declared defaults configure successfully in open
loop. -/
theorem on_configure_validation_witness :
    ∃ r s2, on_configure defaultState defaultParams = some (r, s2) ∧
      ((¬ ∃ i, i < 3 ∧ axisInvalid defaultParams i) →
        (defaultParams.feedback = "OPEN_LOOP" ∨ defaultParams.feedback = "CLOSED_LOOP") →
        defaultParams.use_realtime_priority = false →
        r = CallbackReturn.SUCCESS ∧
          (s2.open_loop_ = true ↔ defaultParams.feedback = "OPEN_LOOP")) := by
  obtain ⟨r, s2, h1, _, h3⟩ := on_configure_validation defaultState defaultParams
    ⟨rfl, rfl, rfl, rfl, rfl⟩
  exact ⟨r, s2, h1, h3⟩

/-! ## No overshoot and the velocity limits -/

/-- Claim C22, at the failing inputs. With an empty `max_decel` the first pass
of the loop at lines 77-109 reads `max_decels_[0]` outside the vector; with
`max_decel = [-1]` the first pass succeeds and the second reads
`max_decels_[1]` outside the vector. In both cases the read happens before the
size check of lines 123-132 is reached, whatever the members held before. A
four-element `max_decel`, whose reads are in range, does end in FAILURE. -/
theorem on_configure_reads_before_size_check :
    (∀ s, on_configure s emptyDecelParams = none) ∧
      (∀ s, on_configure s shortDecelParams = none) ∧
      (∀ s, (on_configure s longDecelParams).map Prod.fst = some CallbackReturn.FAILURE) := by
  refine ⟨fun s => ?_, fun s => ?_, fun s => ?_⟩
  · simp [on_configure, checkLimits, checkAxis, emptyDecelParams, defaultParams]
  · norm_num [on_configure, checkLimits, checkAxis, shortDecelParams, defaultParams]
  · norm_num [on_configure, checkLimits, checkAxis, longDecelParams, defaultParams]

end nav2_velocity_smoother

namespace nav2_graceful_controller

/-! ## The exclusion of initial rotation and backward motion -/

theorem name_has_prefix (plugin suffix : String) (h : ".".toList <+: suffix.toList) :
    (plugin ++ ".").toList <+: (plugin ++ suffix).toList := by
  show (plugin ++ ".").data <+: (plugin ++ suffix).data
  rw [String.data_append, String.data_append]
  exact (List.prefix_append_right_inj _).mpr h

theorem name_ne (plugin a b : String) (h : a ≠ b) : plugin ++ a ≠ plugin ++ b := by
  intro e
  apply h
  have h2 := congrArg String.data e
  rw [String.data_append, String.data_append] at h2
  exact String.ext (List.append_cancel_left h2)

theorem applyDouble_flags (h : ParameterHandler) (name : String) (v : ℚ) :
    (applyDouble h name v).plugin_name_ = h.plugin_name_ ∧
      (applyDouble h name v).params_.initial_rotation = h.params_.initial_rotation ∧
      (applyDouble h name v).params_.allow_backward = h.params_.allow_backward := by
  unfold applyDouble
  refine ⟨?_, ?_, ?_⟩
  · simp only [apply_ite ParameterHandler.plugin_name_, ite_self]
  · simp only [apply_ite (fun x : ParameterHandler => x.params_.initial_rotation), ite_self]
  · simp only [apply_ite (fun x : ParameterHandler => x.params_.allow_backward), ite_self]

theorem applyBool_consistent (h : ParameterHandler) (name : String) (v : Bool)
    (hc : Consistent h.params_) : Consistent (applyBool h name v).params_ := by
  unfold Consistent at hc ⊢
  unfold applyBool
  split_ifs with h1 h2 h3 h4 h5 h6
  · exact hc
  · intro hboth
    exact h2 hboth
  · exact hc
  · exact hc
  · intro hboth
    exact h5 hboth
  · exact hc
  · exact hc

theorem applyBool_plugin_name (h : ParameterHandler) (name : String) (v : Bool) :
    (applyBool h name v).plugin_name_ = h.plugin_name_ := by
  unfold applyBool
  split_ifs <;> rfl

theorem applyParameter_consistent (h : ParameterHandler) (p : Parameter)
    (hc : Consistent h.params_) : Consistent (applyParameter h p).params_ := by
  rcases p with ⟨name, value⟩
  unfold applyParameter
  split_ifs with hpre
  · cases value with
    | double v =>
      obtain ⟨_, e1, e2⟩ := applyDouble_flags h name v
      unfold Consistent at hc ⊢
      simp only
      rw [e1, e2]
      exact hc
    | bool v => exact applyBool_consistent h name v hc
    | other => exact hc
  · exact hc

theorem applyParameter_plugin_name (h : ParameterHandler) (p : Parameter) :
    (applyParameter h p).plugin_name_ = h.plugin_name_ := by
  rcases p with ⟨name, value⟩
  unfold applyParameter
  split_ifs with hpre
  · cases value with
    | double v => exact (applyDouble_flags h name v).1
    | bool v => exact applyBool_plugin_name h name v
    | other => rfl
  · rfl

theorem foldl_consistent (ps : List Parameter) :
    ∀ h : ParameterHandler, Consistent h.params_ →
      Consistent (ps.foldl applyParameter h).params_ := by
  induction ps with
  | nil =>
    intro h hc
    exact hc
  | cons p rest ih =>
    intro h hc
    exact ih _ (applyParameter_consistent h p hc)

theorem foldl_plugin_name (ps : List Parameter) :
    ∀ h : ParameterHandler, (ps.foldl applyParameter h).plugin_name_ = h.plugin_name_ := by
  induction ps with
  | nil =>
    intro h
    rfl
  | cons p rest ih =>
    intro h
    exact (ih _).trans (applyParameter_plugin_name h p)

theorem applyParameter_initial_rotation_skip (h : ParameterHandler)
    (hb : h.params_.allow_backward = true) :
    applyParameter h ⟨h.plugin_name_ ++ ".initial_rotation", .bool true⟩ = h := by
  have hpre := name_has_prefix h.plugin_name_ ".initial_rotation" (by decide)
  unfold applyParameter applyBool
  simp only [hpre, not_true_eq_false, if_false, if_true, hb, and_self]

theorem applyParameter_allow_backward_skip (h : ParameterHandler)
    (hi : h.params_.initial_rotation = true) :
    applyParameter h ⟨h.plugin_name_ ++ ".allow_backward", .bool true⟩ = h := by
  have hpre := name_has_prefix h.plugin_name_ ".allow_backward" (by decide)
  have n1 := name_ne h.plugin_name_ ".allow_backward" ".initial_rotation" (by decide)
  have n2 := name_ne h.plugin_name_ ".allow_backward" ".prefer_final_rotation" (by decide)
  unfold applyParameter applyBool
  simp only [hpre, not_true_eq_false, if_false, if_true, hi, and_self, n1, n2]

/-- Claim C23. The graceful controller's parameters never have
`initial_rotation` and `allow_backward` both true: the constructor establishes
it for every declared parameter set (keeping `initial_rotation` and forcing
`allow_backward` to false when both are requested), and
`dynamicParametersCallback` preserves it for every list of parameter updates
processed in order; an update that would make both true is skipped, and the
rest of the request is applied as if that update were not there. -/
theorem initial_rotation_excludes_backward :
    (∀ (plugin : String) (node : NodeParameters),
        Consistent (ParameterHandler.construct plugin node).params_ ∧
          (ParameterHandler.construct plugin node).params_.initial_rotation =
            node.initial_rotation ∧
          (ParameterHandler.construct plugin node).params_.allow_backward =
            (node.allow_backward && !node.initial_rotation)) ∧
      (∀ (h : ParameterHandler) (ps : List Parameter), Consistent h.params_ →
        Consistent (dynamicParametersCallback h ps).1.params_ ∧
          (dynamicParametersCallback h ps).2 = true) ∧
      (∀ (h : ParameterHandler) (p : Parameter) (rest : List Parameter),
        dynamicParametersCallback h (p :: rest) =
          dynamicParametersCallback (applyParameter h p) rest) ∧
      (∀ (h : ParameterHandler) (pre rest : List Parameter),
        (dynamicParametersCallback h pre).1.params_.allow_backward = true →
        dynamicParametersCallback h
            (pre ++ ⟨h.plugin_name_ ++ ".initial_rotation", .bool true⟩ :: rest) =
          dynamicParametersCallback h (pre ++ rest)) ∧
      (∀ (h : ParameterHandler) (pre rest : List Parameter),
        (dynamicParametersCallback h pre).1.params_.initial_rotation = true →
        dynamicParametersCallback h
            (pre ++ ⟨h.plugin_name_ ++ ".allow_backward", .bool true⟩ :: rest) =
          dynamicParametersCallback h (pre ++ rest)) := by
  refine ⟨?_, ?_, fun h p rest => rfl, ?_, ?_⟩
  · intro plugin node
    refine ⟨?_, rfl, ?_⟩
    · unfold Consistent ParameterHandler.construct
      simp only
      rintro ⟨h1, h2⟩
      by_cases hboth : node.initial_rotation = true ∧ node.allow_backward = true
      · rw [if_pos hboth] at h2
        exact Bool.false_ne_true h2
      · rw [if_neg hboth] at h2
        exact hboth ⟨h1, h2⟩
    · unfold ParameterHandler.construct
      simp only
      cases node.initial_rotation <;> cases node.allow_backward <;> simp
  · intro h ps hc
    exact ⟨foldl_consistent ps h hc, rfl⟩
  · intro h pre rest hb
    unfold dynamicParametersCallback at hb ⊢
    simp only at hb
    have hn := foldl_plugin_name pre h
    rw [List.foldl_append, List.foldl_append, List.foldl_cons, ← hn,
      applyParameter_initial_rotation_skip _ hb]
  · intro h pre rest hi
    unfold dynamicParametersCallback at hi ⊢
    simp only at hi
    have hn := foldl_plugin_name pre h
    rw [List.foldl_append, List.foldl_append, List.foldl_cons, ← hn,
      applyParameter_allow_backward_skip _ hi]

/-- Witness of C23: both options requested at construction, then a request
that carries `allow_backward = true` between two other updates. -/
theorem initial_rotation_excludes_backward_witness :
    Consistent
      (dynamicParametersCallback (ParameterHandler.construct "FollowPath" bothRequested)
        mixedRequest).1.params_ :=
  (initial_rotation_excludes_backward.2.1
    (ParameterHandler.construct "FollowPath" bothRequested) mixedRequest
    (initial_rotation_excludes_backward.1 "FollowPath" bothRequested).1).1

theorem mixedRequest_result :
    (dynamicParametersCallback (ParameterHandler.construct "FollowPath" bothRequested)
        mixedRequest).1.params_.k_phi = 3 ∧
      (dynamicParametersCallback (ParameterHandler.construct "FollowPath" bothRequested)
        mixedRequest).1.params_.beta = 1/2 ∧
      (dynamicParametersCallback (ParameterHandler.construct "FollowPath" bothRequested)
        mixedRequest).1.params_.allow_backward = false ∧
      (dynamicParametersCallback (ParameterHandler.construct "FollowPath" bothRequested)
        mixedRequest).1.params_.initial_rotation = true := by
  have e1 : ("FollowPath" ++ "." : String) = "FollowPath." := by decide
  have p1 : "FollowPath.".toList <+: "FollowPath.k_phi".toList := by decide
  have p2 : "FollowPath.".toList <+: "FollowPath.allow_backward".toList := by decide
  have p3 : "FollowPath.".toList <+: "FollowPath.beta".toList := by decide
  simp [dynamicParametersCallback, mixedRequest, applyParameter, applyDouble, applyBool,
    ParameterHandler.construct, bothRequested, e1, p1, p2, p3]

end nav2_graceful_controller
